import Mathlib

/-!
# Battlefield Survival Game (`src/sketch.js`): the simulation engine

A shallow embedding of the update engine of the sketch: the global variables become the
record `Game`, every class becomes a record with its methods as functions, and `draw` and
`keyPressed` become state transformers.

Modelling conventions.

* Coordinates and angles are exact rationals.  The trigonometric functions of p5.js
  (`cos`, `sin`, `atan2`, in `angleMode(DEGREES)`) and the values returned by `random()`
  are not code of the sketch; they are the fields of the parameter `P5`.
* `dist(..) < r` is decided on squared distances (`distLt`), and two distances are compared
  through their squares; this is the comparison of the real numbers, rounding is not modelled.
* `random()` is the oracle `P5.rand`, read at the index `Game.rngIdx`, which counts the calls
  made so far.
* Rendering (`show`, `showWarning`, the HUD text, the two screens) and the wall clock
  (`millis`, `startTime`) only feed the display and are left out.
* `size`, `speed`, `r` and `radius` are assigned once in the constructors and never again;
  they are constants of the classes.
-/

namespace Sketch

/-! ## The p5.js environment -/

/-- The p5.js functions whose values the sketch consumes: trigonometry in degrees and the
stream of values returned by successive `random()` calls. -/
structure P5 where
  cos : ℚ → ℚ
  sin : ℚ → ℚ
  atan2 : ℚ → ℚ → ℚ
  rand : ℕ → ℚ

/-- The `mouseButton` global of p5.js. -/
inductive MouseButton where
  | LEFT
  | RIGHT
  | CENTER
  | NONE
deriving DecidableEq

/-- The input globals read during one call of `draw` or `keyPressed`. -/
structure Input where
  keyIsDown : ℕ → Bool
  mouseIsPressed : Bool
  mouseButton : MouseButton
  mouseX : ℚ
  mouseY : ℚ

/-- Canvas width, from `createCanvas(800, 600)`. -/
def width : ℚ := 800

/-- Canvas height, from `createCanvas(800, 600)`. -/
def height : ℚ := 600

/-- The global `warningInterval`, never assigned after its declaration. -/
def warningInterval : ℤ := 200

def LEFT_ARROW : ℕ := 37
def UP_ARROW : ℕ := 38
def RIGHT_ARROW : ℕ := 39
def DOWN_ARROW : ℕ := 40

/-- The square of `dist(x1, y1, x2, y2)`. -/
def distSq (x1 y1 x2 y2 : ℚ) : ℚ :=
  (x2 - x1) * (x2 - x1) + (y2 - y1) * (y2 - y1)

/-- The test `dist(x1, y1, x2, y2) < r`. -/
def distLt (x1 y1 x2 y2 r : ℚ) : Bool :=
  decide (0 < r ∧ distSq x1 y1 x2 y2 < r * r)

/-- p5 `constrain(n, low, high)`, that is `Math.max(Math.min(n, high), low)`. -/
def constrain (n low high : ℚ) : ℚ :=
  max (min n high) low

/-- p5 `lerp(start, stop, amt)`. -/
def lerp (start stop amt : ℚ) : ℚ :=
  amt * (stop - start) + start

/-- p5 `map(n, start1, stop1, start2, stop2)`. -/
def map (n start1 stop1 start2 stop2 : ℚ) : ℚ :=
  (n - start1) / (stop1 - start1) * (stop2 - start2) + start2

/-! ## The classes -/

/-- Class `Player`. -/
structure Player where
  x : ℚ
  y : ℚ
  health : ℤ
  cooldown : ℤ
  weapon : ℕ
  ammoMachine : ℤ
  ammoShotgun : ℤ
deriving DecidableEq

def Player.size (_ : Player) : ℚ := 30
def Player.speed (_ : Player) : ℚ := 3

/-- The constructor `new Player(x, y)`. -/
def Player.new (x y : ℚ) : Player :=
  { x := x, y := y, health := 100, cooldown := 0, weapon := 1,
    ammoMachine := 100, ammoShotgun := 100 }

/-- Class `Partner`. -/
structure Partner where
  x : ℚ
  y : ℚ
  health : ℤ
  cooldown : ℤ
  bound : Bool
  followTimer : ℤ
  offsetAngle : ℚ
deriving DecidableEq

def Partner.size (_ : Partner) : ℚ := 25
def Partner.speed (_ : Partner) : ℚ := 2
def Partner.radius (_ : Partner) : ℚ := 50

/-- Class `Bullet`; `trail` holds the sampled positions, oldest first. -/
structure Bullet where
  x : ℚ
  y : ℚ
  angle : ℚ
  trail : List (ℚ × ℚ)
deriving DecidableEq

def Bullet.r (_ : Bullet) : ℚ := 5
def Bullet.speed (_ : Bullet) : ℚ := 7

/-- The constructor `new Bullet(x, y, angle)`. -/
def Bullet.new (x y angle : ℚ) : Bullet :=
  { x := x, y := y, angle := angle, trail := [] }

/-- Class `AttackBullet`. -/
structure AttackBullet where
  x : ℚ
  y : ℚ
  angle : ℚ
deriving DecidableEq

def AttackBullet.r (_ : AttackBullet) : ℚ := 6
def AttackBullet.speed (_ : AttackBullet) : ℚ := 5

/-- The constructor `new AttackBullet(x, y, targetX, targetY)`. -/
def AttackBullet.new (env : P5) (x y targetX targetY : ℚ) : AttackBullet :=
  { x := x, y := y, angle := env.atan2 (targetY - y) (targetX - x) }

/-- Classes `Enemy` (`strong = false`) and `StrongEnemy` (`strong = true`); `speechTimer`
and `trail` are fields of `StrongEnemy` only and stay at `0` and `[]` for an `Enemy`. -/
structure Enemy where
  strong : Bool
  x : ℚ
  y : ℚ
  health : ℤ
  speechTimer : ℤ
  trail : List (ℚ × ℚ)
deriving DecidableEq

def Enemy.size (_ : Enemy) : ℚ := 30
def Enemy.speed (e : Enemy) : ℚ := if e.strong then 3 else 3 / 2

/-- The constructor `new Enemy(x, y)`. -/
def Enemy.new (x y : ℚ) : Enemy :=
  { strong := false, x := x, y := y, health := 1, speechTimer := 0, trail := [] }

/-- The constructor `new StrongEnemy(x, y)`. -/
def StrongEnemy.new (x y : ℚ) : Enemy :=
  { strong := true, x := x, y := y, health := 1, speechTimer := 60, trail := [] }

/-- Class `Pickup`; `type` is 2 (machine gun ammo) or 3 (shotgun ammo). -/
structure Pickup where
  x : ℚ
  y : ℚ
  type : ℕ
deriving DecidableEq

def Pickup.size (_ : Pickup) : ℚ := 20

/-- The global `warningType`. -/
inductive WarningType where
  | enemy
  | attack
deriving DecidableEq

/-- The global variables of the sketch, with p5's `frameCount` and the number of `random()`
calls made so far. -/
structure Game where
  gameStarted : Bool
  player : Player
  bullets : List Bullet
  enemies : List Enemy
  attackBullets : List AttackBullet
  partners : List Partner
  pickups : List Pickup
  warningActive : Bool
  warningTimer : ℤ
  lastWarningFrame : ℤ
  warningType : WarningType
  roundCount : ℕ
  enemySpawnCount : ℕ
  score : ℕ
  gameOver : Bool
  ammoWarningTimer : ℤ
  frameCount : ℤ
  rngIdx : ℕ
deriving DecidableEq

/-- The initial values of the globals followed by `setup()`: the player is created at the
centre of the canvas. -/
def setup : Game :=
  { gameStarted := false, player := Player.new (width / 2) (height / 2),
    bullets := [], enemies := [], attackBullets := [], partners := [], pickups := [],
    warningActive := false, warningTimer := 0,
    lastWarningFrame := 0, warningType := WarningType.enemy, roundCount := 0,
    enemySpawnCount := 1, score := 0, gameOver := false, ammoWarningTimer := 0,
    frameCount := 0, rngIdx := 0 }

/-- One call of `random()`: the next value of the oracle. -/
def random (env : P5) (g : Game) : ℚ × Game :=
  (env.rand g.rngIdx, { g with rngIdx := g.rngIdx + 1 })

/-! ## Methods of the classes -/

/-- Method `Player.update`: the four movement tests, the two clamps and the cooldown. -/
def Player.update (inp : Input) (p : Player) : Player :=
  let x1 := if inp.keyIsDown LEFT_ARROW || inp.keyIsDown 65 then p.x - p.speed else p.x
  let x2 := if inp.keyIsDown RIGHT_ARROW || inp.keyIsDown 68 then x1 + p.speed else x1
  let y1 := if inp.keyIsDown UP_ARROW || inp.keyIsDown 87 then p.y - p.speed else p.y
  let y2 := if inp.keyIsDown DOWN_ARROW || inp.keyIsDown 83 then y1 + p.speed else y1
  { p with
    x := constrain x2 (p.size / 2) (width - p.size / 2)
    y := constrain y2 (p.size / 2) (height - p.size / 2)
    cooldown := if p.cooldown > 0 then p.cooldown - 1 else p.cooldown }

/-- The seven pellets of the shotgun: the loop `for (let i = 0; i < 7; i++)` pushing
`new Bullet(this.x, this.y, baseAngle + map(i, 0, 6, -15, 15))`. -/
def shotgunPellets (x y baseAngle : ℚ) : List Bullet :=
  (List.range 7).map fun i => Bullet.new x y (baseAngle + map (i : ℚ) 0 6 (-15) 15)

/-- Method `Player.shoot`, acting on the globals `player`, `bullets`, `ammoWarningTimer`. -/
def Player.shoot (env : P5) (inp : Input) (g : Game) : Game :=
  let p := g.player
  if p.cooldown > 0 then g
  else
    let angle := env.atan2 (inp.mouseY - p.y) (inp.mouseX - p.x)
    if p.weapon = 1 then
      { g with bullets := g.bullets ++ [Bullet.new p.x p.y angle]
               player := { p with cooldown := 30 } }
    else if p.weapon = 2 then
      if p.ammoMachine > 0 then
        { g with bullets := g.bullets ++ [Bullet.new p.x p.y angle]
                 player := { p with cooldown := 6, ammoMachine := p.ammoMachine - 1 } }
      else { g with ammoWarningTimer := 60 }
    else if p.weapon = 3 then
      if p.ammoShotgun ≥ 7 then
        { g with bullets := g.bullets ++ shotgunPellets p.x p.y angle
                 player := { p with cooldown := 20, ammoShotgun := p.ammoShotgun - 7 } }
      else { g with ammoWarningTimer := 60 }
    else g

/-- Method `Bullet.update`: sample the position, keep at most 10 samples, move. -/
def Bullet.update (env : P5) (b : Bullet) : Bullet :=
  let trail1 := b.trail ++ [(b.x, b.y)]
  let trail2 := if trail1.length > 10 then trail1.tail else trail1
  { b with trail := trail2
           x := b.x + b.speed * env.cos b.angle
           y := b.y + b.speed * env.sin b.angle }

/-- Method `Bullet.offscreen`. -/
def Bullet.offscreen (b : Bullet) : Bool :=
  decide (b.x < 0) || decide (b.x > width) || decide (b.y < 0) || decide (b.y > height)

/-- Method `Bullet.hits`, applied to an enemy (`target.size / 2` is the enemy half size). -/
def Bullet.hits (b : Bullet) (target : Enemy) : Bool :=
  distLt b.x b.y target.x target.y (b.r + target.size / 2)

/-- Method `AttackBullet.update`. -/
def AttackBullet.update (env : P5) (b : AttackBullet) : AttackBullet :=
  { b with x := b.x + b.speed * env.cos b.angle
           y := b.y + b.speed * env.sin b.angle }

/-- Method `AttackBullet.offscreen`. -/
def AttackBullet.offscreen (b : AttackBullet) : Bool :=
  decide (b.x < -20) || decide (b.x > width + 20) || decide (b.y < -20) ||
    decide (b.y > height + 20)

/-- Method `AttackBullet.hits`, applied to the player. -/
def AttackBullet.hits (b : AttackBullet) (target : Player) : Bool :=
  distLt b.x b.y target.x target.y (b.r + target.size / 2)

/-- Methods `Enemy.update` and `StrongEnemy.update`: one step of pursuit; the enhanced
enemy also samples its new position (at most 15 samples) and runs its speech timer. -/
def Enemy.update (env : P5) (player : Player) (e : Enemy) : Enemy :=
  let angle := env.atan2 (player.y - e.y) (player.x - e.x)
  let x' := e.x + e.speed * env.cos angle
  let y' := e.y + e.speed * env.sin angle
  if e.strong then
    let trail1 := e.trail ++ [(x', y')]
    let trail2 := if trail1.length > 15 then trail1.tail else trail1
    { e with x := x', y := y', trail := trail2
             speechTimer := if e.speechTimer > 0 then e.speechTimer - 1 else e.speechTimer }
  else { e with x := x', y := y' }

/-- Method `hits` of `Enemy` and `StrongEnemy`, applied to the player. -/
def Enemy.hits (e : Enemy) (target : Player) : Bool :=
  distLt e.x e.y target.x target.y (e.size / 2 + target.size / 2)

/-- Method `hits` of `Enemy` and `StrongEnemy`, applied to a partner. -/
def Enemy.hitsPartner (e : Enemy) (target : Partner) : Bool :=
  distLt e.x e.y target.x target.y (e.size / 2 + target.size / 2)

/-- The loop of `Partner.shoot` that looks for the nearest enemy: a later enemy replaces
the current choice only when it is strictly nearer. -/
def nearestEnemy (x y : ℚ) : Enemy → List Enemy → Enemy
  | nearest, [] => nearest
  | nearest, enemy :: rest =>
    if distSq x y enemy.x enemy.y < distSq x y nearest.x nearest.y then
      nearestEnemy x y enemy rest
    else nearestEnemy x y nearest rest

/-- Method `Partner.shoot`: returns the partner and the globals after the call. -/
def Partner.shoot (env : P5) (pt : Partner) (g : Game) : Partner × Game :=
  match g.enemies with
  | [] => (pt, g)
  | first :: _ =>
    let nearest := nearestEnemy pt.x pt.y first g.enemies
    let angle := env.atan2 (nearest.y - pt.y) (nearest.x - pt.x)
    ({ pt with cooldown := 30 }, { g with bullets := g.bullets ++ [Bullet.new pt.x pt.y angle] })

/-- Method `Partner.update`: returns the partner and the globals after the call. -/
def Partner.update (env : P5) (pt : Partner) (g : Game) : Partner × Game :=
  if pt.bound then
    if distLt pt.x pt.y g.player.x g.player.y (pt.size / 2 + g.player.size / 2) then
      ({ pt with bound := false }, g)
    else (pt, g)
  else
    let timer1 := pt.followTimer - 1
    let (angle1, timer2, g1) :=
      if timer1 ≤ 0 then
        let (r, g') := random env g
        (r * 360, (30 : ℤ), g')
      else (pt.offsetAngle, timer1, g)
    let targetX := g1.player.x + pt.radius * env.cos angle1
    let targetY := g1.player.y + pt.radius * env.sin angle1
    let pt1 : Partner :=
      { pt with followTimer := timer2, offsetAngle := angle1
                x := lerp pt.x targetX (1 / 20)
                y := lerp pt.y targetY (1 / 20) }
    if pt1.cooldown > 0 then ({ pt1 with cooldown := pt1.cooldown - 1 }, g1)
    else Partner.shoot env pt1 g1

/-- The constructor `new Partner(x, y)`; `offsetAngle = random(360)` takes one roll. -/
def Partner.new (env : P5) (x y : ℚ) (g : Game) : Partner × Game :=
  let (r, g') := random env g
  ({ x := x, y := y, health := 50, cooldown := 0, bound := true, followTimer := 0,
     offsetAngle := r * 360 }, g')

/-! ## The loops of `draw` -/

/-- The loop `for (let partner of partners) partner.update()`: the updated partners and
the globals after the loop (the global `partners` itself is written back by the caller). -/
def partnersLoop (env : P5) : List Partner → Game → List Partner × Game
  | [], g => ([], g)
  | pt :: rest, g =>
    let (pt', g1) := Partner.update env pt g
    let (rest', g2) := partnersLoop env rest g1
    (pt' :: rest', g2)

/-- The partner phase of `draw`. -/
def updatePartners (env : P5) (g : Game) : Game :=
  let (ps, g1) := partnersLoop env g.partners g
  { g1 with partners := ps }

/-- The body of `if (bullets[i].hits(enemies[j]))`: the enemy is spliced out, the score
incremented, the supply rolled and the bullet spliced out. -/
def killEnemy (env : P5) (i j : ℕ) (e : Enemy) (g : Game) : Game :=
  let g1 := { g with enemies := g.enemies.eraseIdx j, score := g.score + 1 }
  let (r, g2) := random env g1
  let g3 :=
    if r < 1 / 10 then
      let (r', g2') := random env g2
      let dropType : ℕ := if r' < 1 / 2 then 2 else 3
      { g2' with pickups := g2'.pickups ++ [{ x := e.x, y := e.y, type := dropType }] }
    else g2
  { g3 with bullets := g3.bullets.eraseIdx i }

/-- The inner loop `for (let j = enemies.length - 1; j >= 0; j--)` for the bullet `b` at
index `i`; the first argument is `j + 1`.  The loop ends at the first hit (`break`). -/
def hitScan (env : P5) (i : ℕ) (b : Bullet) : ℕ → Game → Game
  | 0, g => g
  | j + 1, g =>
    match g.enemies[j]? with
    | none => hitScan env i b j g
    | some e => if b.hits e then killEnemy env i j e g else hitScan env i b j g

/-- The body of the bullet loop for index `i`: update, the offscreen test with `continue`,
then the scan of the enemies. -/
def bulletStep (env : P5) (i : ℕ) (g : Game) : Game :=
  match g.bullets[i]? with
  | none => g
  | some b =>
    let b' := b.update env
    let g1 := { g with bullets := g.bullets.set i b' }
    if b'.offscreen then { g1 with bullets := g1.bullets.eraseIdx i }
    else hitScan env i b' g1.enemies.length g1

/-- The loop `for (let i = bullets.length - 1; i >= 0; i--)`; the argument is `i + 1`. -/
def bulletsLoop (env : P5) : ℕ → Game → Game
  | 0, g => g
  | i + 1, g => bulletsLoop env i (bulletStep env i g)

/-- The body of the attack-bullet loop for index `i`. -/
def attackBulletStep (env : P5) (i : ℕ) (g : Game) : Game :=
  match g.attackBullets[i]? with
  | none => g
  | some b =>
    let b' := b.update env
    let g1 := { g with attackBullets := g.attackBullets.set i b' }
    if b'.offscreen then { g1 with attackBullets := g1.attackBullets.eraseIdx i }
    else if b'.hits g1.player then
      { g1 with player := { g1.player with health := g1.player.health - 10 }
                attackBullets := g1.attackBullets.eraseIdx i }
    else g1

/-- The loop `for (let i = attackBullets.length - 1; i >= 0; i--)`; the argument is
`i + 1`. -/
def attackBulletsLoop (env : P5) : ℕ → Game → Game
  | 0, g => g
  | i + 1, g => attackBulletsLoop env i (attackBulletStep env i g)

/-- The loop `for (let partner of partners)` inside the enemy loop. -/
def damagePartners (e : Enemy) (ps : List Partner) : List Partner :=
  ps.map fun pt =>
    if !pt.bound && e.hitsPartner pt then { pt with health := pt.health - 1 } else pt

/-- The body of the enemy loop: the updated enemy and the globals after it. -/
def enemyStep (env : P5) (e : Enemy) (g : Game) : Enemy × Game :=
  let e' := e.update env g.player
  let g1 :=
    if e'.hits g.player then
      { g with player := { g.player with health := g.player.health - 1 } }
    else g
  (e', { g1 with partners := damagePartners e' g1.partners })

/-- The loop `for (let enemy of enemies)`. -/
def enemiesLoop (env : P5) : List Enemy → Game → List Enemy × Game
  | [], g => ([], g)
  | e :: rest, g =>
    let (e', g1) := enemyStep env e g
    let (rest', g2) := enemiesLoop env rest g1
    (e' :: rest', g2)

/-- The enemy phase of `draw`: the loop, then `enemies.filter(enemy => enemy.health > 0)`. -/
def updateEnemies (env : P5) (g : Game) : Game :=
  let (es, g1) := enemiesLoop env g.enemies g
  { g1 with enemies := es.filter fun e => decide (e.health > 0) }

/-- The body of the pickup loop for index `i`. -/
def pickupStep (i : ℕ) (g : Game) : Game :=
  match g.pickups[i]? with
  | none => g
  | some pk =>
    if distLt pk.x pk.y g.player.x g.player.y (g.player.size / 2 + pk.size / 2) then
      let p := g.player
      let p' : Player :=
        if pk.type = 2 then { p with ammoMachine := p.ammoMachine + 30 }
        else if pk.type = 3 then { p with ammoShotgun := p.ammoShotgun + 30 }
        else p
      { g with player := p', pickups := g.pickups.eraseIdx i }
    else g

/-- The loop `for (let i = pickups.length - 1; i >= 0; i--)`; the argument is `i + 1`. -/
def pickupsLoop : ℕ → Game → Game
  | 0, g => g
  | i + 1, g => pickupsLoop i (pickupStep i g)

/-! ## Spawn functions and the warning cycle -/

/-- p5 `random(max)`: a roll scaled to `[0, max)`. -/
def randomMax (env : P5) (hi : ℚ) (g : Game) : ℚ × Game :=
  let (r, g') := random env g
  (r * hi, g')

/-- p5 `random(min, max)`: a roll scaled to `[min, max)`. -/
def randomRange (env : P5) (lo hi : ℚ) (g : Game) : ℚ × Game :=
  let (r, g') := random env g
  (r * (hi - lo) + lo, g')

/-- Function `spawnEnemy`: a side, a point on that side 30 units outside the canvas, and
the roll between `StrongEnemy` and `Enemy`. -/
def spawnEnemy (env : P5) (g : Game) : Game :=
  let (r0, g0) := randomMax env 4 g
  let side : ℤ := ⌊r0⌋
  let margin : ℚ := 30
  let (x, y, g1) :=
    if side = 0 then
      let (x, g') := randomRange env 0 width g0
      (x, -margin, g')
    else if side = 1 then
      let (y, g') := randomRange env 0 height g0
      (width + margin, y, g')
    else if side = 2 then
      let (x, g') := randomRange env 0 width g0
      (x, height + margin, g')
    else
      let (y, g') := randomRange env 0 height g0
      (-margin, y, g')
  let (r2, g2) := random env g1
  if r2 < 1 / 5 then { g2 with enemies := g2.enemies ++ [StrongEnemy.new x y] }
  else { g2 with enemies := g2.enemies ++ [Enemy.new x y] }

/-- The loop `for (let i = 0; i < enemySpawnCount; i++) spawnEnemy()`; the argument is the
number of iterations left. -/
def spawnEnemies (env : P5) : ℕ → Game → Game
  | 0, g => g
  | n + 1, g => spawnEnemies env n (spawnEnemy env g)

/-- The body of the loop of `spawnAttackBullets`. -/
def spawnAttackBullet (env : P5) (g : Game) : Game :=
  let (r0, g0) := randomMax env 4 g
  let side : ℤ := ⌊r0⌋
  let (x, y, g1) :=
    if side = 0 then
      let (x, g') := randomMax env width g0
      (x, (-10 : ℚ), g')
    else if side = 1 then
      let (y, g') := randomMax env height g0
      (width + 10, y, g')
    else if side = 2 then
      let (x, g') := randomMax env width g0
      (x, height + 10, g')
    else
      let (y, g') := randomMax env height g0
      ((-10 : ℚ), y, g')
  { g1 with attackBullets :=
      g1.attackBullets ++ [AttackBullet.new env x y g1.player.x g1.player.y] }

/-- Function `spawnAttackBullets`: five attack bullets. -/
def spawnAttackBullets (env : P5) (g : Game) : Game :=
  Nat.iterate (spawnAttackBullet env) 5 g

/-- Function `spawnPartner`: a bound partner at the centre of the canvas. -/
def spawnPartner (env : P5) (g : Game) : Game :=
  let (pt, g') := Partner.new env (width / 2) (height / 2) g
  { g' with partners := g'.partners ++ [pt] }

/-- The first warning test of `draw`: a warning starts once more than `warningInterval`
frames have passed since the last one ended. -/
def startWarning (env : P5) (g : Game) : Game :=
  if !g.warningActive && decide (g.frameCount - g.lastWarningFrame > warningInterval) then
    let (r, g1) := random env g
    { g1 with warningActive := true, warningTimer := 60
              warningType := if r < 7 / 10 then WarningType.enemy else WarningType.attack }
  else g

/-- The block `if (warningType === "enemy") ... else if (warningType === "attack") ...`. -/
def resolveSpawn (env : P5) (g : Game) : Game :=
  match g.warningType with
  | WarningType.enemy =>
    let g' := spawnEnemies env g.enemySpawnCount g
    { g' with enemySpawnCount := g'.enemySpawnCount + 1 }
  | WarningType.attack => spawnAttackBullets env g

/-- The block `Every 3 rounds, spawn a partner`; `||` and `&&` short-circuit, so the coin
is rolled only when `roundCount` is not 3 and no partner is bound. -/
def partnerCadence (env : P5) (g : Game) : Game :=
  if g.roundCount % 3 = 0 && decide (g.roundCount > 0) then
    let alreadyBound := g.partners.any fun p => p.bound
    if g.roundCount = 3 then spawnPartner env g
    else if !alreadyBound then
      let (r, g1) := random env g
      if r < 1 / 2 then spawnPartner env g1 else g1
    else g
  else g

/-- The body of `if (warningTimer <= 0)`: the resolution of a warning. -/
def resolveWarning (env : P5) (g : Game) : Game :=
  let g1 := { g with roundCount := g.roundCount + 1 }
  let g2 := resolveSpawn env g1
  let g3 := { g2 with warningActive := false, lastWarningFrame := g2.frameCount }
  partnerCadence env g3

/-- The block `if (warningActive)` of `draw`. -/
def runWarning (env : P5) (g : Game) : Game :=
  if g.warningActive then
    let g1 := { g with warningTimer := g.warningTimer - 1 }
    if g1.warningTimer ≤ 0 then resolveWarning env g1 else g1
  else g

/-! ## `draw`, `keyPressed` and the frame driver -/

/-- The lines `player.update()` and the held-fire test of `draw`. -/
def playerPhase (env : P5) (inp : Input) (g : Game) : Game :=
  let g1 := { g with player := g.player.update inp }
  if inp.mouseIsPressed && decide (inp.mouseButton = MouseButton.LEFT) then
    Player.shoot env inp g1
  else g1

/-- The block `if (ammoWarningTimer > 0)` of `draw`. -/
def ammoWarningPhase (g : Game) : Game :=
  if g.ammoWarningTimer > 0 then { g with ammoWarningTimer := g.ammoWarningTimer - 1 } else g

/-- The block `Player death check`. -/
def deathCheck (g : Game) : Game :=
  if g.player.health ≤ 0 then { g with gameOver := true } else g

/-- The part of `draw` that runs when the game has started and is not over. -/
def tick (env : P5) (inp : Input) (g : Game) : Game :=
  let g1 := playerPhase env inp g
  let g2 := ammoWarningPhase g1
  let g3 := updatePartners env g2
  let g4 := bulletsLoop env g3.bullets.length g3
  let g5 := attackBulletsLoop env g4.attackBullets.length g4
  let g6 := updateEnemies env g5
  let g7 := pickupsLoop g6.pickups.length g6
  let g8 := deathCheck g7
  runWarning env (startWarning env g8)

/-- Function `draw`. -/
def draw (env : P5) (inp : Input) (g : Game) : Game :=
  if !g.gameStarted then g
  else if g.gameOver then g
  else tick env inp g

/-- Function `keyPressed`; `key` is the p5 global holding the key that was pressed. -/
def keyPressed (env : P5) (key : String) (inp : Input) (g : Game) : Game :=
  if !g.gameStarted then { g with gameStarted := true }
  else
    let g1 := if key = " " then Player.shoot env inp g else g
    if key = "1" then { g1 with player := { g1.player with weapon := 1 } }
    else if key = "2" then { g1 with player := { g1.player with weapon := 2 } }
    else if key = "3" then { g1 with player := { g1.player with weapon := 3 } }
    else g1

/-- What p5 delivers to the sketch: a frame (p5 increments `frameCount`, then calls `draw`)
or a key press, each with the input globals of that moment. -/
inductive Event where
  | frame (inp : Input)
  | key (k : String) (inp : Input)

/-- The increment of `frameCount` that p5 performs before each call of `draw`. -/
def advanceFrame (g : Game) : Game :=
  { g with frameCount := g.frameCount + 1 }

/-- One event applied to the globals. -/
def step (env : P5) (g : Game) : Event → Game
  | Event.frame inp => draw env inp (advanceFrame g)
  | Event.key k inp => keyPressed env k inp g

/-- The globals after a sequence of events. -/
def run (env : P5) (g : Game) (evs : List Event) : Game :=
  evs.foldl (step env) g


/-! ## Counting functions used to state the combat properties -/

/-- The globals at the moment the attack-bullet loop of `draw` starts: after the player,
the ammo warning, the partners and the bullet loop. -/
def beforeCombat (env : P5) (inp : Input) (g : Game) : Game :=
  let g1 := playerPhase env inp g
  let g2 := ammoWarningPhase g1
  let g3 := updatePartners env g2
  bulletsLoop env g3.bullets.length g3

/-- The number of attack bullets that, once moved, are not offscreen and are within hit
distance of the player. -/
def attackHits (env : P5) (g : Game) : ℕ :=
  g.attackBullets.countP fun b => !(b.update env).offscreen && (b.update env).hits g.player

/-- The number of enemies that, once moved, overlap the player. -/
def enemyContacts (env : P5) (g : Game) : ℕ :=
  g.enemies.countP fun e => (e.update env g.player).hits g.player

/-- The globals after `k` frames, the `n`-th frame reading the input `inps n`. -/
def runFrames (env : P5) (inps : ℕ → Input) (g : Game) : ℕ → Game
  | 0 => g
  | k + 1 => step env (runFrames env inps g k) (Event.frame (inps k))


/-! ## The attack-bullet loop as the specification words it -/

/-- The body of the attack-bullet loop in the order of the specification: after the move,
if the bullet hits the player, 10 damage is applied and the bullet removed; else, if it is
off-bounds, it is removed. -/
def attackBulletStepSpec (env : P5) (i : ℕ) (g : Game) : Game :=
  match g.attackBullets[i]? with
  | none => g
  | some b =>
    let b' := b.update env
    let g1 := { g with attackBullets := g.attackBullets.set i b' }
    if b'.hits g1.player then
      { g1 with player := { g1.player with health := g1.player.health - 10 }
                attackBullets := g1.attackBullets.eraseIdx i }
    else if b'.offscreen then { g1 with attackBullets := g1.attackBullets.eraseIdx i }
    else g1

/-- The attack-bullet loop with the body in the order of the specification. -/
def attackBulletsLoopSpec (env : P5) : ℕ → Game → Game
  | 0, g => g
  | i + 1, g => attackBulletsLoopSpec env i (attackBulletStepSpec env i g)

/-- A running game with three attack bullets flying right: one about to hit the player at
`(400, 300)`, one about to leave the bounds on the right, one in free flight. -/
def barrage : Game :=
  { setup with
    gameStarted := true
    player := Player.new 400 300
    attackBullets :=
      [{ x := 380, y := 300, angle := 0 }, { x := 818, y := 100, angle := 0 },
        { x := 100, y := 100, angle := 0 }] }


/-! ## Concrete data for the worked instances -/

/-- A p5 environment restricted to the horizontal axis: `atan2(0, dx)` is `180` for
negative `dx` and `0` otherwise, `cos 180 = -1`, `cos 0 = 1`, `sin` vanishes at both, and
`random()` cycles through `0, 1/4, 1/2, 3/4`. -/
def sampleEnv : P5 :=
  { cos := fun a => if a = 180 then -1 else 1
    sin := fun _ => 0
    atan2 := fun _ dx => if dx < 0 then 180 else 0
    rand := fun n => ((n % 4 : ℕ) : ℚ) / 4 }

/-- No key held, no mouse button pressed, pointer at the origin. -/
def idleInput : Input :=
  { keyIsDown := fun _ => false, mouseIsPressed := false, mouseButton := MouseButton.NONE,
    mouseX := 0, mouseY := 0 }

/-- A running game with one bullet at `(100, 300)` flying right and two enemies at
`(110, 300)` and `(115, 300)`: after its move to `(107, 300)` the bullet overlaps both. -/
def twoOverlap : Game :=
  { setup with
    gameStarted := true
    bullets := [Bullet.new 100 300 0]
    enemies := [Enemy.new 110 300, Enemy.new 115 300] }


/-- An enemy sits on one of the four spawn lines, 30 units outside the canvas: above
(`y = -30`), to the right (`x = width + 30`), below (`y = height + 30`) or to the left
(`x = -30`), its other coordinate within the canvas range. -/
def onSpawnMargin (e : Enemy) : Prop :=
  (e.y = -30 ∧ 0 ≤ e.x ∧ e.x ≤ width) ∨
  (e.x = width + 30 ∧ 0 ≤ e.y ∧ e.y ≤ height) ∨
  (e.y = height + 30 ∧ 0 ≤ e.x ∧ e.x ≤ width) ∨
  (e.x = -30 ∧ 0 ≤ e.y ∧ e.y ≤ height)

/-- A running game whose enemy warning is about to resolve with `enemySpawnCount = 2`. -/
def waveDue : Game :=
  { setup with
    gameStarted := true
    warningActive := true
    warningTimer := 0
    warningType := WarningType.enemy
    enemySpawnCount := 2
    frameCount := 500 }


/-- A running game with two warnings resolved and an attack warning about to resolve. -/
def roundTwo : Game :=
  { setup with
    gameStarted := true
    warningActive := true
    warningTimer := 0
    warningType := WarningType.attack
    roundCount := 2
    frameCount := 800 }

/-- A running game with five warnings resolved, no partner in the list and an attack
warning about to resolve; the next ten rolls go to the attack bullets, the coin is the
roll of index 12, which is `0` in `sampleEnv`. -/
def roundFive : Game :=
  { setup with
    gameStarted := true
    warningActive := true
    warningTimer := 0
    warningType := WarningType.attack
    roundCount := 5
    frameCount := 1600
    rngIdx := 2 }


/-- A running game: the player at `(400, 300)` with health 5 and one enemy on the same
spot. -/
def contactFive : Game :=
  { setup with
    gameStarted := true
    player := { Player.new 400 300 with health := 5 }
    enemies := [Enemy.new 400 300] }


/-- A running game with the shotgun selected, the cooldown at 0 and `ammo` rounds left. -/
def shotgunReady (ammo : ℤ) : Game :=
  { setup with
    gameStarted := true
    player := { Player.new 400 300 with weapon := 3, ammoShotgun := ammo } }


/-- A partner at `(x, y)` with the given health, cooldown and bound flag; the follow target
is the point 50 units to the right of the player. -/
def samplePartner (x y : ℚ) (health cooldown : ℤ) (bound : Bool) : Partner :=
  { x := x, y := y, health := health, cooldown := cooldown, bound := bound,
    followTimer := 5, offsetAngle := 0 }

/-- A running game: the player far to the left at `(100, 300)`, a bound partner at the
centre and an enemy at `(410, 300)`, which overlaps the partner after its move. -/
def boundContact : Game :=
  { setup with
    gameStarted := true
    player := Player.new 100 300
    partners := [samplePartner 400 300 50 0 true]
    enemies := [Enemy.new 410 300] }

/-- A running game: the player at `(400, 300)`, a freed partner with health 1 on its follow
target `(450, 300)`, its cooldown at 1, and an enemy at `(460, 300)`, which overlaps the
partner, but not the player, after its move. -/
def allyDown : Game :=
  { setup with
    gameStarted := true
    player := Player.new 400 300
    partners := [samplePartner 450 300 1 1 false]
    enemies := [Enemy.new 460 300] }


/-- The part of `draw` between the ammo warning and the warning handling: partners,
bullets, attack bullets, enemies, pickups and the death check. -/
def combatPhases (env : P5) (g : Game) : Game :=
  let g3 := updatePartners env g
  let g4 := bulletsLoop env g3.bullets.length g3
  let g5 := attackBulletsLoop env g4.attackBullets.length g4
  let g6 := updateEnemies env g5
  let g7 := pickupsLoop g6.pickups.length g6
  deathCheck g7


/-- A running game with a freed partner at the origin and enemies at `(10, 0)`, `(3, 4)` and
`(5, 0)`: the last two are both at distance 5, the nearest. -/
def tiedEnemies : Game :=
  { setup with
    gameStarted := true
    partners := [samplePartner 0 0 50 0 false]
    enemies := [Enemy.new 10 0, Enemy.new 3 4, Enemy.new 5 0] }

/-- A running game with the pistol selected and the given cooldown. -/
def pistolAt (cooldown : ℤ) : Game :=
  { setup with
    gameStarted := true
    player := { Player.new 400 300 with cooldown := cooldown } }

/-- A running game with the machine gun selected, the cooldown at 0 and `ammo` rounds. -/
def machineGunReady (ammo : ℤ) : Game :=
  { setup with
    gameStarted := true
    player := { Player.new 400 300 with weapon := 2, ammoMachine := ammo } }


/-- A warning resolves in the call `draw` makes on `g`: the game is running, a warning is
active, and the decrement brings its timer to 0 or below. -/
def resolvesIn (g : Game) : Bool :=
  g.gameStarted && !g.gameOver && g.warningActive && decide (g.warningTimer - 1 ≤ 0)

/-- The number of frames, among the events applied to `g`, in which a warning resolved. -/
def resolvedWarnings (env : P5) : Game → List Event → ℕ
  | _, [] => 0
  | g, Event.frame inp :: evs =>
    (if resolvesIn (advanceFrame g) then 1 else 0) +
      resolvedWarnings env (step env g (Event.frame inp)) evs
  | g, Event.key k inp :: evs => resolvedWarnings env (step env g (Event.key k inp)) evs

/-- A running game in which a warning has just resolved on frame 260. -/
def justResolved : Game :=
  { setup with gameStarted := true, roundCount := 1, frameCount := 260, lastWarningFrame := 260 }


/-- The left mouse button held, pointer at `(500, 300)`, no key down. -/
def fireInput : Input :=
  { keyIsDown := fun _ => false, mouseIsPressed := true, mouseButton := MouseButton.LEFT,
    mouseX := 500, mouseY := 300 }

/-- No key held, no mouse button pressed, pointer at `(500, 300)`: level with a player at
`(400, 300)`, to its right. -/
def aimRight : Input :=
  { keyIsDown := fun _ => false, mouseIsPressed := false, mouseButton := MouseButton.NONE,
    mouseX := 500, mouseY := 300 }


/-- The bullet after `n` calls of `Bullet.update`. -/
def Bullet.after (env : P5) (b : Bullet) (n : ℕ) : Bullet :=
  Nat.iterate (Bullet.update env) n b

/-- The positions a bullet had before each of its first `n` updates, oldest first. -/
def Bullet.history (env : P5) (b : Bullet) (n : ℕ) : List (ℚ × ℚ) :=
  (List.range n).map fun i => ((b.after env i).x, (b.after env i).y)

/-- The enemy after `n` calls of its `update`, the `i`-th call seeing the player `ps i`. -/
def Enemy.after (env : P5) (ps : ℕ → Player) (e : Enemy) : ℕ → Enemy
  | 0 => e
  | n + 1 => Enemy.update env (ps n) (Enemy.after env ps e n)

/-- The positions an enemy reached by each of its first `n` updates, oldest first. -/
def Enemy.history (env : P5) (ps : ℕ → Player) (e : Enemy) (n : ℕ) : List (ℚ × ℚ) :=
  (List.range n).map fun i =>
    ((Enemy.after env ps e (i + 1)).x, (Enemy.after env ps e (i + 1)).y)


/-- The number of enemies spawned by the call `draw` makes on `g`: the spawn count when an
enemy warning resolves in it, none otherwise. -/
def spawnsIn (g : Game) : ℕ :=
  if resolvesIn g && decide (g.warningType = WarningType.enemy) then g.enemySpawnCount else 0

/-- The number of enemies spawned over a sequence of events applied to `g`. -/
def spawnedTotal (env : P5) : Game → List Event → ℕ
  | _, [] => 0
  | g, Event.frame inp :: evs =>
    spawnsIn (advanceFrame g) + spawnedTotal env (step env g (Event.frame inp)) evs
  | g, Event.key k inp :: evs => spawnedTotal env (step env g (Event.key k inp)) evs


/-- The bound flag of a partner between two states: `q` is bound only if `p` was (the flag
is the same, or it went from true to false). -/
def boundFalls (p q : Partner) : Prop := q.bound = true → p.bound = true

instance (p q : Partner) : Decidable (boundFalls p q) := by
  unfold boundFalls
  infer_instance


/-- The two ammo pools of the player: `(ammoMachine, ammoShotgun)`. -/
def ammoPools (g : Game) : ℤ × ℤ := (g.player.ammoMachine, g.player.ammoShotgun)

/-- One move of the pools: a machine-gun shot (one round, taken from a positive pool), a
shotgun shot (seven rounds, taken from a pool of at least seven), a machine-gun supply
(thirty rounds) or a shotgun supply (thirty rounds). -/
def poolMove (a b : ℤ × ℤ) : Prop :=
  (0 < a.1 ∧ b = (a.1 - 1, a.2)) ∨ (7 ≤ a.2 ∧ b = (a.1, a.2 - 7)) ∨
    b = (a.1 + 30, a.2) ∨ b = (a.1, a.2 + 30)

instance (a b : ℤ × ℤ) : Decidable (poolMove a b) := by
  unfold poolMove
  infer_instance


/-- The globals at the moment the partner loop of `draw` starts: after `player.update()`, the
held-fire test and the ammo warning countdown. -/
def beforePartners (env : P5) (inp : Input) (g : Game) : Game :=
  ammoWarningPhase (playerPhase env inp g)

/-- The globals at the moment the partner loop, started on `x`, calls `update()` on the
partner of index `i`: after the updates of the partners before it. -/
def partnerTurn (env : P5) (i : ℕ) (x : Game) : Game :=
  (partnersLoop env (x.partners.take i) x).2

/-- A running game with a freed partner at `(450, 300)`, cooldown 0, and one enemy at
`(400, 100)`, out of reach of the player, of the partner and of their bullets. -/
def allyPatrol : Game :=
  { setup with
    gameStarted := true
    partners := [samplePartner 450 300 50 0 false]
    enemies := [Enemy.new 400 100] }


/-! ## Frame lemmas: what the phases of `draw` leave untouched -/

theorem random_player (env : P5) (g : Game) : (random env g).2.player = g.player := rfl

theorem Player.shoot_pos (env : P5) (inp : Input) (g : Game) :
    (Player.shoot env inp g).player.x = g.player.x ∧
      (Player.shoot env inp g).player.y = g.player.y := by
  unfold Player.shoot
  simp only []
  split_ifs <;> exact ⟨rfl, rfl⟩

theorem Partner.shoot_player (env : P5) (pt : Partner) (g : Game) :
    (Partner.shoot env pt g).2.player = g.player := by
  unfold Partner.shoot
  split <;> rfl

theorem Partner.update_player (env : P5) (pt : Partner) (g : Game) :
    (Partner.update env pt g).2.player = g.player := by
  unfold Partner.update
  simp only []
  split_ifs <;> first | rfl | simp [Partner.shoot_player, random]

theorem partnersLoop_player (env : P5) (ps : List Partner) (g : Game) :
    (partnersLoop env ps g).2.player = g.player := by
  induction ps generalizing g with
  | nil => rfl
  | cons pt rest ih =>
    simp only [partnersLoop]
    rw [ih, Partner.update_player]

theorem updatePartners_player (env : P5) (g : Game) :
    (updatePartners env g).player = g.player := by
  simp [updatePartners, partnersLoop_player]

theorem killEnemy_player (env : P5) (i j : ℕ) (e : Enemy) (g : Game) :
    (killEnemy env i j e g).player = g.player := by
  unfold killEnemy
  simp only [random]
  split_ifs <;> rfl

theorem hitScan_player (env : P5) (i : ℕ) (b : Bullet) (j : ℕ) (g : Game) :
    (hitScan env i b j g).player = g.player := by
  induction j with
  | zero => rfl
  | succ j ih =>
    simp only [hitScan]
    split
    · exact ih
    · split_ifs
      · exact killEnemy_player env i j _ g
      · exact ih

theorem bulletStep_player (env : P5) (i : ℕ) (g : Game) :
    (bulletStep env i g).player = g.player := by
  unfold bulletStep
  split
  · rfl
  · simp only []
    split_ifs
    · rfl
    · rw [hitScan_player]

theorem bulletsLoop_player (env : P5) (n : ℕ) (g : Game) :
    (bulletsLoop env n g).player = g.player := by
  induction n generalizing g with
  | zero => rfl
  | succ n ih => simp only [bulletsLoop]; rw [ih, bulletStep_player]

theorem attackBulletStep_pos (env : P5) (i : ℕ) (g : Game) :
    (attackBulletStep env i g).player.x = g.player.x ∧
      (attackBulletStep env i g).player.y = g.player.y := by
  unfold attackBulletStep
  split
  · exact ⟨rfl, rfl⟩
  · simp only []
    split_ifs <;> exact ⟨rfl, rfl⟩

theorem attackBulletsLoop_pos (env : P5) (n : ℕ) (g : Game) :
    (attackBulletsLoop env n g).player.x = g.player.x ∧
      (attackBulletsLoop env n g).player.y = g.player.y := by
  induction n generalizing g with
  | zero => exact ⟨rfl, rfl⟩
  | succ n ih =>
    simp only [attackBulletsLoop]
    rw [(ih _).1, (ih _).2]
    exact attackBulletStep_pos env n g

theorem enemyStep_pos (env : P5) (e : Enemy) (g : Game) :
    (enemyStep env e g).2.player.x = g.player.x ∧
      (enemyStep env e g).2.player.y = g.player.y := by
  unfold enemyStep
  simp only []
  split_ifs <;> exact ⟨rfl, rfl⟩

theorem enemiesLoop_pos (env : P5) (es : List Enemy) (g : Game) :
    (enemiesLoop env es g).2.player.x = g.player.x ∧
      (enemiesLoop env es g).2.player.y = g.player.y := by
  induction es generalizing g with
  | nil => exact ⟨rfl, rfl⟩
  | cons e rest ih =>
    simp only [enemiesLoop]
    rw [(ih _).1, (ih _).2]
    exact enemyStep_pos env e g

theorem updateEnemies_pos (env : P5) (g : Game) :
    (updateEnemies env g).player.x = g.player.x ∧
      (updateEnemies env g).player.y = g.player.y := by
  simp only [updateEnemies]
  exact enemiesLoop_pos env g.enemies g

theorem pickupStep_pos (i : ℕ) (g : Game) :
    (pickupStep i g).player.x = g.player.x ∧ (pickupStep i g).player.y = g.player.y := by
  unfold pickupStep
  split
  · exact ⟨rfl, rfl⟩
  · simp only []
    split_ifs <;> exact ⟨rfl, rfl⟩

theorem pickupsLoop_pos (n : ℕ) (g : Game) :
    (pickupsLoop n g).player.x = g.player.x ∧ (pickupsLoop n g).player.y = g.player.y := by
  induction n generalizing g with
  | zero => exact ⟨rfl, rfl⟩
  | succ n ih =>
    simp only [pickupsLoop]
    rw [(ih _).1, (ih _).2]
    exact pickupStep_pos n g

theorem deathCheck_player (g : Game) : (deathCheck g).player = g.player := by
  unfold deathCheck
  split_ifs <;> rfl

theorem startWarning_player (env : P5) (g : Game) :
    (startWarning env g).player = g.player := by
  unfold startWarning
  split_ifs <;> rfl

theorem spawnEnemy_player (env : P5) (g : Game) : (spawnEnemy env g).player = g.player := by
  unfold spawnEnemy
  simp only [randomMax, randomRange, random]
  split_ifs <;> rfl

theorem spawnEnemies_player (env : P5) (n : ℕ) (g : Game) :
    (spawnEnemies env n g).player = g.player := by
  induction n generalizing g with
  | zero => rfl
  | succ n ih => simp only [spawnEnemies]; rw [ih, spawnEnemy_player]

theorem spawnAttackBullet_player (env : P5) (g : Game) :
    (spawnAttackBullet env g).player = g.player := by
  unfold spawnAttackBullet
  simp only [randomMax, random]
  split_ifs <;> rfl

theorem spawnAttackBullets_player (env : P5) (g : Game) :
    (spawnAttackBullets env g).player = g.player := by
  simp [spawnAttackBullets, Nat.iterate, spawnAttackBullet_player]

theorem spawnPartner_player (env : P5) (g : Game) : (spawnPartner env g).player = g.player :=
  rfl

theorem resolveSpawn_player (env : P5) (g : Game) :
    (resolveSpawn env g).player = g.player := by
  unfold resolveSpawn
  split
  · simp [spawnEnemies_player]
  · exact spawnAttackBullets_player env g

theorem partnerCadence_player (env : P5) (g : Game) :
    (partnerCadence env g).player = g.player := by
  unfold partnerCadence
  simp only [random]
  split_ifs <;> rfl

theorem resolveWarning_player (env : P5) (g : Game) :
    (resolveWarning env g).player = g.player := by
  simp [resolveWarning, partnerCadence_player, resolveSpawn_player]

theorem runWarning_player (env : P5) (g : Game) : (runWarning env g).player = g.player := by
  unfold runWarning
  simp only []
  split_ifs
  · rw [resolveWarning_player]
  · rfl
  · rfl


/-! ## The player stays on the playfield -/

theorem Player.update_clamped (inp : Input) (p : Player) :
    15 ≤ (p.update inp).x ∧ (p.update inp).x ≤ 785 ∧
      15 ≤ (p.update inp).y ∧ (p.update inp).y ≤ 585 := by
  simp only [Player.update, constrain, Player.size, width, height]
  refine ⟨?_, ?_, ?_, ?_⟩
  · exact le_trans (by norm_num) (le_max_right _ _)
  · exact max_le (le_trans (min_le_right _ _) (by norm_num)) (by norm_num)
  · exact le_trans (by norm_num) (le_max_right _ _)
  · exact max_le (le_trans (min_le_right _ _) (by norm_num)) (by norm_num)

theorem playerPhase_pos (env : P5) (inp : Input) (g : Game) :
    (playerPhase env inp g).player.x = (g.player.update inp).x ∧
      (playerPhase env inp g).player.y = (g.player.update inp).y := by
  unfold playerPhase
  simp only []
  split_ifs
  · exact Player.shoot_pos env inp _
  · exact ⟨rfl, rfl⟩

theorem ammoWarningPhase_player (g : Game) : (ammoWarningPhase g).player = g.player := by
  unfold ammoWarningPhase
  split_ifs <;> rfl

theorem tick_pos (env : P5) (inp : Input) (g : Game) :
    (tick env inp g).player.x = (g.player.update inp).x ∧
      (tick env inp g).player.y = (g.player.update inp).y := by
  simp only [tick, runWarning_player, startWarning_player, deathCheck_player]
  rw [(pickupsLoop_pos _ _).1, (pickupsLoop_pos _ _).2, (updateEnemies_pos _ _).1,
    (updateEnemies_pos _ _).2, (attackBulletsLoop_pos _ _ _).1, (attackBulletsLoop_pos _ _ _).2,
    bulletsLoop_player, updatePartners_player, ammoWarningPhase_player]
  exact playerPhase_pos env inp g

theorem draw_pos (env : P5) (inp : Input) (g : Game) :
    (draw env inp g).player.x =
        (if g.gameStarted && !g.gameOver then (g.player.update inp).x else g.player.x) ∧
      (draw env inp g).player.y =
        (if g.gameStarted && !g.gameOver then (g.player.update inp).y else g.player.y) := by
  unfold draw
  cases hs : g.gameStarted <;> cases ho : g.gameOver <;> simp [tick_pos]

theorem keyPressed_pos (env : P5) (key : String) (inp : Input) (g : Game) :
    (keyPressed env key inp g).player.x = g.player.x ∧
      (keyPressed env key inp g).player.y = g.player.y := by
  unfold keyPressed
  simp only []
  split_ifs <;> first | exact ⟨rfl, rfl⟩ | exact Player.shoot_pos env inp g

theorem step_inField (env : P5) (g : Game) (ev : Event)
    (h : 15 ≤ g.player.x ∧ g.player.x ≤ 785 ∧ 15 ≤ g.player.y ∧ g.player.y ≤ 585) :
    15 ≤ (step env g ev).player.x ∧ (step env g ev).player.x ≤ 785 ∧
      15 ≤ (step env g ev).player.y ∧ (step env g ev).player.y ≤ 585 := by
  cases ev with
  | frame inp =>
    simp only [step]
    rw [(draw_pos _ _ _).1, (draw_pos _ _ _).2]
    have hc := Player.update_clamped inp g.player
    split_ifs
    · exact hc
    · exact h
  | key k inp =>
    simp only [step]
    rw [(keyPressed_pos _ _ _ _).1, (keyPressed_pos _ _ _ _).2]
    exact h

theorem run_inField (env : P5) (evs : List Event) (g : Game)
    (h : 15 ≤ g.player.x ∧ g.player.x ≤ 785 ∧ 15 ≤ g.player.y ∧ g.player.y ≤ 585) :
    15 ≤ (run env g evs).player.x ∧ (run env g evs).player.x ≤ 785 ∧
      15 ≤ (run env g evs).player.y ∧ (run env g evs).player.y ≤ 585 := by
  induction evs generalizing g with
  | nil => exact h
  | cons ev rest ih => exact ih (step env g ev) (step_inField env g ev h)

/-- C1: `Player.update` leaves the player inside `[size/2, width - size/2]` by
`[size/2, height - size/2]`, that is `[15, 785]` by `[15, 585]`; the position is inside that
rectangle in every state reached from `setup` by any frames and key presses; and neither
`Player.shoot` nor `keyPressed` nor the rest of `draw` moves the player: after `draw` the
position is the one `Player.update` computed (or the old one when `draw` returns early). -/
theorem player_position_invariant (env : P5) :
    (∀ (inp : Input) (p : Player),
        (p.update inp).size / 2 ≤ (p.update inp).x ∧
        (p.update inp).x ≤ width - (p.update inp).size / 2 ∧
        (p.update inp).size / 2 ≤ (p.update inp).y ∧
        (p.update inp).y ≤ height - (p.update inp).size / 2) ∧
    (∀ evs : List Event,
        15 ≤ (run env setup evs).player.x ∧ (run env setup evs).player.x ≤ 785 ∧
        15 ≤ (run env setup evs).player.y ∧ (run env setup evs).player.y ≤ 585) ∧
    (∀ (inp : Input) (g : Game),
        (Player.shoot env inp g).player.x = g.player.x ∧
        (Player.shoot env inp g).player.y = g.player.y) ∧
    (∀ (key : String) (inp : Input) (g : Game),
        (keyPressed env key inp g).player.x = g.player.x ∧
        (keyPressed env key inp g).player.y = g.player.y) ∧
    (∀ (inp : Input) (g : Game),
        (draw env inp g).player.x =
          (if g.gameStarted && !g.gameOver then (g.player.update inp).x else g.player.x) ∧
        (draw env inp g).player.y =
          (if g.gameStarted && !g.gameOver then (g.player.update inp).y else g.player.y)) := by
  refine ⟨?_, ?_, Player.shoot_pos env, keyPressed_pos env, draw_pos env⟩
  · intro inp p
    have h := Player.update_clamped inp p
    simp only [Player.size, width, height]
    norm_num
    exact h
  · intro evs
    apply run_inField
    simp only [setup, Player.new, width, height]
    norm_num


/-! ## The bullet loop -/

theorem eraseIdx_set_self {α : Type} (l : List α) (i : ℕ) (x : α) :
    (l.set i x).eraseIdx i = l.eraseIdx i := by
  induction l generalizing i with
  | nil => rfl
  | cons a t ih =>
    cases i with
    | zero => rfl
    | succ i => simp [List.set, List.eraseIdx, ih]

theorem take_set_self {α : Type} (l : List α) (i : ℕ) (x : α) :
    (l.set i x).take i = l.take i := by
  induction l generalizing i with
  | nil => rfl
  | cons a t ih =>
    cases i with
    | zero => rfl
    | succ i => simp [List.set, ih]

theorem take_eraseIdx_self {α : Type} (l : List α) (i : ℕ) :
    (l.eraseIdx i).take i = l.take i := by
  induction l generalizing i with
  | nil => rfl
  | cons a t ih =>
    cases i with
    | zero => rfl
    | succ i => simp [List.eraseIdx, ih]

theorem killEnemy_enemies (env : P5) (i j : ℕ) (e : Enemy) (g : Game) :
    (killEnemy env i j e g).enemies = g.enemies.eraseIdx j := by
  unfold killEnemy
  simp only [random]
  split_ifs <;> rfl

theorem killEnemy_score (env : P5) (i j : ℕ) (e : Enemy) (g : Game) :
    (killEnemy env i j e g).score = g.score + 1 := by
  unfold killEnemy
  simp only [random]
  split_ifs <;> rfl

theorem killEnemy_bullets (env : P5) (i j : ℕ) (e : Enemy) (g : Game) :
    (killEnemy env i j e g).bullets = g.bullets.eraseIdx i := by
  unfold killEnemy
  simp only [random]
  split_ifs <;> rfl

theorem killEnemy_pickups (env : P5) (i j : ℕ) (e : Enemy) (g : Game) :
    (killEnemy env i j e g).pickups =
      if env.rand g.rngIdx < 1 / 10 then
        g.pickups ++
          [{ x := e.x, y := e.y, type := if env.rand (g.rngIdx + 1) < 1 / 2 then 2 else 3 }]
      else g.pickups := by
  unfold killEnemy
  simp only [random]
  split_ifs <;> rfl

/-- The inner loop from `j - 1` down to `0` either finds no overlapping enemy and changes
nothing, or kills the overlapping enemy of greatest index below `j`. -/
theorem hitScan_cases (env : P5) (i : ℕ) (b : Bullet) (j : ℕ) (g : Game) :
    ((∀ (k : ℕ) (e : Enemy), k < j → g.enemies[k]? = some e → b.hits e = false) ∧
        hitScan env i b j g = g) ∨
      ∃ (k : ℕ) (e : Enemy), k < j ∧ g.enemies[k]? = some e ∧ b.hits e = true ∧
        (∀ (m : ℕ) (e' : Enemy), k < m → m < j → g.enemies[m]? = some e' →
          b.hits e' = false) ∧
        hitScan env i b j g = killEnemy env i k e g := by
  induction j with
  | zero => exact Or.inl ⟨fun k e hk => absurd hk (Nat.not_lt_zero k), rfl⟩
  | succ j ih =>
    simp only [hitScan]
    cases hj : g.enemies[j]? with
    | none =>
      simp only []
      rcases ih with ⟨hno, heq⟩ | ⟨k, e, hk, hke, hhit, hlast, heq⟩
      · refine Or.inl ⟨fun k e hk hke => ?_, heq⟩
        rcases Nat.lt_succ_iff_lt_or_eq.mp hk with h | h
        · exact hno k e h hke
        · subst h; rw [hj] at hke; cases hke
      · refine Or.inr ⟨k, e, Nat.lt_succ_of_lt hk, hke, hhit, fun m e' hkm hm hme => ?_, heq⟩
        rcases Nat.lt_succ_iff_lt_or_eq.mp hm with h | h
        · exact hlast m e' hkm h hme
        · subst h; rw [hj] at hme; cases hme
    | some ej =>
      simp only []
      cases hb : b.hits ej with
      | true =>
        simp only [if_true]
        exact Or.inr ⟨j, ej, Nat.lt_succ_self j, hj, hb,
          fun m e' hjm hm _ => absurd hjm (Nat.not_lt.mpr (Nat.lt_succ_iff.mp hm)), rfl⟩
      | false =>
        simp only [Bool.false_eq_true, if_false]
        rcases ih with ⟨hno, heq⟩ | ⟨k, e, hk, hke, hhit, hlast, heq⟩
        · refine Or.inl ⟨fun k e hk hke => ?_, heq⟩
          rcases Nat.lt_succ_iff_lt_or_eq.mp hk with h | h
          · exact hno k e h hke
          · subst h; rw [hj] at hke; cases hke; exact hb
        · refine Or.inr ⟨k, e, Nat.lt_succ_of_lt hk, hke, hhit, fun m e' hkm hm hme => ?_, heq⟩
          rcases Nat.lt_succ_iff_lt_or_eq.mp hm with h | h
          · exact hlast m e' hkm h hme
          · subst h; rw [hj] at hme; cases hme; exact hb

/-- The body of the bullet loop on an on-screen bullet that overlaps some enemy: the
overlapping enemy of greatest index is killed. -/
theorem bulletStep_hit (env : P5) (g : Game) (i : ℕ) (b : Bullet)
    (hb : g.bullets[i]? = some b) (hon : (b.update env).offscreen = false)
    (hex : ∃ e ∈ g.enemies, (b.update env).hits e = true) :
    ∃ (k : ℕ) (e : Enemy), g.enemies[k]? = some e ∧ (b.update env).hits e = true ∧
      (∀ (m : ℕ) (e' : Enemy), k < m → g.enemies[m]? = some e' →
        (b.update env).hits e' = false) ∧
      bulletStep env i g =
        killEnemy env i k e { g with bullets := g.bullets.set i (b.update env) } := by
  unfold bulletStep
  rw [hb]
  simp only [hon, Bool.false_eq_true, if_false]
  rcases hitScan_cases env i (b.update env) g.enemies.length
      { g with bullets := g.bullets.set i (b.update env) } with
    ⟨hno, _⟩ | ⟨k, e, _, hke, hhit, hlast, heq⟩
  · obtain ⟨e, hmem, hhit⟩ := hex
    obtain ⟨k, hk, hke⟩ := List.getElem_of_mem hmem
    have := hno k e hk (by rw [List.getElem?_eq_getElem hk, hke])
    rw [this] at hhit
    cases hhit
  · refine ⟨k, e, hke, hhit, fun m e' hkm hme => ?_, heq⟩
    have hm : m < g.enemies.length := by
      by_contra hcon
      rw [List.getElem?_eq_none (Nat.not_lt.mp hcon)] at hme
      cases hme
    exact hlast m e' hkm hm hme

/-- The body of the bullet loop on an on-screen bullet that overlaps no enemy: only the
bullet itself is updated. -/
theorem bulletStep_miss (env : P5) (g : Game) (i : ℕ) (b : Bullet)
    (hb : g.bullets[i]? = some b) (hon : (b.update env).offscreen = false)
    (hno : ∀ e ∈ g.enemies, (b.update env).hits e = false) :
    bulletStep env i g = { g with bullets := g.bullets.set i (b.update env) } := by
  unfold bulletStep
  rw [hb]
  simp only [hon, Bool.false_eq_true, if_false]
  rcases hitScan_cases env i (b.update env) g.enemies.length
      { g with bullets := g.bullets.set i (b.update env) } with
    ⟨_, heq⟩ | ⟨k, e, _, hke, hhit, _, _⟩
  · exact heq
  · have := hno e (List.getElem?_mem hke)
    rw [this] at hhit
    cases hhit

/-- The body of the bullet loop on a bullet that has left the canvas. -/
theorem bulletStep_off (env : P5) (g : Game) (i : ℕ) (b : Bullet)
    (hb : g.bullets[i]? = some b) (hoff : (b.update env).offscreen = true) :
    bulletStep env i g = { g with bullets := g.bullets.eraseIdx i } := by
  unfold bulletStep
  rw [hb]
  simp only [hoff, if_true, eraseIdx_set_self]


theorem getElem?_lt_length {α : Type} {l : List α} {i : ℕ} {a : α} (h : l[i]? = some a) :
    i < l.length := by
  by_contra hcon
  rw [List.getElem?_eq_none (Nat.not_lt.mp hcon)] at h
  cases h

/-- One iteration of the bullet loop: the bullets below index `i` are untouched, the score
and the enemy list move together, and the bullet list shrinks by one exactly when the bullet
left the canvas or killed an enemy. -/
theorem bulletStep_account (env : P5) (g : Game) (i : ℕ) (b : Bullet)
    (hb : g.bullets[i]? = some b) :
    (bulletStep env i g).bullets.take i = g.bullets.take i ∧
      (bulletStep env i g).score + (bulletStep env i g).enemies.length =
        g.score + g.enemies.length ∧
      g.score ≤ (bulletStep env i g).score ∧
      g.bullets.length ≤ (bulletStep env i g).bullets.length + 1 ∧
      (bulletStep env i g).bullets.length + ((bulletStep env i g).score - g.score) +
        (if (b.update env).offscreen then 1 else 0) = g.bullets.length := by
  have hi : i < g.bullets.length := getElem?_lt_length hb
  cases hoff : (b.update env).offscreen with
  | true =>
    rw [bulletStep_off env g i b hb hoff]
    simp only [take_eraseIdx_self, List.length_eraseIdx_of_lt hi, if_true]
    refine ⟨trivial, trivial, le_refl _, ?_, ?_⟩ <;> omega
  | false =>
    by_cases hex : ∃ e ∈ g.enemies, (b.update env).hits e = true
    · obtain ⟨k, e, hke, _, _, heq⟩ := bulletStep_hit env g i b hb hoff hex
      have hk : k < g.enemies.length := getElem?_lt_length hke
      rw [heq, killEnemy_bullets, killEnemy_score, killEnemy_enemies]
      simp only [eraseIdx_set_self, take_eraseIdx_self, List.length_eraseIdx_of_lt hi,
        List.length_eraseIdx_of_lt hk, Bool.false_eq_true, if_false]
      refine ⟨trivial, ?_, ?_, ?_, ?_⟩ <;> omega
    · have hno : ∀ e ∈ g.enemies, (b.update env).hits e = false := by
        intro e he
        cases h : (b.update env).hits e with
        | false => rfl
        | true => exact absurd ⟨e, he, h⟩ hex
      rw [bulletStep_miss env g i b hb hoff hno]
      simp only [take_set_self, List.length_set, Bool.false_eq_true, if_false]
      refine ⟨trivial, trivial, le_refl _, ?_, ?_⟩ <;> omega

/-- The bullet loop from index `n - 1` down to `0`. -/
theorem bulletsLoop_account (env : P5) (n : ℕ) (g : Game) (hn : n ≤ g.bullets.length) :
    (bulletsLoop env n g).score + (bulletsLoop env n g).enemies.length =
        g.score + g.enemies.length ∧
      g.score ≤ (bulletsLoop env n g).score ∧
      (bulletsLoop env n g).bullets.length + ((bulletsLoop env n g).score - g.score) +
        (g.bullets.take n).countP (fun b => (b.update env).offscreen) = g.bullets.length := by
  induction n generalizing g with
  | zero => simp [bulletsLoop]
  | succ n ih =>
    have hlt : n < g.bullets.length := hn
    have hb : g.bullets[n]? = some g.bullets[n] := List.getElem?_eq_getElem hlt
    obtain ⟨htake, hsum, hle, hge, hlen⟩ := bulletStep_account env g n _ hb
    have hn' : n ≤ (bulletStep env n g).bullets.length := by omega
    obtain ⟨ihsum, ihle, ihlen⟩ := ih (bulletStep env n g) hn'
    simp only [bulletsLoop]
    rw [htake] at ihlen
    rw [List.take_succ, hb, List.countP_append]
    simp only [Option.toList, List.countP_cons, List.countP_nil]
    refine ⟨by omega, by omega, ?_⟩
    split_ifs at hlen ⊢ <;> omega


theorem mem_eraseIdx_of_getElem? {α : Type} (l : List α) (k m : ℕ) (a : α) (hmk : m ≠ k)
    (h : l[m]? = some a) : a ∈ l.eraseIdx k := by
  rcases Nat.lt_or_gt_of_ne hmk with hlt | hgt
  · have h' : (l.eraseIdx k)[m]? = some a := by
      rw [List.getElem?_eraseIdx_of_lt l k m hlt, h]
    exact List.getElem?_mem h'
  · have hm : m - 1 + 1 = m := by omega
    have h' : (l.eraseIdx k)[m - 1]? = some a := by
      rw [List.getElem?_eraseIdx_of_ge l k (m - 1) (by omega), hm, h]
    exact List.getElem?_mem h'

/-- C2: in the bullet loop of `draw`, an on-screen bullet that overlaps some enemy removes
exactly one enemy and exactly itself, adds 1 to the score, and appends a pickup exactly when
the loot roll is below 0.1 (one pickup, at the position of the removed enemy, of type 2 or
3); an on-screen bullet that overlaps no enemy changes nothing but its own position; a bullet
that left the canvas is removed and nothing else changes; and over the whole loop the score increase, the number of enemies removed and the number of bullets
removed by hits are one number `kills`, the other removed bullets being those that left the
canvas. -/
theorem bullet_loop_accounting (env : P5) (g : Game) :
    (∀ (i : ℕ) (b : Bullet), g.bullets[i]? = some b → (b.update env).offscreen = false →
      (∃ e ∈ g.enemies, (b.update env).hits e = true) →
      ∃ (k : ℕ) (e : Enemy), g.enemies[k]? = some e ∧ (b.update env).hits e = true ∧
        (bulletStep env i g).enemies = g.enemies.eraseIdx k ∧
        (bulletStep env i g).enemies.length + 1 = g.enemies.length ∧
        (bulletStep env i g).bullets = g.bullets.eraseIdx i ∧
        (bulletStep env i g).bullets.length + 1 = g.bullets.length ∧
        (bulletStep env i g).score = g.score + 1 ∧
        (bulletStep env i g).pickups =
          if env.rand g.rngIdx < 1 / 10 then
            g.pickups ++
              [{ x := e.x, y := e.y
                 type := if env.rand (g.rngIdx + 1) < 1 / 2 then 2 else 3 }]
          else g.pickups) ∧
    (∀ (i : ℕ) (b : Bullet), g.bullets[i]? = some b → (b.update env).offscreen = false →
      (∀ e ∈ g.enemies, (b.update env).hits e = false) →
      bulletStep env i g = { g with bullets := g.bullets.set i (b.update env) }) ∧
    (∀ (i : ℕ) (b : Bullet), g.bullets[i]? = some b → (b.update env).offscreen = true →
      bulletStep env i g = { g with bullets := g.bullets.eraseIdx i }) ∧
    (∃ kills : ℕ,
      (bulletsLoop env g.bullets.length g).score = g.score + kills ∧
      (bulletsLoop env g.bullets.length g).enemies.length + kills = g.enemies.length ∧
      (bulletsLoop env g.bullets.length g).bullets.length + kills +
        g.bullets.countP (fun b => (b.update env).offscreen) = g.bullets.length) := by
  refine ⟨?_, ?_, fun i b hb hoff => bulletStep_off env g i b hb hoff, ?_⟩
  · intro i b hb hon hex
    obtain ⟨k, e, hke, hhit, _, heq⟩ := bulletStep_hit env g i b hb hon hex
    have hk : k < g.enemies.length := getElem?_lt_length hke
    have hi : i < g.bullets.length := getElem?_lt_length hb
    refine ⟨k, e, hke, hhit, ?_, ?_, ?_, ?_, ?_, ?_⟩
    · rw [heq, killEnemy_enemies]
    · rw [heq, killEnemy_enemies]
      simp only [List.length_eraseIdx_of_lt hk]
      omega
    · rw [heq, killEnemy_bullets]
      exact eraseIdx_set_self _ _ _
    · rw [heq, killEnemy_bullets]
      simp only [eraseIdx_set_self, List.length_eraseIdx_of_lt hi]
      omega
    · rw [heq, killEnemy_score]
    · rw [heq, killEnemy_pickups]
  · intro i b hb hon hno
    exact bulletStep_miss env g i b hb hon hno
  · obtain ⟨hsum, hle, hlen⟩ := bulletsLoop_account env g.bullets.length g (le_refl _)
    rw [List.take_length] at hlen
    refine ⟨(bulletsLoop env g.bullets.length g).score - g.score, ?_, ?_, hlen⟩ <;> omega

/-- Worked instance for C2: the bullet of `twoOverlap` removes one of the two enemies it
overlaps and itself, and the score becomes 1. -/
theorem bullet_loop_accounting_witness :
    twoOverlap.bullets[0]? = some (Bullet.new 100 300 0) ∧
    ((Bullet.new 100 300 0).update sampleEnv).offscreen = false ∧
    (∃ e ∈ twoOverlap.enemies, ((Bullet.new 100 300 0).update sampleEnv).hits e = true) ∧
    ∃ (k : ℕ) (e : Enemy), twoOverlap.enemies[k]? = some e ∧
      ((Bullet.new 100 300 0).update sampleEnv).hits e = true ∧
      (bulletStep sampleEnv 0 twoOverlap).enemies = twoOverlap.enemies.eraseIdx k ∧
      (bulletStep sampleEnv 0 twoOverlap).enemies.length + 1 = twoOverlap.enemies.length ∧
      (bulletStep sampleEnv 0 twoOverlap).bullets = twoOverlap.bullets.eraseIdx 0 ∧
      (bulletStep sampleEnv 0 twoOverlap).bullets.length + 1 = twoOverlap.bullets.length ∧
      (bulletStep sampleEnv 0 twoOverlap).score = twoOverlap.score + 1 ∧
      (bulletStep sampleEnv 0 twoOverlap).pickups =
        if sampleEnv.rand twoOverlap.rngIdx < 1 / 10 then
          twoOverlap.pickups ++
            [{ x := e.x, y := e.y
               type := if sampleEnv.rand (twoOverlap.rngIdx + 1) < 1 / 2 then 2 else 3 }]
        else twoOverlap.pickups :=
  ⟨rfl, by decide!, ⟨Enemy.new 110 300, by decide!, by decide!⟩,
    (bullet_loop_accounting sampleEnv twoOverlap).1 0 (Bullet.new 100 300 0) rfl (by decide!)
      ⟨Enemy.new 110 300, by decide!, by decide!⟩⟩

/-- Counterexample to C3 as stated: the bullet of `twoOverlap` overlaps the enemies at
index 0 and index 1; the loop removes the one at index 1 and the one at index 0 survives,
so the enemy killed is not the overlapping enemy of lowest index. -/
theorem lowest_index_kill_refuted :
    ((Bullet.new 100 300 0).update sampleEnv).hits (Enemy.new 110 300) = true ∧
    ((Bullet.new 100 300 0).update sampleEnv).hits (Enemy.new 115 300) = true ∧
    twoOverlap.enemies = [Enemy.new 110 300, Enemy.new 115 300] ∧
    (bulletsLoop sampleEnv twoOverlap.bullets.length twoOverlap).enemies =
      [Enemy.new 110 300] ∧
    (bulletsLoop sampleEnv twoOverlap.bullets.length twoOverlap).enemies ≠
      twoOverlap.enemies.eraseIdx 0 ∧
    (draw sampleEnv idleInput twoOverlap).enemies = [Enemy.new (223 / 2) 300] ∧
    (draw sampleEnv idleInput twoOverlap).score = 1 := by
  refine ⟨by decide!, by decide!, rfl, by decide!, by decide!, by decide!, by decide!⟩

/-- C3 (amended): an on-screen bullet that overlaps one or more enemies kills the
overlapping enemy with the highest index in `enemies` (the inner loop runs from the end of
the list to its start and stops at its first hit); every other enemy, overlapping or not,
survives that bullet. -/
theorem bullet_kills_last_overlapping (env : P5) (g : Game) (i : ℕ) (b : Bullet)
    (hb : g.bullets[i]? = some b) (hon : (b.update env).offscreen = false)
    (hex : ∃ e ∈ g.enemies, (b.update env).hits e = true) :
    ∃ (k : ℕ) (e : Enemy), g.enemies[k]? = some e ∧ (b.update env).hits e = true ∧
      (∀ (m : ℕ) (e' : Enemy), k < m → g.enemies[m]? = some e' →
        (b.update env).hits e' = false) ∧
      (bulletStep env i g).enemies = g.enemies.eraseIdx k ∧
      (∀ (m : ℕ) (e' : Enemy), m ≠ k → g.enemies[m]? = some e' →
        e' ∈ (bulletStep env i g).enemies) := by
  obtain ⟨k, e, hke, hhit, hlast, heq⟩ := bulletStep_hit env g i b hb hon hex
  have henemies : (bulletStep env i g).enemies = g.enemies.eraseIdx k := by
    rw [heq, killEnemy_enemies]
  refine ⟨k, e, hke, hhit, hlast, henemies, fun m e' hmk hme => ?_⟩
  rw [henemies]
  exact mem_eraseIdx_of_getElem? g.enemies k m e' hmk hme

/-- Worked instance for the amended C3 on `twoOverlap`. -/
theorem bullet_kills_last_overlapping_witness :
    twoOverlap.bullets[0]? = some (Bullet.new 100 300 0) ∧
    ((Bullet.new 100 300 0).update sampleEnv).offscreen = false ∧
    (∃ e ∈ twoOverlap.enemies, ((Bullet.new 100 300 0).update sampleEnv).hits e = true) ∧
    ∃ (k : ℕ) (e : Enemy), twoOverlap.enemies[k]? = some e ∧
      ((Bullet.new 100 300 0).update sampleEnv).hits e = true ∧
      (∀ (m : ℕ) (e' : Enemy), k < m → twoOverlap.enemies[m]? = some e' →
        ((Bullet.new 100 300 0).update sampleEnv).hits e' = false) ∧
      (bulletStep sampleEnv 0 twoOverlap).enemies = twoOverlap.enemies.eraseIdx k ∧
      (∀ (m : ℕ) (e' : Enemy), m ≠ k → twoOverlap.enemies[m]? = some e' →
        e' ∈ (bulletStep sampleEnv 0 twoOverlap).enemies) :=
  ⟨rfl, by decide!, ⟨Enemy.new 110 300, by decide!, by decide!⟩,
    bullet_kills_last_overlapping sampleEnv twoOverlap 0 (Bullet.new 100 300 0) rfl
      (by decide!) ⟨Enemy.new 110 300, by decide!, by decide!⟩⟩


/-! ## Resolution of a warning -/

theorem spawnEnemy_spec (env : P5) (hr : ∀ n, 0 ≤ env.rand n ∧ env.rand n < 1) (g : Game) :
    (∃ e : Enemy, (spawnEnemy env g).enemies = g.enemies ++ [e] ∧ onSpawnMargin e) ∧
      (spawnEnemy env g).enemySpawnCount = g.enemySpawnCount ∧
      (spawnEnemy env g).partners = g.partners ∧
      (spawnEnemy env g).roundCount = g.roundCount := by
  have h1 := hr (g.rngIdx + 1)
  have hx : 0 ≤ env.rand (g.rngIdx + 1) * (800 - 0) + 0 ∧
      env.rand (g.rngIdx + 1) * (800 - 0) + 0 ≤ 800 := by
    constructor <;> nlinarith [h1.1, h1.2]
  have hy : 0 ≤ env.rand (g.rngIdx + 1) * (600 - 0) + 0 ∧
      env.rand (g.rngIdx + 1) * (600 - 0) + 0 ≤ 600 := by
    constructor <;> nlinarith [h1.1, h1.2]
  unfold spawnEnemy
  simp only [randomMax, randomRange, random, width, height]
  split_ifs <;>
    refine ⟨⟨_, rfl, ?_⟩, rfl, rfl, rfl⟩ <;>
    simp only [onSpawnMargin, StrongEnemy.new, Enemy.new, width, height]
  · exact Or.inl ⟨trivial, hx⟩
  · exact Or.inl ⟨trivial, hx⟩
  · exact Or.inr (Or.inl ⟨trivial, hy⟩)
  · exact Or.inr (Or.inl ⟨trivial, hy⟩)
  · exact Or.inr (Or.inr (Or.inl ⟨trivial, hx⟩))
  · exact Or.inr (Or.inr (Or.inl ⟨trivial, hx⟩))
  · exact Or.inr (Or.inr (Or.inr ⟨trivial, hy⟩))
  · exact Or.inr (Or.inr (Or.inr ⟨trivial, hy⟩))

theorem spawnEnemies_spec (env : P5) (hr : ∀ n, 0 ≤ env.rand n ∧ env.rand n < 1) (n : ℕ)
    (g : Game) :
    (∃ new : List Enemy, (spawnEnemies env n g).enemies = g.enemies ++ new ∧
        new.length = n ∧ ∀ e ∈ new, onSpawnMargin e) ∧
      (spawnEnemies env n g).enemySpawnCount = g.enemySpawnCount ∧
      (spawnEnemies env n g).partners = g.partners ∧
      (spawnEnemies env n g).roundCount = g.roundCount := by
  induction n generalizing g with
  | zero => exact ⟨⟨[], by simp [spawnEnemies], rfl, by simp⟩, rfl, rfl, rfl⟩
  | succ n ih =>
    obtain ⟨⟨e, he, hm⟩, hc, hp, hrc⟩ := spawnEnemy_spec env hr g
    obtain ⟨⟨new, hnew, hlen, hall⟩, hc', hp', hrc'⟩ := ih (spawnEnemy env g)
    simp only [spawnEnemies]
    refine ⟨⟨e :: new, ?_, by simp [hlen], ?_⟩, by rw [hc', hc], by rw [hp', hp],
      by rw [hrc', hrc]⟩
    · rw [hnew, he]; simp
    · intro e' he'
      rcases List.mem_cons.mp he' with h | h
      · rw [h]; exact hm
      · exact hall e' h

theorem spawnAttackBullet_enemies (env : P5) (g : Game) :
    (spawnAttackBullet env g).enemies = g.enemies ∧
      (spawnAttackBullet env g).enemySpawnCount = g.enemySpawnCount ∧
      (spawnAttackBullet env g).partners = g.partners ∧
      (spawnAttackBullet env g).roundCount = g.roundCount := by
  unfold spawnAttackBullet
  simp only [randomMax, random]
  split_ifs <;> exact ⟨rfl, rfl, rfl, rfl⟩

theorem spawnAttackBullets_enemies (env : P5) (g : Game) :
    (spawnAttackBullets env g).enemies = g.enemies ∧
      (spawnAttackBullets env g).enemySpawnCount = g.enemySpawnCount ∧
      (spawnAttackBullets env g).partners = g.partners ∧
      (spawnAttackBullets env g).roundCount = g.roundCount := by
  simp only [spawnAttackBullets, Nat.iterate]
  refine ⟨?_, ?_, ?_, ?_⟩ <;>
    simp only [(spawnAttackBullet_enemies env _).1, (spawnAttackBullet_enemies env _).2.1,
      (spawnAttackBullet_enemies env _).2.2.1, (spawnAttackBullet_enemies env _).2.2.2]

theorem partnerCadence_enemies (env : P5) (g : Game) :
    (partnerCadence env g).enemies = g.enemies ∧
      (partnerCadence env g).enemySpawnCount = g.enemySpawnCount := by
  unfold partnerCadence
  simp only [random]
  split_ifs <;> exact ⟨rfl, rfl⟩

theorem onSpawnMargin_outside (e : Enemy) (h : onSpawnMargin e) :
    e.x < 0 ∨ e.x > width ∨ e.y < 0 ∨ e.y > height := by
  simp only [onSpawnMargin, width, height] at *
  rcases h with ⟨h, _⟩ | ⟨h, _⟩ | ⟨h, _⟩ | ⟨h, _⟩
  · right; right; left; rw [h]; norm_num
  · right; left; rw [h]; norm_num
  · right; right; right; rw [h]; norm_num
  · left; rw [h]; norm_num

theorem resolveSpawn_enemy (env : P5) (g : Game) (hw : g.warningType = WarningType.enemy) :
    resolveSpawn env g =
      { spawnEnemies env g.enemySpawnCount g with
        enemySpawnCount := (spawnEnemies env g.enemySpawnCount g).enemySpawnCount + 1 } := by
  unfold resolveSpawn
  split
  · rfl
  · rename_i heq
    rw [hw] at heq
    cases heq

theorem resolveSpawn_attack (env : P5) (g : Game) (hw : g.warningType = WarningType.attack) :
    resolveSpawn env g = spawnAttackBullets env g := by
  unfold resolveSpawn
  split
  · rename_i heq
    rw [hw] at heq
    cases heq
  · rfl

/-- C4: with rolls in `[0, 1)`, the resolution of an enemy warning with
`enemySpawnCount = N` appends exactly `N` enemies, each on one of the four lines 30 units
outside the canvas with its other coordinate in the canvas range, hence strictly outside the
800 by 600 rectangle, and leaves `enemySpawnCount = N + 1`; the resolution of an attack
warning leaves `enemies` and `enemySpawnCount` as they were. -/
theorem wave_resolution (env : P5) (hr : ∀ n, 0 ≤ env.rand n ∧ env.rand n < 1) (g : Game) :
    (g.warningType = WarningType.enemy →
      (∃ new : List Enemy, (resolveWarning env g).enemies = g.enemies ++ new ∧
        new.length = g.enemySpawnCount ∧
        ∀ e ∈ new, onSpawnMargin e ∧ (e.x < 0 ∨ e.x > width ∨ e.y < 0 ∨ e.y > height)) ∧
      (resolveWarning env g).enemySpawnCount = g.enemySpawnCount + 1) ∧
    (g.warningType = WarningType.attack →
      (resolveWarning env g).enemies = g.enemies ∧
      (resolveWarning env g).enemySpawnCount = g.enemySpawnCount) := by
  constructor
  · intro hw
    obtain ⟨⟨new, hnew, hlen, hall⟩, hc, _, _⟩ :=
      spawnEnemies_spec env hr g.enemySpawnCount { g with roundCount := g.roundCount + 1 }
    have hs := resolveSpawn_enemy env { g with roundCount := g.roundCount + 1 } hw
    simp only [resolveWarning, (partnerCadence_enemies env _).1,
      (partnerCadence_enemies env _).2]
    rw [hs]
    exact ⟨⟨new, hnew, hlen, fun e he => ⟨hall e he, onSpawnMargin_outside e (hall e he)⟩⟩,
      congrArg (· + 1) hc⟩
  · intro hw
    have hs := resolveSpawn_attack env { g with roundCount := g.roundCount + 1 } hw
    simp only [resolveWarning, (partnerCadence_enemies env _).1,
      (partnerCadence_enemies env _).2]
    rw [hs]
    exact ⟨(spawnAttackBullets_enemies env _).1, (spawnAttackBullets_enemies env _).2.1⟩

theorem sampleEnv_rand_range : ∀ n, 0 ≤ sampleEnv.rand n ∧ sampleEnv.rand n < 1 := by
  intro n
  simp only [sampleEnv]
  have h : n % 4 < 4 := Nat.mod_lt n (by norm_num)
  have h' : ((n % 4 : ℕ) : ℚ) < 4 := by exact_mod_cast h
  have h0 : (0 : ℚ) ≤ ((n % 4 : ℕ) : ℚ) := Nat.cast_nonneg _
  constructor
  · positivity
  · rw [div_lt_one (by norm_num)]; exact h'

/-- Worked instance for C4: `waveDue` has `enemySpawnCount = 2`; its resolution appends two
enemies on the spawn lines and leaves `enemySpawnCount = 3`. -/
theorem wave_resolution_witness :
    (∀ n, 0 ≤ sampleEnv.rand n ∧ sampleEnv.rand n < 1) ∧
    waveDue.warningType = WarningType.enemy ∧
    (∃ new : List Enemy, (resolveWarning sampleEnv waveDue).enemies = waveDue.enemies ++ new ∧
      new.length = waveDue.enemySpawnCount ∧
      ∀ e ∈ new, onSpawnMargin e ∧ (e.x < 0 ∨ e.x > width ∨ e.y < 0 ∨ e.y > height)) ∧
    (resolveWarning sampleEnv waveDue).enemySpawnCount = waveDue.enemySpawnCount + 1 ∧
    (resolveWarning sampleEnv waveDue).enemies = [Enemy.new 200 (-30), Enemy.new (-30) 0] :=
  ⟨sampleEnv_rand_range, rfl,
    ((wave_resolution sampleEnv sampleEnv_rand_range waveDue).1 rfl).1,
    ((wave_resolution sampleEnv sampleEnv_rand_range waveDue).1 rfl).2, by decide!⟩


/-! ## The partner cadence -/

theorem spawnEnemy_frame (env : P5) (g : Game) :
    (spawnEnemy env g).partners = g.partners ∧
      (spawnEnemy env g).roundCount = g.roundCount := by
  unfold spawnEnemy
  simp only [randomMax, randomRange, random]
  split_ifs <;> exact ⟨rfl, rfl⟩

theorem spawnEnemies_frame (env : P5) (n : ℕ) (g : Game) :
    (spawnEnemies env n g).partners = g.partners ∧
      (spawnEnemies env n g).roundCount = g.roundCount := by
  induction n generalizing g with
  | zero => exact ⟨rfl, rfl⟩
  | succ n ih =>
    simp only [spawnEnemies]
    rw [(ih _).1, (ih _).2]
    exact spawnEnemy_frame env g

theorem resolveSpawn_frame (env : P5) (g : Game) :
    (resolveSpawn env g).partners = g.partners ∧
      (resolveSpawn env g).roundCount = g.roundCount := by
  unfold resolveSpawn
  split
  · exact spawnEnemies_frame env _ g
  · exact ⟨(spawnAttackBullets_enemies env g).2.2.1, (spawnAttackBullets_enemies env g).2.2.2⟩

theorem spawnPartner_partners (env : P5) (g : Game) :
    ∃ pt : Partner, (spawnPartner env g).partners = g.partners ++ [pt] ∧
      pt.x = width / 2 ∧ pt.y = height / 2 ∧ pt.bound = true :=
  ⟨_, rfl, rfl, rfl, rfl⟩

theorem any_bound_eq_false (ps : List Partner) :
    (ps.any fun p => p.bound) = false ↔ ∀ p ∈ ps, p.bound = false := by
  simp [List.any_eq_false]

/-- The cadence block, case by case. -/
theorem partnerCadence_cases (env : P5) (g : Game) :
    (g.roundCount = 3 → partnerCadence env g = spawnPartner env g) ∧
    (g.roundCount % 3 = 0 → 3 < g.roundCount → (∀ p ∈ g.partners, p.bound = false) →
      env.rand g.rngIdx < 1 / 2 →
      partnerCadence env g = spawnPartner env { g with rngIdx := g.rngIdx + 1 }) ∧
    (g.roundCount % 3 = 0 → 3 < g.roundCount →
      ¬ ((∀ p ∈ g.partners, p.bound = false) ∧ env.rand g.rngIdx < 1 / 2) →
      (partnerCadence env g).partners = g.partners) ∧
    (g.roundCount % 3 ≠ 0 → partnerCadence env g = g) := by
  refine ⟨?_, ?_, ?_, ?_⟩
  · intro h3
    simp [partnerCadence, h3]
  · intro hm hgt hnb hcoin
    have hne : g.roundCount ≠ 3 := by omega
    have hpos : 0 < g.roundCount := by omega
    have hany := (any_bound_eq_false g.partners).mpr hnb
    simp only [partnerCadence, hm, hpos, hne, hany, random, hcoin]
    simp
  · intro hm hgt hnot
    have hne : g.roundCount ≠ 3 := by omega
    have hpos : 0 < g.roundCount := by omega
    simp only [partnerCadence, hm, hpos, hne, random]
    cases hany : (g.partners.any fun p => p.bound) with
    | true => simp
    | false =>
      have hnb := (any_bound_eq_false g.partners).mp hany
      have hcoin : ¬ env.rand g.rngIdx < 1 / 2 := fun h => hnot ⟨hnb, h⟩
      have hcoin' : ¬ env.rand g.rngIdx < 2⁻¹ := by simpa using hcoin
      simp [hcoin']
  · intro hm
    simp [partnerCadence, hm]

/-- C5: the resolution that makes `roundCount` equal to 3 appends exactly one partner, at
the centre `(width / 2, height / 2) = (400, 300)` and bound, whatever the rolls; a
resolution that makes `roundCount` a later multiple of 3 appends one such partner when no
partner of the list is bound and the coin (the roll that follows the spawns) is below 0.5,
and appends none otherwise; a resolution that makes `roundCount` no multiple of 3 appends
none. -/
theorem ally_cadence (env : P5) (g : Game) :
    (g.roundCount + 1 = 3 →
      ∃ pt : Partner, (resolveWarning env g).partners = g.partners ++ [pt] ∧
        pt.x = width / 2 ∧ pt.y = height / 2 ∧ pt.x = 400 ∧ pt.y = 300 ∧ pt.bound = true) ∧
    ((g.roundCount + 1) % 3 = 0 → 3 < g.roundCount + 1 →
      ((∀ p ∈ g.partners, p.bound = false) ∧
          env.rand (resolveSpawn env { g with roundCount := g.roundCount + 1 }).rngIdx
            < 1 / 2 →
        ∃ pt : Partner, (resolveWarning env g).partners = g.partners ++ [pt] ∧
          pt.x = width / 2 ∧ pt.y = height / 2 ∧ pt.x = 400 ∧ pt.y = 300 ∧
          pt.bound = true) ∧
      (¬ ((∀ p ∈ g.partners, p.bound = false) ∧
          env.rand (resolveSpawn env { g with roundCount := g.roundCount + 1 }).rngIdx
            < 1 / 2) →
        (resolveWarning env g).partners = g.partners)) ∧
    ((g.roundCount + 1) % 3 ≠ 0 → (resolveWarning env g).partners = g.partners) := by
  have hf := resolveSpawn_frame env { g with roundCount := g.roundCount + 1 }
  have hp : (resolveSpawn env { g with roundCount := g.roundCount + 1 }).partners =
      g.partners := hf.1
  have hrc : (resolveSpawn env { g with roundCount := g.roundCount + 1 }).roundCount =
      g.roundCount + 1 := hf.2
  have hcentre : width / 2 = 400 ∧ height / 2 = 300 := by
    simp only [width, height]; norm_num
  refine ⟨?_, ?_, ?_⟩
  · intro h3
    simp only [resolveWarning]
    rw [(partnerCadence_cases env _).1 (by simpa [hrc] using h3)]
    obtain ⟨pt, hpt, hx, hy, hb⟩ := spawnPartner_partners env
      { resolveSpawn env { g with roundCount := g.roundCount + 1 } with
        warningActive := false
        lastWarningFrame :=
          (resolveSpawn env { g with roundCount := g.roundCount + 1 }).frameCount }
    exact ⟨pt, by rw [hpt]; simp only [hp], hx, hy, by rw [hx, hcentre.1],
      by rw [hy, hcentre.2], hb⟩
  · intro hm hgt
    constructor
    · rintro ⟨hnb, hcoin⟩
      simp only [resolveWarning]
      rw [(partnerCadence_cases env _).2.1 (by simpa [hrc] using hm)
        (by simpa [hrc] using hgt) (by simpa [hp] using hnb) (by simpa using hcoin)]
      obtain ⟨pt, hpt, hx, hy, hb⟩ := spawnPartner_partners env
        { resolveSpawn env { g with roundCount := g.roundCount + 1 } with
          warningActive := false
          lastWarningFrame :=
            (resolveSpawn env { g with roundCount := g.roundCount + 1 }).frameCount
          rngIdx := (resolveSpawn env { g with roundCount := g.roundCount + 1 }).rngIdx + 1 }
      exact ⟨pt, by rw [hpt]; simp only [hp], hx, hy, by rw [hx, hcentre.1],
        by rw [hy, hcentre.2], hb⟩
    · intro hnot
      simp only [resolveWarning]
      rw [(partnerCadence_cases env _).2.2.1 (by simpa [hrc] using hm)
        (by simpa [hrc] using hgt) (by simpa [hp] using hnot)]
      exact hp
  · intro hm
    simp only [resolveWarning]
    rw [(partnerCadence_cases env _).2.2.2 (by simpa [hrc] using hm)]
    exact hp

/-- Worked instances for C5: from `roundTwo` the resolution makes `roundCount = 3` and
appends the bound partner at the centre; from `roundFive` it makes `roundCount = 6`, no
partner is bound and the coin is `0`, so a partner is appended as well. -/
theorem ally_cadence_witness :
    (roundTwo.roundCount + 1 = 3 ∧
      ∃ pt : Partner, (resolveWarning sampleEnv roundTwo).partners =
          roundTwo.partners ++ [pt] ∧
        pt.x = width / 2 ∧ pt.y = height / 2 ∧ pt.x = 400 ∧ pt.y = 300 ∧ pt.bound = true) ∧
    ((roundFive.roundCount + 1) % 3 = 0 ∧ 3 < roundFive.roundCount + 1 ∧
      ((∀ p ∈ roundFive.partners, p.bound = false) ∧
        sampleEnv.rand
            (resolveSpawn sampleEnv
              { roundFive with roundCount := roundFive.roundCount + 1 }).rngIdx < 1 / 2) ∧
      ∃ pt : Partner, (resolveWarning sampleEnv roundFive).partners =
          roundFive.partners ++ [pt] ∧
        pt.x = width / 2 ∧ pt.y = height / 2 ∧ pt.x = 400 ∧ pt.y = 300 ∧ pt.bound = true) :=
  ⟨⟨rfl, (ally_cadence sampleEnv roundTwo).1 rfl⟩,
    ⟨rfl, by decide, ⟨by decide!, by decide!⟩,
      ((ally_cadence sampleEnv roundFive).2.1 rfl (by decide)).1 ⟨by decide!, by decide!⟩⟩⟩


/-! ## Frame lemmas for `gameOver` and for the player's health -/

theorem Player.shoot_gameOver (env : P5) (inp : Input) (g : Game) :
    (Player.shoot env inp g).gameOver = g.gameOver ∧
      (Player.shoot env inp g).player.health = g.player.health := by
  unfold Player.shoot
  simp only []
  split_ifs <;> exact ⟨rfl, rfl⟩

theorem playerPhase_gameOver (env : P5) (inp : Input) (g : Game) :
    (playerPhase env inp g).gameOver = g.gameOver ∧
      (playerPhase env inp g).player.health = g.player.health := by
  unfold playerPhase
  simp only []
  split_ifs
  · exact Player.shoot_gameOver env inp _
  · exact ⟨rfl, rfl⟩

theorem ammoWarningPhase_gameOver (g : Game) : (ammoWarningPhase g).gameOver = g.gameOver := by
  unfold ammoWarningPhase
  split_ifs <;> rfl

theorem Partner.shoot_keeps_gameOver (env : P5) (pt : Partner) (g : Game) :
    (Partner.shoot env pt g).2.gameOver = g.gameOver := by
  unfold Partner.shoot
  split <;> rfl

theorem Partner.update_gameOver (env : P5) (pt : Partner) (g : Game) :
    (Partner.update env pt g).2.gameOver = g.gameOver := by
  unfold Partner.update
  simp only []
  split_ifs <;> first | rfl | simp [Partner.shoot_keeps_gameOver, random]

theorem partnersLoop_gameOver (env : P5) (ps : List Partner) (g : Game) :
    (partnersLoop env ps g).2.gameOver = g.gameOver := by
  induction ps generalizing g with
  | nil => rfl
  | cons pt rest ih =>
    simp only [partnersLoop]
    rw [ih, Partner.update_gameOver]

theorem updatePartners_gameOver (env : P5) (g : Game) :
    (updatePartners env g).gameOver = g.gameOver := by
  simp [updatePartners, partnersLoop_gameOver]

theorem killEnemy_gameOver (env : P5) (i j : ℕ) (e : Enemy) (g : Game) :
    (killEnemy env i j e g).gameOver = g.gameOver := by
  unfold killEnemy
  simp only [random]
  split_ifs <;> rfl

theorem hitScan_gameOver (env : P5) (i : ℕ) (b : Bullet) (j : ℕ) (g : Game) :
    (hitScan env i b j g).gameOver = g.gameOver := by
  induction j with
  | zero => rfl
  | succ j ih =>
    simp only [hitScan]
    split
    · exact ih
    · split_ifs
      · exact killEnemy_gameOver env i j _ g
      · exact ih

theorem bulletStep_gameOver (env : P5) (i : ℕ) (g : Game) :
    (bulletStep env i g).gameOver = g.gameOver := by
  unfold bulletStep
  split
  · rfl
  · simp only []
    split_ifs
    · rfl
    · rw [hitScan_gameOver]

theorem bulletsLoop_gameOver (env : P5) (n : ℕ) (g : Game) :
    (bulletsLoop env n g).gameOver = g.gameOver := by
  induction n generalizing g with
  | zero => rfl
  | succ n ih => simp only [bulletsLoop]; rw [ih, bulletStep_gameOver]

theorem attackBulletStep_gameOver (env : P5) (i : ℕ) (g : Game) :
    (attackBulletStep env i g).gameOver = g.gameOver := by
  unfold attackBulletStep
  split
  · rfl
  · simp only []
    split_ifs <;> rfl

theorem attackBulletsLoop_gameOver (env : P5) (n : ℕ) (g : Game) :
    (attackBulletsLoop env n g).gameOver = g.gameOver := by
  induction n generalizing g with
  | zero => rfl
  | succ n ih => simp only [attackBulletsLoop]; rw [ih, attackBulletStep_gameOver]

theorem enemyStep_gameOver (env : P5) (e : Enemy) (g : Game) :
    (enemyStep env e g).2.gameOver = g.gameOver := by
  unfold enemyStep
  simp only []
  split_ifs <;> rfl

theorem enemiesLoop_gameOver (env : P5) (es : List Enemy) (g : Game) :
    (enemiesLoop env es g).2.gameOver = g.gameOver := by
  induction es generalizing g with
  | nil => rfl
  | cons e rest ih =>
    simp only [enemiesLoop]
    rw [ih, enemyStep_gameOver]

theorem updateEnemies_gameOver (env : P5) (g : Game) :
    (updateEnemies env g).gameOver = g.gameOver := by
  simp only [updateEnemies]
  exact enemiesLoop_gameOver env g.enemies g

theorem pickupStep_gameOver (i : ℕ) (g : Game) :
    (pickupStep i g).gameOver = g.gameOver ∧
      (pickupStep i g).player.health = g.player.health := by
  unfold pickupStep
  split
  · exact ⟨rfl, rfl⟩
  · simp only []
    split_ifs <;> exact ⟨rfl, rfl⟩

theorem pickupsLoop_gameOver (n : ℕ) (g : Game) :
    (pickupsLoop n g).gameOver = g.gameOver ∧
      (pickupsLoop n g).player.health = g.player.health := by
  induction n generalizing g with
  | zero => exact ⟨rfl, rfl⟩
  | succ n ih =>
    simp only [pickupsLoop]
    rw [(ih _).1, (ih _).2]
    exact pickupStep_gameOver n g

theorem startWarning_gameOver (env : P5) (g : Game) :
    (startWarning env g).gameOver = g.gameOver := by
  unfold startWarning
  split_ifs <;> rfl

theorem spawnEnemy_gameOver (env : P5) (g : Game) :
    (spawnEnemy env g).gameOver = g.gameOver := by
  unfold spawnEnemy
  simp only [randomMax, randomRange, random]
  split_ifs <;> rfl

theorem spawnEnemies_gameOver (env : P5) (n : ℕ) (g : Game) :
    (spawnEnemies env n g).gameOver = g.gameOver := by
  induction n generalizing g with
  | zero => rfl
  | succ n ih => simp only [spawnEnemies]; rw [ih, spawnEnemy_gameOver]

theorem spawnAttackBullet_gameOver (env : P5) (g : Game) :
    (spawnAttackBullet env g).gameOver = g.gameOver := by
  unfold spawnAttackBullet
  simp only [randomMax, random]
  split_ifs <;> rfl

theorem spawnAttackBullets_gameOver (env : P5) (g : Game) :
    (spawnAttackBullets env g).gameOver = g.gameOver := by
  simp [spawnAttackBullets, Nat.iterate, spawnAttackBullet_gameOver]

theorem resolveSpawn_gameOver (env : P5) (g : Game) :
    (resolveSpawn env g).gameOver = g.gameOver := by
  unfold resolveSpawn
  split
  · simp [spawnEnemies_gameOver]
  · exact spawnAttackBullets_gameOver env g

theorem partnerCadence_gameOver (env : P5) (g : Game) :
    (partnerCadence env g).gameOver = g.gameOver := by
  unfold partnerCadence
  simp only [random]
  split_ifs <;> rfl

theorem resolveWarning_gameOver (env : P5) (g : Game) :
    (resolveWarning env g).gameOver = g.gameOver := by
  simp [resolveWarning, partnerCadence_gameOver, resolveSpawn_gameOver]

theorem runWarning_gameOver (env : P5) (g : Game) :
    (runWarning env g).gameOver = g.gameOver := by
  unfold runWarning
  simp only []
  split_ifs
  · rw [resolveWarning_gameOver]
  · rfl
  · rfl


/-! ## Frame lemmas for `gameStarted` -/

theorem Player.shoot_gameStarted (env : P5) (inp : Input) (g : Game) :
    (Player.shoot env inp g).gameStarted = g.gameStarted := by
  unfold Player.shoot
  simp only []
  split_ifs <;> rfl

theorem playerPhase_gameStarted (env : P5) (inp : Input) (g : Game) :
    (playerPhase env inp g).gameStarted = g.gameStarted := by
  unfold playerPhase
  simp only []
  split_ifs
  · exact Player.shoot_gameStarted env inp _
  · rfl

theorem ammoWarningPhase_gameStarted (g : Game) : (ammoWarningPhase g).gameStarted = g.gameStarted := by
  unfold ammoWarningPhase
  split_ifs <;> rfl

theorem Partner.shoot_keeps_gameStarted (env : P5) (pt : Partner) (g : Game) :
    (Partner.shoot env pt g).2.gameStarted = g.gameStarted := by
  unfold Partner.shoot
  split <;> rfl

theorem Partner.update_gameStarted (env : P5) (pt : Partner) (g : Game) :
    (Partner.update env pt g).2.gameStarted = g.gameStarted := by
  unfold Partner.update
  simp only []
  split_ifs <;> first | rfl | simp [Partner.shoot_keeps_gameStarted, random]

theorem partnersLoop_gameStarted (env : P5) (ps : List Partner) (g : Game) :
    (partnersLoop env ps g).2.gameStarted = g.gameStarted := by
  induction ps generalizing g with
  | nil => rfl
  | cons pt rest ih =>
    simp only [partnersLoop]
    rw [ih, Partner.update_gameStarted]

theorem updatePartners_gameStarted (env : P5) (g : Game) :
    (updatePartners env g).gameStarted = g.gameStarted := by
  simp [updatePartners, partnersLoop_gameStarted]

theorem killEnemy_gameStarted (env : P5) (i j : ℕ) (e : Enemy) (g : Game) :
    (killEnemy env i j e g).gameStarted = g.gameStarted := by
  unfold killEnemy
  simp only [random]
  split_ifs <;> rfl

theorem hitScan_gameStarted (env : P5) (i : ℕ) (b : Bullet) (j : ℕ) (g : Game) :
    (hitScan env i b j g).gameStarted = g.gameStarted := by
  induction j with
  | zero => rfl
  | succ j ih =>
    simp only [hitScan]
    split
    · exact ih
    · split_ifs
      · exact killEnemy_gameStarted env i j _ g
      · exact ih

theorem bulletStep_gameStarted (env : P5) (i : ℕ) (g : Game) :
    (bulletStep env i g).gameStarted = g.gameStarted := by
  unfold bulletStep
  split
  · rfl
  · simp only []
    split_ifs
    · rfl
    · rw [hitScan_gameStarted]

theorem bulletsLoop_gameStarted (env : P5) (n : ℕ) (g : Game) :
    (bulletsLoop env n g).gameStarted = g.gameStarted := by
  induction n generalizing g with
  | zero => rfl
  | succ n ih => simp only [bulletsLoop]; rw [ih, bulletStep_gameStarted]

theorem attackBulletStep_gameStarted (env : P5) (i : ℕ) (g : Game) :
    (attackBulletStep env i g).gameStarted = g.gameStarted := by
  unfold attackBulletStep
  split
  · rfl
  · simp only []
    split_ifs <;> rfl

theorem attackBulletsLoop_gameStarted (env : P5) (n : ℕ) (g : Game) :
    (attackBulletsLoop env n g).gameStarted = g.gameStarted := by
  induction n generalizing g with
  | zero => rfl
  | succ n ih => simp only [attackBulletsLoop]; rw [ih, attackBulletStep_gameStarted]

theorem enemyStep_gameStarted (env : P5) (e : Enemy) (g : Game) :
    (enemyStep env e g).2.gameStarted = g.gameStarted := by
  unfold enemyStep
  simp only []
  split_ifs <;> rfl

theorem enemiesLoop_gameStarted (env : P5) (es : List Enemy) (g : Game) :
    (enemiesLoop env es g).2.gameStarted = g.gameStarted := by
  induction es generalizing g with
  | nil => rfl
  | cons e rest ih =>
    simp only [enemiesLoop]
    rw [ih, enemyStep_gameStarted]

theorem updateEnemies_gameStarted (env : P5) (g : Game) :
    (updateEnemies env g).gameStarted = g.gameStarted := by
  simp only [updateEnemies]
  exact enemiesLoop_gameStarted env g.enemies g

theorem pickupStep_gameStarted (i : ℕ) (g : Game) :
    (pickupStep i g).gameStarted = g.gameStarted := by
  unfold pickupStep
  split
  · rfl
  · simp only []
    split_ifs <;> rfl

theorem pickupsLoop_gameStarted (n : ℕ) (g : Game) :
    (pickupsLoop n g).gameStarted = g.gameStarted := by
  induction n generalizing g with
  | zero => rfl
  | succ n ih => simp only [pickupsLoop]; rw [ih, pickupStep_gameStarted]

theorem startWarning_gameStarted (env : P5) (g : Game) :
    (startWarning env g).gameStarted = g.gameStarted := by
  unfold startWarning
  split_ifs <;> rfl

theorem spawnEnemy_gameStarted (env : P5) (g : Game) :
    (spawnEnemy env g).gameStarted = g.gameStarted := by
  unfold spawnEnemy
  simp only [randomMax, randomRange, random]
  split_ifs <;> rfl

theorem spawnEnemies_gameStarted (env : P5) (n : ℕ) (g : Game) :
    (spawnEnemies env n g).gameStarted = g.gameStarted := by
  induction n generalizing g with
  | zero => rfl
  | succ n ih => simp only [spawnEnemies]; rw [ih, spawnEnemy_gameStarted]

theorem spawnAttackBullet_gameStarted (env : P5) (g : Game) :
    (spawnAttackBullet env g).gameStarted = g.gameStarted := by
  unfold spawnAttackBullet
  simp only [randomMax, random]
  split_ifs <;> rfl

theorem spawnAttackBullets_gameStarted (env : P5) (g : Game) :
    (spawnAttackBullets env g).gameStarted = g.gameStarted := by
  simp [spawnAttackBullets, Nat.iterate, spawnAttackBullet_gameStarted]

theorem resolveSpawn_gameStarted (env : P5) (g : Game) :
    (resolveSpawn env g).gameStarted = g.gameStarted := by
  unfold resolveSpawn
  split
  · simp [spawnEnemies_gameStarted]
  · exact spawnAttackBullets_gameStarted env g

theorem partnerCadence_gameStarted (env : P5) (g : Game) :
    (partnerCadence env g).gameStarted = g.gameStarted := by
  unfold partnerCadence
  simp only [random]
  split_ifs <;> rfl

theorem resolveWarning_gameStarted (env : P5) (g : Game) :
    (resolveWarning env g).gameStarted = g.gameStarted := by
  simp [resolveWarning, partnerCadence_gameStarted, resolveSpawn_gameStarted]

theorem runWarning_gameStarted (env : P5) (g : Game) :
    (runWarning env g).gameStarted = g.gameStarted := by
  unfold runWarning
  simp only []
  split_ifs
  · rw [resolveWarning_gameStarted]
  · rfl
  · rfl


/-! ## Damage to the player in one tick -/

theorem AttackBullet.hitsPlayer_congr (b : AttackBullet) (p q : Player) (hx : p.x = q.x)
    (hy : p.y = q.y) : b.hits p = b.hits q := by
  simp only [AttackBullet.hits, Player.size, hx, hy]

theorem Enemy.update_congr (env : P5) (e : Enemy) (p q : Player) (hx : p.x = q.x)
    (hy : p.y = q.y) : e.update env p = e.update env q := by
  simp only [Enemy.update, hx, hy]

theorem Enemy.hits_congr (e : Enemy) (p q : Player) (hx : p.x = q.x) (hy : p.y = q.y) :
    e.hits p = e.hits q := by
  simp only [Enemy.hits, Player.size, hx, hy]

theorem attackBulletStep_health (env : P5) (g : Game) (i : ℕ) (b : AttackBullet)
    (hb : g.attackBullets[i]? = some b) :
    (attackBulletStep env i g).player.health =
        g.player.health -
          (if !(b.update env).offscreen && (b.update env).hits g.player then 10 else 0) ∧
      (attackBulletStep env i g).attackBullets.take i = g.attackBullets.take i ∧
      g.attackBullets.length ≤ (attackBulletStep env i g).attackBullets.length + 1 := by
  have hi : i < g.attackBullets.length := getElem?_lt_length hb
  unfold attackBulletStep
  rw [hb]
  simp only []
  cases hoff : (b.update env).offscreen with
  | true =>
    simp only [if_true, eraseIdx_set_self, take_eraseIdx_self,
      List.length_eraseIdx_of_lt hi, Bool.not_true, Bool.false_and, Bool.false_eq_true,
      if_false, sub_zero]
    refine ⟨trivial, trivial, ?_⟩
    omega
  | false =>
    cases hh : (b.update env).hits g.player with
    | true =>
      simp only [Bool.false_eq_true, if_false, if_true, eraseIdx_set_self,
        take_eraseIdx_self, List.length_eraseIdx_of_lt hi, Bool.not_false, Bool.true_and]
      refine ⟨trivial, trivial, ?_⟩
      omega
    | false =>
      simp only [Bool.false_eq_true, if_false, take_set_self, List.length_set,
        Bool.not_false, Bool.true_and, sub_zero]
      refine ⟨trivial, trivial, ?_⟩
      omega

theorem attackBulletsLoop_health (env : P5) (n : ℕ) (g : Game)
    (hn : n ≤ g.attackBullets.length) :
    (attackBulletsLoop env n g).player.health =
      g.player.health - 10 *
        ((g.attackBullets.take n).countP fun b =>
          !(b.update env).offscreen && (b.update env).hits g.player : ℕ) := by
  induction n generalizing g with
  | zero => simp [attackBulletsLoop]
  | succ n ih =>
    have hlt : n < g.attackBullets.length := hn
    have hb : g.attackBullets[n]? = some g.attackBullets[n] := List.getElem?_eq_getElem hlt
    obtain ⟨hh, htake, hge⟩ := attackBulletStep_health env g n _ hb
    have hpos := attackBulletStep_pos env n g
    have hpred : (fun b : AttackBullet => !(b.update env).offscreen &&
          (b.update env).hits (attackBulletStep env n g).player) =
        (fun b : AttackBullet => !(b.update env).offscreen &&
          (b.update env).hits g.player) :=
      funext fun b => by rw [AttackBullet.hitsPlayer_congr _ _ _ hpos.1 hpos.2]
    simp only [attackBulletsLoop]
    rw [ih (attackBulletStep env n g) (by omega), hpred, htake, hh, List.take_succ, hb,
      List.countP_append]
    simp only [Option.toList, List.countP_cons, List.countP_nil]
    split_ifs <;> push_cast <;> ring

theorem attackBulletsLoop_hits (env : P5) (g : Game) :
    (attackBulletsLoop env g.attackBullets.length g).player.health =
      g.player.health - 10 * (attackHits env g : ℕ) := by
  rw [attackBulletsLoop_health env _ g (le_refl _), List.take_length]
  rfl

theorem attackBulletStep_enemies (env : P5) (i : ℕ) (g : Game) :
    (attackBulletStep env i g).enemies = g.enemies := by
  unfold attackBulletStep
  split
  · rfl
  · simp only []
    split_ifs <;> rfl

theorem attackBulletsLoop_enemies (env : P5) (n : ℕ) (g : Game) :
    (attackBulletsLoop env n g).enemies = g.enemies := by
  induction n generalizing g with
  | zero => rfl
  | succ n ih => simp only [attackBulletsLoop]; rw [ih, attackBulletStep_enemies]

theorem enemyStep_health (env : P5) (e : Enemy) (g : Game) :
    (enemyStep env e g).2.player.health =
      g.player.health - (if (e.update env g.player).hits g.player then 1 else 0) := by
  unfold enemyStep
  simp only []
  split_ifs <;> simp

theorem enemiesLoop_health (env : P5) (es : List Enemy) (g : Game) :
    (enemiesLoop env es g).2.player.health =
      g.player.health -
        (es.countP fun e => (e.update env g.player).hits g.player : ℕ) := by
  induction es generalizing g with
  | nil => simp [enemiesLoop]
  | cons e rest ih =>
    have hpos := enemyStep_pos env e g
    have hpred : (fun e' : Enemy =>
          (e'.update env (enemyStep env e g).2.player).hits (enemyStep env e g).2.player) =
        (fun e' : Enemy => (e'.update env g.player).hits g.player) :=
      funext fun e' => by
        rw [Enemy.update_congr env e' _ _ hpos.1 hpos.2, Enemy.hits_congr _ _ _ hpos.1 hpos.2]
    simp only [enemiesLoop]
    rw [ih, hpred, enemyStep_health, List.countP_cons]
    split_ifs <;> push_cast <;> ring

theorem updateEnemies_health (env : P5) (g : Game) :
    (updateEnemies env g).player.health = g.player.health - (enemyContacts env g : ℕ) := by
  simp only [updateEnemies]
  exact enemiesLoop_health env g.enemies g


/-! ## One tick: health and the death check -/

theorem tick_eq (env : P5) (inp : Input) (g : Game) :
    tick env inp g =
      runWarning env (startWarning env (deathCheck
        (pickupsLoop
          (updateEnemies env
            (attackBulletsLoop env (beforeCombat env inp g).attackBullets.length
              (beforeCombat env inp g))).pickups.length
          (updateEnemies env
            (attackBulletsLoop env (beforeCombat env inp g).attackBullets.length
              (beforeCombat env inp g)))))) :=
  rfl

theorem enemyContacts_congr (env : P5) (g g' : Game) (he : g'.enemies = g.enemies)
    (hx : g'.player.x = g.player.x) (hy : g'.player.y = g.player.y) :
    enemyContacts env g' = enemyContacts env g := by
  have hpred : (fun e : Enemy => (e.update env g'.player).hits g'.player) =
      (fun e : Enemy => (e.update env g.player).hits g.player) :=
    funext fun e => by rw [Enemy.update_congr env e _ _ hx hy, Enemy.hits_congr _ _ _ hx hy]
  simp only [enemyContacts, he, hpred]

/-- The health of the player after one running tick: 10 less for every attack bullet that
hits, 1 less for every enemy in contact. -/
theorem tick_health (env : P5) (inp : Input) (g : Game) :
    (tick env inp g).player.health =
      (beforeCombat env inp g).player.health
        - 10 * (attackHits env (beforeCombat env inp g) : ℕ)
        - (enemyContacts env (beforeCombat env inp g) : ℕ) := by
  rw [tick_eq, runWarning_player, startWarning_player, deathCheck_player,
    (pickupsLoop_gameOver _ _).2, updateEnemies_health, attackBulletsLoop_hits,
    enemyContacts_congr env (beforeCombat env inp g) _ (attackBulletsLoop_enemies env _ _)
      (attackBulletsLoop_pos env _ _).1 (attackBulletsLoop_pos env _ _).2]

theorem beforeCombat_health (env : P5) (inp : Input) (g : Game) :
    (beforeCombat env inp g).player.health = g.player.health := by
  simp only [beforeCombat, bulletsLoop_player, updatePartners_player, ammoWarningPhase_player]
  exact (playerPhase_gameOver env inp g).2

theorem beforeCombat_gameOver (env : P5) (inp : Input) (g : Game) :
    (beforeCombat env inp g).gameOver = g.gameOver := by
  simp only [beforeCombat, bulletsLoop_gameOver, updatePartners_gameOver,
    ammoWarningPhase_gameOver]
  exact (playerPhase_gameOver env inp g).1

theorem beforeCombat_gameStarted (env : P5) (inp : Input) (g : Game) :
    (beforeCombat env inp g).gameStarted = g.gameStarted := by
  simp only [beforeCombat, bulletsLoop_gameStarted, updatePartners_gameStarted,
    ammoWarningPhase_gameStarted]
  exact playerPhase_gameStarted env inp g

theorem tick_gameStarted (env : P5) (inp : Input) (g : Game) :
    (tick env inp g).gameStarted = g.gameStarted := by
  rw [tick_eq, runWarning_gameStarted, startWarning_gameStarted]
  unfold deathCheck
  split_ifs <;>
    simp only [pickupsLoop_gameStarted, updateEnemies_gameStarted,
      attackBulletsLoop_gameStarted, beforeCombat_gameStarted]

/-- The death check is the only place where `gameOver` is set: after a running tick it is
true exactly when it was true before or the health is not positive. -/
theorem tick_gameOver (env : P5) (inp : Input) (g : Game) :
    (tick env inp g).gameOver =
      (g.gameOver || decide ((tick env inp g).player.health ≤ 0)) := by
  have hh : (tick env inp g).player.health =
      (pickupsLoop
          (updateEnemies env
            (attackBulletsLoop env (beforeCombat env inp g).attackBullets.length
              (beforeCombat env inp g))).pickups.length
          (updateEnemies env
            (attackBulletsLoop env (beforeCombat env inp g).attackBullets.length
              (beforeCombat env inp g)))).player.health := by
    rw [tick_eq, runWarning_player, startWarning_player, deathCheck_player]
  rw [hh, tick_eq, runWarning_gameOver, startWarning_gameOver]
  unfold deathCheck
  split_ifs with hle
  · simp [hle]
  · simp only [(pickupsLoop_gameOver _ _).1, updateEnemies_gameOver,
      attackBulletsLoop_gameOver, beforeCombat_gameOver, hle, decide_False, Bool.or_false]


/-! ## Contact drain until the game is over -/

theorem draw_of_gameOver (env : P5) (inp : Input) (g : Game) (ho : g.gameOver = true) :
    draw env inp g = g := by
  unfold draw
  cases hs : g.gameStarted <;> simp [ho]

theorem draw_running (env : P5) (inp : Input) (g : Game) (hs : g.gameStarted = true)
    (ho : g.gameOver = false) : draw env inp g = tick env inp g := by
  unfold draw
  simp [hs, ho]

theorem drain_invariant (env : P5) (inps : ℕ → Input) (g : Game) (h : ℕ)
    (hs : g.gameStarted = true) (ho : g.gameOver = false) (hh : g.player.health = h)
    (h1 : 1 ≤ h)
    (hc : ∀ k, k < h →
      enemyContacts env
          (beforeCombat env (inps k) (advanceFrame (runFrames env inps g k))) = 1 ∧
        attackHits env
          (beforeCombat env (inps k) (advanceFrame (runFrames env inps g k))) = 0)
    (k : ℕ) (hk : k ≤ h) :
    (runFrames env inps g k).gameStarted = true ∧
      (runFrames env inps g k).player.health = (h : ℤ) - k ∧
      (runFrames env inps g k).gameOver = decide (h ≤ k) := by
  induction k with
  | zero =>
    refine ⟨hs, by simpa using hh, ?_⟩
    show g.gameOver = decide (h ≤ 0)
    rw [ho]
    exact (decide_eq_false (by omega)).symm
  | succ k ih =>
    obtain ⟨ihs, ihh, iho⟩ := ih (by omega)
    have hlt : k < h := hk
    have iho' : (runFrames env inps g k).gameOver = false := by
      rw [iho]; exact decide_eq_false (by omega)
    obtain ⟨hc1, hc0⟩ := hc k hlt
    have hstep : runFrames env inps g (k + 1) =
        tick env (inps k) (advanceFrame (runFrames env inps g k)) := by
      simp only [runFrames, step]
      exact draw_running env _ _ ihs iho'
    have hhealth : (runFrames env inps g (k + 1)).player.health = (h : ℤ) - (k + 1 : ℕ) := by
      rw [hstep, tick_health, beforeCombat_health, hc1, hc0]
      simp only [advanceFrame, ihh]
      push_cast
      ring
    refine ⟨?_, hhealth, ?_⟩
    · rw [hstep, tick_gameStarted]; exact ihs
    · rw [hstep, tick_gameOver, ← hstep, hhealth]
      simp only [advanceFrame, iho', Bool.false_or]
      congr 1
      apply propext
      constructor <;> intro hx <;> omega

/-- C6: an agent with health `h ≥ 1`, in a running game in which, on each of the next `h`
ticks, exactly one enemy is in contact after its move and no attack bullet hits, loses
exactly 1 health per tick; `gameOver` is false before the `h`-th tick has run and true after
it, when the health is `0`; and on tick `h + 1` `draw` returns at once: it leaves the globals
as they are, so that the whole frame changes nothing but p5's own `frameCount`. -/
theorem contact_drain (env : P5) (inps : ℕ → Input) (g : Game) (h : ℕ)
    (hs : g.gameStarted = true) (ho : g.gameOver = false) (hh : g.player.health = h)
    (h1 : 1 ≤ h)
    (hc : ∀ k, k < h →
      enemyContacts env
          (beforeCombat env (inps k) (advanceFrame (runFrames env inps g k))) = 1 ∧
        attackHits env
          (beforeCombat env (inps k) (advanceFrame (runFrames env inps g k))) = 0) :
    (∀ k, k ≤ h → (runFrames env inps g k).player.health = (h : ℤ) - k) ∧
    (∀ k, k < h → (runFrames env inps g k).gameOver = false) ∧
    (runFrames env inps g h).player.health ≤ 0 ∧
    (runFrames env inps g h).gameOver = true ∧
    (∀ inp, draw env inp (runFrames env inps g h) = runFrames env inps g h) ∧
    runFrames env inps g (h + 1) = advanceFrame (runFrames env inps g h) := by
  have hinv := drain_invariant env inps g h hs ho hh h1 hc
  have hover : (runFrames env inps g h).gameOver = true := by
    rw [(hinv h (le_refl h)).2.2]; exact decide_eq_true (le_refl h)
  refine ⟨fun k hk => (hinv k hk).2.1, fun k hk => ?_, ?_, hover,
    fun inp => draw_of_gameOver env inp _ hover, ?_⟩
  · rw [(hinv k (le_of_lt hk)).2.2]; exact decide_eq_false (by omega)
  · rw [(hinv h (le_refl h)).2.1]; simp
  · simp only [runFrames, step]
    exact draw_of_gameOver env _ _ (by simpa [advanceFrame] using hover)

/-- Worked instance for C6 with `h = 5`: in `contactFive` the enemy stays on the player;
after five frames the health is `0` and the game is over, and the sixth frame changes
nothing but `frameCount`. -/
theorem contact_drain_witness :
    contactFive.gameStarted = true ∧ contactFive.gameOver = false ∧
    contactFive.player.health = (5 : ℕ) ∧ 1 ≤ 5 ∧
    (∀ k, k < 5 →
      enemyContacts sampleEnv
          (beforeCombat sampleEnv idleInput
            (advanceFrame (runFrames sampleEnv (fun _ => idleInput) contactFive k))) = 1 ∧
        attackHits sampleEnv
          (beforeCombat sampleEnv idleInput
            (advanceFrame (runFrames sampleEnv (fun _ => idleInput) contactFive k))) = 0) ∧
    (∀ k, k ≤ 5 →
      (runFrames sampleEnv (fun _ => idleInput) contactFive k).player.health
        = ((5 : ℕ) : ℤ) - k) ∧
    (∀ k, k < 5 → (runFrames sampleEnv (fun _ => idleInput) contactFive k).gameOver = false) ∧
    (runFrames sampleEnv (fun _ => idleInput) contactFive 5).player.health ≤ 0 ∧
    (runFrames sampleEnv (fun _ => idleInput) contactFive 5).gameOver = true ∧
    (∀ inp, draw sampleEnv inp (runFrames sampleEnv (fun _ => idleInput) contactFive 5) =
      runFrames sampleEnv (fun _ => idleInput) contactFive 5) ∧
    runFrames sampleEnv (fun _ => idleInput) contactFive (5 + 1) =
      advanceFrame (runFrames sampleEnv (fun _ => idleInput) contactFive 5) :=
  ⟨rfl, rfl, rfl, by decide, by decide!,
    contact_drain sampleEnv (fun _ => idleInput) contactFive 5 rfl rfl rfl (by decide)
      (by decide!)⟩


/-! ## The shotgun -/

theorem shotgunPellets_eq (x y t : ℚ) :
    shotgunPellets x y t =
      [Bullet.new x y (t - 15), Bullet.new x y (t - 10), Bullet.new x y (t - 5),
        Bullet.new x y t, Bullet.new x y (t + 5), Bullet.new x y (t + 10),
        Bullet.new x y (t + 15)] := by
  simp only [shotgunPellets, List.range, List.range.loop, List.map, map]
  norm_num
  refine ⟨?_, ?_, ?_⟩ <;> congr 1 <;> ring

/-- C7: `Player.shoot` with the shotgun (`weapon = 3`) at `cooldown = 0`.  With fewer than 7
rounds it appends no bullet, sets `ammoWarningTimer = 60` and leaves the player (ammo and
cooldown included) as it was.  With at least 7 rounds it appends exactly 7 bullets at the
position of the player with the angles `target - 15, target - 10, ..., target + 15`, sets the
cooldown to 20 and takes 7 rounds, so that 7 rounds become 0. -/
theorem shotgun_fire (env : P5) (inp : Input) (g : Game) (hw : g.player.weapon = 3)
    (hc : g.player.cooldown = 0) :
    (g.player.ammoShotgun < 7 →
      Player.shoot env inp g = { g with ammoWarningTimer := 60 } ∧
      (Player.shoot env inp g).bullets = g.bullets ∧
      (Player.shoot env inp g).ammoWarningTimer = 60 ∧
      (Player.shoot env inp g).player.ammoShotgun = g.player.ammoShotgun ∧
      (Player.shoot env inp g).player.ammoMachine = g.player.ammoMachine ∧
      (Player.shoot env inp g).player.cooldown = g.player.cooldown) ∧
    (7 ≤ g.player.ammoShotgun →
      (Player.shoot env inp g).bullets =
        g.bullets ++
          [Bullet.new g.player.x g.player.y
              (env.atan2 (inp.mouseY - g.player.y) (inp.mouseX - g.player.x) - 15),
            Bullet.new g.player.x g.player.y
              (env.atan2 (inp.mouseY - g.player.y) (inp.mouseX - g.player.x) - 10),
            Bullet.new g.player.x g.player.y
              (env.atan2 (inp.mouseY - g.player.y) (inp.mouseX - g.player.x) - 5),
            Bullet.new g.player.x g.player.y
              (env.atan2 (inp.mouseY - g.player.y) (inp.mouseX - g.player.x)),
            Bullet.new g.player.x g.player.y
              (env.atan2 (inp.mouseY - g.player.y) (inp.mouseX - g.player.x) + 5),
            Bullet.new g.player.x g.player.y
              (env.atan2 (inp.mouseY - g.player.y) (inp.mouseX - g.player.x) + 10),
            Bullet.new g.player.x g.player.y
              (env.atan2 (inp.mouseY - g.player.y) (inp.mouseX - g.player.x) + 15)] ∧
      (Player.shoot env inp g).bullets.length = g.bullets.length + 7 ∧
      (Player.shoot env inp g).player.cooldown = 20 ∧
      (Player.shoot env inp g).player.ammoShotgun = g.player.ammoShotgun - 7 ∧
      (g.player.ammoShotgun = 7 → (Player.shoot env inp g).player.ammoShotgun = 0) ∧
      (Player.shoot env inp g).ammoWarningTimer = g.ammoWarningTimer) := by
  have hnc : ¬ g.player.cooldown > 0 := by rw [hc]; decide
  constructor
  · intro ha
    have hna : ¬ g.player.ammoShotgun ≥ 7 := not_le.mpr ha
    have heq : Player.shoot env inp g = { g with ammoWarningTimer := 60 } := by
      unfold Player.shoot
      simp only [hw, hnc, hna, if_false]
      simp
    rw [heq]
    exact ⟨rfl, rfl, rfl, rfl, rfl, rfl⟩
  · intro ha
    have heq : Player.shoot env inp g =
        { g with
          bullets := g.bullets ++ shotgunPellets g.player.x g.player.y
            (env.atan2 (inp.mouseY - g.player.y) (inp.mouseX - g.player.x))
          player := { g.player with cooldown := 20, ammoShotgun := g.player.ammoShotgun - 7 } } := by
      unfold Player.shoot
      have ha' : g.player.ammoShotgun ≥ 7 := ha
      simp only [hw, hnc, ha', if_false, if_true]
      simp
    rw [heq]
    refine ⟨?_, ?_, rfl, rfl, ?_, rfl⟩
    · simp only [shotgunPellets_eq]
    · simp only [shotgunPellets_eq, List.length_append]
      rfl
    · intro h7
      simp only [h7]
      norm_num

/-- Worked instance for C7: with 6 rounds nothing is fired and the warning is raised; with
7 rounds seven pellets leave and the pool is empty. -/
theorem shotgun_fire_witness :
    ((shotgunReady 6).player.weapon = 3 ∧ (shotgunReady 6).player.cooldown = 0 ∧
      (shotgunReady 6).player.ammoShotgun < 7 ∧
      (Player.shoot sampleEnv idleInput (shotgunReady 6)).bullets = (shotgunReady 6).bullets ∧
      (Player.shoot sampleEnv idleInput (shotgunReady 6)).ammoWarningTimer = 60) ∧
    ((shotgunReady 7).player.weapon = 3 ∧ (shotgunReady 7).player.cooldown = 0 ∧
      7 ≤ (shotgunReady 7).player.ammoShotgun ∧
      (Player.shoot sampleEnv idleInput (shotgunReady 7)).bullets.length =
        (shotgunReady 7).bullets.length + 7 ∧
      (Player.shoot sampleEnv idleInput (shotgunReady 7)).player.cooldown = 20 ∧
      (Player.shoot sampleEnv idleInput (shotgunReady 7)).player.ammoShotgun = 0) :=
  ⟨⟨rfl, rfl, by decide,
      ((shotgun_fire sampleEnv idleInput (shotgunReady 6) rfl rfl).1 (by decide)).2.1,
      ((shotgun_fire sampleEnv idleInput (shotgunReady 6) rfl rfl).1 (by decide)).2.2.1⟩,
    ⟨rfl, rfl, by decide,
      ((shotgun_fire sampleEnv idleInput (shotgunReady 7) rfl rfl).2 (by decide)).2.1,
      ((shotgun_fire sampleEnv idleInput (shotgunReady 7) rfl rfl).2 (by decide)).2.2.1,
      ((shotgun_fire sampleEnv idleInput (shotgunReady 7) rfl rfl).2 (by decide)).2.2.2.2.1
        rfl⟩⟩


/-! ## Enemy contact with partners -/

/-- What the enemy loop does to one partner: nothing if it is bound, otherwise 1 damage for
every enemy of `es` that overlaps it after moving towards the player `p`. -/
theorem damagePartners_map (e : Enemy) (ps : List Partner) :
    damagePartners e ps =
      ps.map fun pt =>
        if pt.bound then pt
        else { pt with health := pt.health - (if e.hitsPartner pt then 1 else 0) } := by
  unfold damagePartners
  apply List.map_congr_left
  intro pt _
  obtain ⟨x, y, health, cooldown, bound, ft, oa⟩ := pt
  cases bound with
  | true => simp
  | false =>
    simp only [Bool.not_false, Bool.true_and, Bool.false_eq_true, if_false]
    split_ifs <;> simp

theorem enemyStep_partners (env : P5) (e : Enemy) (g : Game) :
    (enemyStep env e g).2.partners = damagePartners (e.update env g.player) g.partners := by
  unfold enemyStep
  simp only []
  split_ifs <;> rfl

theorem enemiesLoop_partners (env : P5) (es : List Enemy) (g : Game) :
    (enemiesLoop env es g).2.partners =
      g.partners.map fun pt =>
        if pt.bound then pt
        else
          { pt with
            health := pt.health -
              (es.countP fun e => (e.update env g.player).hitsPartner pt : ℕ) } := by
  induction es generalizing g with
  | nil =>
    simp only [enemiesLoop, List.countP_nil, Nat.cast_zero, sub_zero]
    conv_lhs => rw [← List.map_id g.partners]
    apply List.map_congr_left
    intro pt _
    obtain ⟨x, y, health, cooldown, bound, ft, oa⟩ := pt
    cases bound <;> simp
  | cons e rest ih =>
    have hpos := enemyStep_pos env e g
    have hupd : ∀ e' : Enemy,
        e'.update env (enemyStep env e g).2.player = e'.update env g.player :=
      fun e' => Enemy.update_congr env e' _ _ hpos.1 hpos.2
    simp only [enemiesLoop]
    rw [ih, enemyStep_partners, damagePartners_map, List.map_map]
    apply List.map_congr_left
    intro pt _
    obtain ⟨x, y, health, cooldown, bound, ft, oa⟩ := pt
    cases bound with
    | true => simp
    | false =>
      simp only [Function.comp, Bool.false_eq_true, if_false, hupd, Enemy.hitsPartner,
        Partner.size, List.countP_cons]
      congr 1
      split_ifs <;> push_cast <;> ring

/-- Counterexample to C8 as stated: in `boundContact` the enemy overlaps the bound partner
after its move, and the partner keeps its 50 health through the enemy loop and through the
whole of `draw`; the same partner, once freed, loses 1 in the same loop. -/
theorem bound_ally_takes_no_damage :
    ((Enemy.new 410 300).update sampleEnv boundContact.player).hitsPartner
        (samplePartner 400 300 50 0 true) = true ∧
    (updateEnemies sampleEnv boundContact).partners = [samplePartner 400 300 50 0 true] ∧
    (draw sampleEnv idleInput boundContact).partners = [samplePartner 400 300 50 0 true] ∧
    (updateEnemies sampleEnv
        { boundContact with partners := [samplePartner 400 300 50 0 false] }).partners =
      [samplePartner 400 300 49 0 false] := by
  refine ⟨by decide!, by decide!, by decide!, by decide!⟩

/-- C8 (amended): the contact damage of enemies to partners is gated on the bound flag.  In
the enemy loop of `draw` a bound partner keeps its health, whatever overlaps it; a freed
partner loses exactly 1 health for every enemy that overlaps it after that enemy's move. -/
theorem ally_contact_damage (env : P5) (g : Game) :
    (updateEnemies env g).partners =
      g.partners.map fun pt =>
        if pt.bound then pt
        else
          { pt with
            health := pt.health -
              (g.enemies.countP fun e => (e.update env g.player).hitsPartner pt : ℕ) } := by
  simp only [updateEnemies]
  exact enemiesLoop_partners env g.enemies g

/-- Evaluation for C9: in `allyDown` the freed partner has health 1 and an enemy overlaps
it.  After one frame its health is 0 and it is still in `partners`; `gameOver` stays false.
On the next frame the same partner, at health 0, fires and its bullet kills the enemy; after
that frame it is still in `partners`. -/
theorem fallen_ally_stays :
    (draw sampleEnv idleInput allyDown).partners.map (fun pt => pt.health) = [0] ∧
    (draw sampleEnv idleInput allyDown).gameOver = false ∧
    (draw sampleEnv idleInput (draw sampleEnv idleInput allyDown)).partners.map
        (fun pt => pt.health) = [0] ∧
    (draw sampleEnv idleInput (draw sampleEnv idleInput allyDown)).score = 1 ∧
    (draw sampleEnv idleInput (draw sampleEnv idleInput allyDown)).enemies = [] ∧
    (draw sampleEnv idleInput (draw sampleEnv idleInput allyDown)).gameOver = false := by
  refine ⟨by decide!, by decide!, by decide!, by decide!, by decide!, by decide!⟩


/-! ## The attack-bullet loop: code order and specification order -/

/-- Within hit distance of a player on the playfield, an attack bullet is not offscreen. -/
theorem AttackBullet.hits_not_offscreen (b : AttackBullet) (p : Player)
    (hp : 15 ≤ p.x ∧ p.x ≤ 785 ∧ 15 ≤ p.y ∧ p.y ≤ 585) (hh : b.hits p = true) :
    b.offscreen = false := by
  obtain ⟨hx1, hx2, hy1, hy2⟩ := hp
  simp only [AttackBullet.hits, distLt, distSq, AttackBullet.r, Player.size,
    decide_eq_true_eq] at hh
  obtain ⟨_, hd⟩ := hh
  have hxs : (p.x - b.x) * (p.x - b.x) < 441 := by nlinarith [mul_self_nonneg (p.y - b.y)]
  have hys : (p.y - b.y) * (p.y - b.y) < 441 := by nlinarith [mul_self_nonneg (p.x - b.x)]
  have hxa : -21 < p.x - b.x ∧ p.x - b.x < 21 := by
    constructor <;> nlinarith
  have hya : -21 < p.y - b.y ∧ p.y - b.y < 21 := by
    constructor <;> nlinarith
  simp only [AttackBullet.offscreen, width, height, Bool.or_eq_false_iff,
    decide_eq_false_iff_not, not_lt]
  refine ⟨⟨⟨?_, ?_⟩, ?_⟩, ?_⟩ <;> linarith [hxa.1, hxa.2, hya.1, hya.2]

theorem attackBulletStep_eq_spec (env : P5) (i : ℕ) (g : Game)
    (hp : 15 ≤ g.player.x ∧ g.player.x ≤ 785 ∧ 15 ≤ g.player.y ∧ g.player.y ≤ 585) :
    attackBulletStep env i g = attackBulletStepSpec env i g := by
  unfold attackBulletStep attackBulletStepSpec
  cases hb : g.attackBullets[i]? with
  | none => rfl
  | some b =>
    simp only []
    cases hh : (b.update env).hits g.player with
    | true =>
      have hoff := AttackBullet.hits_not_offscreen (b.update env) g.player hp hh
      simp [hoff]
    | false => simp

theorem attackBulletStepSpec_pos (env : P5) (i : ℕ) (g : Game) :
    (attackBulletStepSpec env i g).player.x = g.player.x ∧
      (attackBulletStepSpec env i g).player.y = g.player.y := by
  unfold attackBulletStepSpec
  split
  · exact ⟨rfl, rfl⟩
  · simp only []
    split_ifs <;> exact ⟨rfl, rfl⟩

theorem attackBulletsLoop_eq_spec (env : P5) (n : ℕ) (g : Game)
    (hp : 15 ≤ g.player.x ∧ g.player.x ≤ 785 ∧ 15 ≤ g.player.y ∧ g.player.y ≤ 585) :
    attackBulletsLoop env n g = attackBulletsLoopSpec env n g := by
  induction n generalizing g with
  | zero => rfl
  | succ n ih =>
    simp only [attackBulletsLoop, attackBulletsLoopSpec]
    rw [← attackBulletStep_eq_spec env n g hp]
    apply ih
    rw [(attackBulletStep_pos env n g).1, (attackBulletStep_pos env n g).2]
    exact hp

/-- C10: with the player inside `[15, 785]` by `[15, 585]`, an attack bullet within hit
distance is never offscreen, so the order of the code (offscreen test first, then the hit
test) gives the same result as the order of the specification (hit test first, then the
offscreen test), for one bullet and for the whole loop; a hit takes exactly 10 health and
removes exactly that bullet, an offscreen bullet is removed with no damage, and any other
bullet stays in the list, moved. -/
theorem attack_bullet_order (env : P5) (g : Game)
    (hp : 15 ≤ g.player.x ∧ g.player.x ≤ 785 ∧ 15 ≤ g.player.y ∧ g.player.y ≤ 585) :
    (∀ b : AttackBullet, b.hits g.player = true → b.offscreen = false) ∧
    (∀ i, attackBulletStep env i g = attackBulletStepSpec env i g) ∧
    (∀ n, attackBulletsLoop env n g = attackBulletsLoopSpec env n g) ∧
    (∀ (i : ℕ) (b : AttackBullet), g.attackBullets[i]? = some b →
      ((b.update env).hits g.player = true →
        (attackBulletStep env i g).player.health = g.player.health - 10 ∧
        (attackBulletStep env i g).attackBullets = g.attackBullets.eraseIdx i) ∧
      ((b.update env).offscreen = true →
        (attackBulletStep env i g).player = g.player ∧
        (attackBulletStep env i g).attackBullets = g.attackBullets.eraseIdx i) ∧
      ((b.update env).hits g.player = false → (b.update env).offscreen = false →
        (attackBulletStep env i g).player = g.player ∧
        (attackBulletStep env i g).attackBullets = g.attackBullets.set i (b.update env))) := by
  refine ⟨fun b hh => AttackBullet.hits_not_offscreen b g.player hp hh,
    fun i => attackBulletStep_eq_spec env i g hp,
    fun n => attackBulletsLoop_eq_spec env n g hp, ?_⟩
  intro i b hb
  refine ⟨?_, ?_, ?_⟩
  · intro hh
    have hoff := AttackBullet.hits_not_offscreen (b.update env) g.player hp hh
    unfold attackBulletStep
    rw [hb]
    simp [hoff, hh, eraseIdx_set_self]
  · intro hoff
    unfold attackBulletStep
    rw [hb]
    simp [hoff, eraseIdx_set_self]
  · intro hh hoff
    unfold attackBulletStep
    rw [hb]
    simp [hoff, hh]

/-- Worked instance for C10 on `barrage`: the loop in code order and the loop in
specification order agree; the first bullet hits (health 90), the second leaves the bounds,
the third flies on. -/
theorem attack_bullet_order_witness :
    (15 ≤ barrage.player.x ∧ barrage.player.x ≤ 785 ∧
      15 ≤ barrage.player.y ∧ barrage.player.y ≤ 585) ∧
    attackBulletsLoop sampleEnv 3 barrage = attackBulletsLoopSpec sampleEnv 3 barrage ∧
    (attackBulletsLoop sampleEnv 3 barrage).player.health = 90 ∧
    (attackBulletsLoop sampleEnv 3 barrage).attackBullets =
      [{ x := 105, y := 100, angle := 0 }] :=
  ⟨by decide!, (attack_bullet_order sampleEnv barrage (by decide!)).2.2.1 3, by decide!,
    by decide!⟩


/-! ## Shape lemmas: the globals each phase of `draw` can write -/

theorem Player.shoot_shape (env : P5) (inp : Input) (g : Game) :
    Player.shoot env inp g =
      { g with
        bullets := (Player.shoot env inp g).bullets
        player :=
          { g.player with
            cooldown := (Player.shoot env inp g).player.cooldown
            ammoMachine := (Player.shoot env inp g).player.ammoMachine
            ammoShotgun := (Player.shoot env inp g).player.ammoShotgun }
        ammoWarningTimer := (Player.shoot env inp g).ammoWarningTimer } := by
  unfold Player.shoot
  simp only []
  split_ifs <;> rfl

theorem playerPhase_shape (env : P5) (inp : Input) (g : Game) :
    playerPhase env inp g =
      { g with
        bullets := (playerPhase env inp g).bullets
        player :=
          { g.player with
            x := (playerPhase env inp g).player.x
            y := (playerPhase env inp g).player.y
            cooldown := (playerPhase env inp g).player.cooldown
            ammoMachine := (playerPhase env inp g).player.ammoMachine
            ammoShotgun := (playerPhase env inp g).player.ammoShotgun }
        ammoWarningTimer := (playerPhase env inp g).ammoWarningTimer } := by
  unfold playerPhase
  simp only []
  split_ifs
  · rw [Player.shoot_shape env inp { g with player := g.player.update inp }]
    rfl
  · rfl

theorem ammoWarningPhase_shape (g : Game) :
    ammoWarningPhase g =
      { g with ammoWarningTimer := (ammoWarningPhase g).ammoWarningTimer } := by
  unfold ammoWarningPhase
  split_ifs <;> rfl

theorem Partner.fire_shape (env : P5) (pt : Partner) (g : Game) :
    (Partner.shoot env pt g).2 = { g with bullets := (Partner.shoot env pt g).2.bullets } := by
  unfold Partner.shoot
  split <;> rfl

theorem Partner.update_shape (env : P5) (pt : Partner) (g : Game) :
    (Partner.update env pt g).2 =
      { g with
        bullets := (Partner.update env pt g).2.bullets
        rngIdx := (Partner.update env pt g).2.rngIdx } := by
  unfold Partner.update
  simp only [random]
  split_ifs <;> first | rfl | rw [Partner.fire_shape env _ _]

theorem partnersLoop_shape (env : P5) (ps : List Partner) (g : Game) :
    (partnersLoop env ps g).2 =
      { g with
        bullets := (partnersLoop env ps g).2.bullets
        rngIdx := (partnersLoop env ps g).2.rngIdx } := by
  induction ps generalizing g with
  | nil => rfl
  | cons pt rest ih =>
    simp only [partnersLoop]
    refine (ih (Partner.update env pt g).2).trans ?_
    rw [Partner.update_shape env pt g]

theorem updatePartners_shape (env : P5) (g : Game) :
    updatePartners env g =
      { g with
        partners := (updatePartners env g).partners
        bullets := (updatePartners env g).bullets
        rngIdx := (updatePartners env g).rngIdx } := by
  simp only [updatePartners]
  rw [partnersLoop_shape env g.partners g]


theorem Player.shoot_pistol (env : P5) (inp : Input) (g : Game)
    (hw : g.player.weapon = 1) (hc : g.player.cooldown = 0) :
    Player.shoot env inp g =
      { g with
        bullets := g.bullets ++
          [Bullet.new g.player.x g.player.y
            (env.atan2 (inp.mouseY - g.player.y) (inp.mouseX - g.player.x))]
        player := { g.player with cooldown := 30 } } := by
  have hnc : ¬ g.player.cooldown > 0 := by rw [hc]; decide
  unfold Player.shoot
  simp only [hw, hnc, if_false, if_true]

theorem Player.shoot_cooling (env : P5) (inp : Input) (g : Game)
    (hc : 0 < g.player.cooldown) : Player.shoot env inp g = g := by
  unfold Player.shoot
  simp only [gt_iff_lt, hc, if_true]


theorem killEnemy_shape (env : P5) (i j : ℕ) (e : Enemy) (g : Game) :
    killEnemy env i j e g =
      { g with
        bullets := (killEnemy env i j e g).bullets
        enemies := (killEnemy env i j e g).enemies
        score := (killEnemy env i j e g).score
        pickups := (killEnemy env i j e g).pickups
        rngIdx := (killEnemy env i j e g).rngIdx } := by
  unfold killEnemy
  simp only [random]
  split_ifs <;> rfl

theorem hitScan_shape (env : P5) (i : ℕ) (b : Bullet) (j : ℕ) (g : Game) :
    hitScan env i b j g =
      { g with
        bullets := (hitScan env i b j g).bullets
        enemies := (hitScan env i b j g).enemies
        score := (hitScan env i b j g).score
        pickups := (hitScan env i b j g).pickups
        rngIdx := (hitScan env i b j g).rngIdx } := by
  rcases hitScan_cases env i b j g with ⟨_, h⟩ | ⟨k, e, _, _, _, _, h⟩
  · rw [h]
  · rw [h]
    exact killEnemy_shape env i k e g

theorem bulletStep_shape (env : P5) (i : ℕ) (g : Game) :
    bulletStep env i g =
      { g with
        bullets := (bulletStep env i g).bullets
        enemies := (bulletStep env i g).enemies
        score := (bulletStep env i g).score
        pickups := (bulletStep env i g).pickups
        rngIdx := (bulletStep env i g).rngIdx } := by
  unfold bulletStep
  split
  · rfl
  · simp only []
    split_ifs
    · rfl
    · rw [hitScan_shape env i _ _ _]

theorem bulletsLoop_shape (env : P5) (n : ℕ) (g : Game) :
    bulletsLoop env n g =
      { g with
        bullets := (bulletsLoop env n g).bullets
        enemies := (bulletsLoop env n g).enemies
        score := (bulletsLoop env n g).score
        pickups := (bulletsLoop env n g).pickups
        rngIdx := (bulletsLoop env n g).rngIdx } := by
  induction n generalizing g with
  | zero => rfl
  | succ n ih =>
    simp only [bulletsLoop]
    refine (ih (bulletStep env n g)).trans ?_
    rw [bulletStep_shape env n g]

theorem attackBulletStep_shape (env : P5) (i : ℕ) (g : Game) :
    attackBulletStep env i g =
      { g with
        attackBullets := (attackBulletStep env i g).attackBullets
        player := { g.player with health := (attackBulletStep env i g).player.health } } := by
  unfold attackBulletStep
  split
  · rfl
  · simp only []
    split_ifs <;> rfl

theorem attackBulletsLoop_shape (env : P5) (n : ℕ) (g : Game) :
    attackBulletsLoop env n g =
      { g with
        attackBullets := (attackBulletsLoop env n g).attackBullets
        player := { g.player with health := (attackBulletsLoop env n g).player.health } } := by
  induction n generalizing g with
  | zero => rfl
  | succ n ih =>
    simp only [attackBulletsLoop]
    refine (ih (attackBulletStep env n g)).trans ?_
    rw [attackBulletStep_shape env n g]

theorem enemyStep_shape (env : P5) (e : Enemy) (g : Game) :
    (enemyStep env e g).2 =
      { g with
        partners := (enemyStep env e g).2.partners
        player := { g.player with health := (enemyStep env e g).2.player.health } } := by
  unfold enemyStep
  simp only []
  split_ifs <;> rfl

theorem enemiesLoop_shape (env : P5) (es : List Enemy) (g : Game) :
    (enemiesLoop env es g).2 =
      { g with
        partners := (enemiesLoop env es g).2.partners
        player := { g.player with health := (enemiesLoop env es g).2.player.health } } := by
  induction es generalizing g with
  | nil => rfl
  | cons e rest ih =>
    simp only [enemiesLoop]
    refine (ih (enemyStep env e g).2).trans ?_
    rw [enemyStep_shape env e g]

theorem updateEnemies_shape (env : P5) (g : Game) :
    updateEnemies env g =
      { g with
        enemies := (updateEnemies env g).enemies
        partners := (updateEnemies env g).partners
        player := { g.player with health := (updateEnemies env g).player.health } } := by
  simp only [updateEnemies]
  rw [enemiesLoop_shape env g.enemies g]

theorem pickupStep_shape (i : ℕ) (g : Game) :
    pickupStep i g =
      { g with
        pickups := (pickupStep i g).pickups
        player :=
          { g.player with
            ammoMachine := (pickupStep i g).player.ammoMachine
            ammoShotgun := (pickupStep i g).player.ammoShotgun } } := by
  unfold pickupStep
  split
  · rfl
  · simp only []
    split_ifs <;> rfl

theorem pickupsLoop_shape (n : ℕ) (g : Game) :
    pickupsLoop n g =
      { g with
        pickups := (pickupsLoop n g).pickups
        player :=
          { g.player with
            ammoMachine := (pickupsLoop n g).player.ammoMachine
            ammoShotgun := (pickupsLoop n g).player.ammoShotgun } } := by
  induction n generalizing g with
  | zero => rfl
  | succ n ih =>
    simp only [pickupsLoop]
    refine (ih (pickupStep n g)).trans ?_
    rw [pickupStep_shape n g]

theorem deathCheck_shape (g : Game) :
    deathCheck g = { g with gameOver := (deathCheck g).gameOver } := by
  unfold deathCheck
  split_ifs <;> rfl

theorem tick_eq_phases (env : P5) (inp : Input) (g : Game) :
    tick env inp g =
      runWarning env (startWarning env
        (combatPhases env (ammoWarningPhase (playerPhase env inp g)))) :=
  rfl

/-- Whatever does not depend on the globals written between the ammo warning and the
warning handling is the same before and after that part of `draw`. -/
theorem combatPhases_frame {α : Type} (F : Game → α)
    (hF : ∀ (g : Game) (b : List Bullet) (e : List Enemy) (ab : List AttackBullet) (s : ℕ)
      (pk : List Pickup) (r : ℕ) (pts : List Partner) (go : Bool) (h am sg : ℤ),
      F { g with
          bullets := b, enemies := e, attackBullets := ab, score := s, pickups := pk
          rngIdx := r, partners := pts, gameOver := go
          player := { g.player with health := h, ammoMachine := am, ammoShotgun := sg } } =
        F g)
    (env : P5) (g : Game) : F (combatPhases env g) = F g := by
  have h3 : F (updatePartners env g) = F g :=
    (congrArg F (updatePartners_shape env g)).trans
      (hF g _ g.enemies g.attackBullets g.score g.pickups _ _ g.gameOver g.player.health
        g.player.ammoMachine g.player.ammoShotgun)
  have h4 : ∀ n x, F (bulletsLoop env n x) = F x := fun n x =>
    (congrArg F (bulletsLoop_shape env n x)).trans
      (hF x _ _ x.attackBullets _ _ _ x.partners x.gameOver x.player.health
        x.player.ammoMachine x.player.ammoShotgun)
  have h5 : ∀ n x, F (attackBulletsLoop env n x) = F x := fun n x =>
    (congrArg F (attackBulletsLoop_shape env n x)).trans
      (hF x x.bullets x.enemies _ x.score x.pickups x.rngIdx x.partners x.gameOver _
        x.player.ammoMachine x.player.ammoShotgun)
  have h6 : ∀ x, F (updateEnemies env x) = F x := fun x =>
    (congrArg F (updateEnemies_shape env x)).trans
      (hF x x.bullets _ x.attackBullets x.score x.pickups x.rngIdx _ x.gameOver _
        x.player.ammoMachine x.player.ammoShotgun)
  have h7 : ∀ n x, F (pickupsLoop n x) = F x := fun n x =>
    (congrArg F (pickupsLoop_shape n x)).trans
      (hF x x.bullets x.enemies x.attackBullets x.score _ x.rngIdx x.partners x.gameOver
        x.player.health _ _)
  have h8 : ∀ x, F (deathCheck x) = F x := fun x =>
    (congrArg F (deathCheck_shape x)).trans
      (hF x x.bullets x.enemies x.attackBullets x.score x.pickups x.rngIdx x.partners _
        x.player.health x.player.ammoMachine x.player.ammoShotgun)
  simp only [combatPhases]
  rw [h8, h7, h6, h5, h4, h3]


theorem startWarning_shape (env : P5) (g : Game) :
    startWarning env g =
      { g with
        warningActive := (startWarning env g).warningActive
        warningTimer := (startWarning env g).warningTimer
        warningType := (startWarning env g).warningType
        rngIdx := (startWarning env g).rngIdx } := by
  unfold startWarning
  simp only [random]
  split_ifs <;> rfl

theorem spawnEnemy_shape (env : P5) (g : Game) :
    spawnEnemy env g =
      { g with
        enemies := (spawnEnemy env g).enemies
        rngIdx := (spawnEnemy env g).rngIdx } := by
  unfold spawnEnemy
  simp only [randomMax, randomRange, random]
  split_ifs <;> rfl

theorem spawnEnemies_shape (env : P5) (n : ℕ) (g : Game) :
    spawnEnemies env n g =
      { g with
        enemies := (spawnEnemies env n g).enemies
        rngIdx := (spawnEnemies env n g).rngIdx } := by
  induction n generalizing g with
  | zero => rfl
  | succ n ih =>
    simp only [spawnEnemies]
    refine (ih (spawnEnemy env g)).trans ?_
    rw [spawnEnemy_shape env g]

theorem spawnAttackBullet_shape (env : P5) (g : Game) :
    spawnAttackBullet env g =
      { g with
        attackBullets := (spawnAttackBullet env g).attackBullets
        rngIdx := (spawnAttackBullet env g).rngIdx } := by
  unfold spawnAttackBullet
  simp only [randomMax, random]
  split_ifs <;> rfl

theorem iterate_spawnAttackBullet_shape (env : P5) (n : ℕ) (g : Game) :
    Nat.iterate (spawnAttackBullet env) n g =
      { g with
        attackBullets := (Nat.iterate (spawnAttackBullet env) n g).attackBullets
        rngIdx := (Nat.iterate (spawnAttackBullet env) n g).rngIdx } := by
  induction n generalizing g with
  | zero => rfl
  | succ n ih =>
    simp only [Nat.iterate]
    refine (ih (spawnAttackBullet env g)).trans ?_
    rw [spawnAttackBullet_shape env g]

theorem resolveSpawn_shape (env : P5) (g : Game) :
    resolveSpawn env g =
      { g with
        enemies := (resolveSpawn env g).enemies
        attackBullets := (resolveSpawn env g).attackBullets
        enemySpawnCount := (resolveSpawn env g).enemySpawnCount
        rngIdx := (resolveSpawn env g).rngIdx } := by
  unfold resolveSpawn
  split
  · rw [spawnEnemies_shape env g.enemySpawnCount g]
  · unfold spawnAttackBullets
    rw [iterate_spawnAttackBullet_shape env 5 g]

theorem partnerCadence_shape (env : P5) (g : Game) :
    partnerCadence env g =
      { g with
        partners := (partnerCadence env g).partners
        rngIdx := (partnerCadence env g).rngIdx } := by
  unfold partnerCadence
  simp only [random]
  split_ifs <;> rfl

/-- The resolution of a warning: what it writes, and the values it gives to the scheduler
variables. -/
theorem resolveWarning_shape (env : P5) (g : Game) :
    resolveWarning env g =
      { g with
        enemies := (resolveWarning env g).enemies
        attackBullets := (resolveWarning env g).attackBullets
        enemySpawnCount := (resolveWarning env g).enemySpawnCount
        partners := (resolveWarning env g).partners
        rngIdx := (resolveWarning env g).rngIdx
        roundCount := g.roundCount + 1
        warningActive := false
        lastWarningFrame := g.frameCount } := by
  unfold resolveWarning
  simp only []
  rw [partnerCadence_shape]
  simp only []
  rw [resolveSpawn_shape env { g with roundCount := g.roundCount + 1 }]

theorem runWarning_shape (env : P5) (g : Game) :
    runWarning env g =
      { g with
        enemies := (runWarning env g).enemies
        attackBullets := (runWarning env g).attackBullets
        enemySpawnCount := (runWarning env g).enemySpawnCount
        partners := (runWarning env g).partners
        rngIdx := (runWarning env g).rngIdx
        roundCount := (runWarning env g).roundCount
        warningActive := (runWarning env g).warningActive
        warningTimer := (runWarning env g).warningTimer
        lastWarningFrame := (runWarning env g).lastWarningFrame } := by
  unfold runWarning
  simp only []
  split_ifs
  · rw [resolveWarning_shape env { g with warningTimer := g.warningTimer - 1 }]
  · rfl
  · rfl

/-- Whatever does not depend on the globals written by the warning handling is the same
before and after it. -/
theorem warning_frame {α : Type} (F : Game → α)
    (hF : ∀ (g : Game) (e : List Enemy) (ab : List AttackBullet) (c : ℕ) (pts : List Partner)
      (r rc : ℕ) (wa : Bool) (wt lw : ℤ) (ty : WarningType),
      F { g with
          enemies := e, attackBullets := ab, enemySpawnCount := c, partners := pts
          rngIdx := r, roundCount := rc, warningActive := wa, warningTimer := wt
          lastWarningFrame := lw, warningType := ty } = F g)
    (env : P5) (g : Game) : F (runWarning env (startWarning env g)) = F g := by
  have h1 : F (startWarning env g) = F g :=
    (congrArg F (startWarning_shape env g)).trans
      (hF g g.enemies g.attackBullets g.enemySpawnCount g.partners _ g.roundCount _ _
        g.lastWarningFrame _)
  have h2 : ∀ x, F (runWarning env x) = F x := fun x =>
    (congrArg F (runWarning_shape env x)).trans (hF x _ _ _ _ _ _ _ _ _ x.warningType)
  rw [h2, h1]


/-! ## The partner's shot -/

theorem nearestEnemy_spec (x y : ℚ) (cur : Enemy) (l : List Enemy) :
    (nearestEnemy x y cur l = cur ∧
        ∀ e ∈ l, distSq x y cur.x cur.y ≤ distSq x y e.x e.y) ∨
      ∃ k : ℕ, l[k]? = some (nearestEnemy x y cur l) ∧
        distSq x y (nearestEnemy x y cur l).x (nearestEnemy x y cur l).y <
          distSq x y cur.x cur.y ∧
        (∀ e ∈ l,
          distSq x y (nearestEnemy x y cur l).x (nearestEnemy x y cur l).y ≤
            distSq x y e.x e.y) ∧
        ∀ (m : ℕ) (e : Enemy), m < k → l[m]? = some e →
          distSq x y (nearestEnemy x y cur l).x (nearestEnemy x y cur l).y <
            distSq x y e.x e.y := by
  induction l generalizing cur with
  | nil => exact Or.inl ⟨rfl, fun e he => absurd he (List.not_mem_nil e)⟩
  | cons a t ih =>
    simp only [nearestEnemy]
    split_ifs with hlt
    · right
      rcases ih a with ⟨hr, hall⟩ | ⟨k, hk, hlt', hall, hearly⟩
      · refine ⟨0, by simp [hr], by rw [hr]; exact hlt, fun e he => ?_, fun m e hm => ?_⟩
        · rw [hr]
          rcases List.mem_cons.mp he with h | h
          · rw [h]
          · exact hall e h
        · exact absurd hm (Nat.not_lt_zero m)
      · refine ⟨k + 1, by simpa using hk, lt_trans hlt' hlt, fun e he => ?_,
          fun m e hm hme => ?_⟩
        · rcases List.mem_cons.mp he with h | h
          · rw [h]; exact le_of_lt hlt'
          · exact hall e h
        · cases m with
          | zero =>
            simp only [List.getElem?_cons_zero, Option.some.injEq] at hme
            rw [← hme]; exact hlt'
          | succ m =>
            simp only [List.getElem?_cons_succ] at hme
            exact hearly m e (by omega) hme
    · have hge : distSq x y cur.x cur.y ≤ distSq x y a.x a.y := not_lt.mp hlt
      rcases ih cur with ⟨hr, hall⟩ | ⟨k, hk, hlt', hall, hearly⟩
      · refine Or.inl ⟨hr, fun e he => ?_⟩
        rcases List.mem_cons.mp he with h | h
        · rw [h]; exact hge
        · exact hall e h
      · refine Or.inr ⟨k + 1, by simpa using hk, hlt', fun e he => ?_, fun m e hm hme => ?_⟩
        · rcases List.mem_cons.mp he with h | h
          · rw [h]; exact le_of_lt (lt_of_lt_of_le hlt' hge)
          · exact hall e h
        · cases m with
          | zero =>
            simp only [List.getElem?_cons_zero, Option.some.injEq] at hme
            rw [← hme]; exact lt_of_lt_of_le hlt' hge
          | succ m =>
            simp only [List.getElem?_cons_succ] at hme
            exact hearly m e (by omega) hme

theorem Partner.shoot_cons (env : P5) (pt : Partner) (g : Game) (first : Enemy)
    (rest : List Enemy) (hl : g.enemies = first :: rest) :
    Partner.shoot env pt g =
      ({ pt with cooldown := 30 },
        { g with
          bullets := g.bullets ++
            [Bullet.new pt.x pt.y
              (env.atan2 ((nearestEnemy pt.x pt.y first g.enemies).y - pt.y)
                ((nearestEnemy pt.x pt.y first g.enemies).x - pt.x))] }) := by
  unfold Partner.shoot
  split
  · rename_i heq
    rw [hl] at heq
    cases heq
  · rename_i first' rest' heq
    rw [hl] at heq
    cases heq
    rfl

/-- C11: for a non-empty `enemies`, `Partner.shoot` appends exactly one bullet, at the
position of the partner, aimed at an enemy whose distance to the partner is minimal over the
whole list and strictly smaller than that of every enemy before it in the list (so among the
nearest the earliest is chosen), and sets the cooldown of the partner to 30.  For an empty
`enemies` it changes nothing; a freed partner at cooldown 0 then leaves `Partner.update`
with its cooldown still 0 and no bullet added, so that the next tick tries again. -/
theorem partner_shoot_nearest (env : P5) (pt : Partner) (g : Game) :
    (g.enemies ≠ [] →
      ∃ (k : ℕ) (e : Enemy), g.enemies[k]? = some e ∧
        (∀ e' ∈ g.enemies, distSq pt.x pt.y e.x e.y ≤ distSq pt.x pt.y e'.x e'.y) ∧
        (∀ (m : ℕ) (e' : Enemy), m < k → g.enemies[m]? = some e' →
          distSq pt.x pt.y e.x e.y < distSq pt.x pt.y e'.x e'.y) ∧
        Partner.shoot env pt g =
          ({ pt with cooldown := 30 },
            { g with
              bullets := g.bullets ++
                [Bullet.new pt.x pt.y (env.atan2 (e.y - pt.y) (e.x - pt.x))] })) ∧
    (g.enemies = [] → Partner.shoot env pt g = (pt, g)) ∧
    (g.enemies = [] → pt.bound = false → pt.cooldown = 0 →
      (Partner.update env pt g).1.cooldown = 0 ∧
      (Partner.update env pt g).2.bullets = g.bullets) := by
  refine ⟨?_, ?_, ?_⟩
  · intro hne
    obtain ⟨first, rest, hl⟩ := List.exists_cons_of_ne_nil hne
    rw [Partner.shoot_cons env pt g first rest hl]
    rcases nearestEnemy_spec pt.x pt.y first g.enemies with
      ⟨hr, hall⟩ | ⟨k, hk, _, hall, hearly⟩
    · refine ⟨0, first, by rw [hl]; simp, hall, fun m e' hm => absurd hm (Nat.not_lt_zero m),
        ?_⟩
      rw [hr]
    · exact ⟨k, _, hk, hall, hearly, rfl⟩
  · intro hl
    unfold Partner.shoot
    rw [hl]
  · intro hl hb hc
    have hs : ∀ (pt' : Partner) (g' : Game), g'.enemies = [] →
        Partner.shoot env pt' g' = (pt', g') := by
      intro pt' g' h
      unfold Partner.shoot
      rw [h]
    unfold Partner.update
    simp only [hb, random, Bool.false_eq_true, if_false]
    split_ifs with h1 h2 h3
    · rw [hc] at h1
      exact absurd h1 (by decide)
    · rw [hc] at h1
      exact absurd h1 (by decide)
    · dsimp only
      rw [hs _ { g with rngIdx := g.rngIdx + 1 } hl]
      exact ⟨hc, rfl⟩
    · dsimp only
      rw [hs _ g hl]
      exact ⟨hc, rfl⟩

/-- Worked instance for C11 on `tiedEnemies`: the enemies at index 1 and 2 are both nearest;
the bullet is aimed at the one of index 1. -/
theorem partner_shoot_nearest_witness :
    tiedEnemies.enemies ≠ [] ∧
    (∃ (k : ℕ) (e : Enemy), tiedEnemies.enemies[k]? = some e ∧
      (∀ e' ∈ tiedEnemies.enemies,
        distSq (samplePartner 0 0 50 0 false).x (samplePartner 0 0 50 0 false).y e.x e.y ≤
          distSq (samplePartner 0 0 50 0 false).x (samplePartner 0 0 50 0 false).y
            e'.x e'.y) ∧
      (∀ (m : ℕ) (e' : Enemy), m < k → tiedEnemies.enemies[m]? = some e' →
        distSq (samplePartner 0 0 50 0 false).x (samplePartner 0 0 50 0 false).y e.x e.y <
          distSq (samplePartner 0 0 50 0 false).x (samplePartner 0 0 50 0 false).y
            e'.x e'.y) ∧
      Partner.shoot sampleEnv (samplePartner 0 0 50 0 false) tiedEnemies =
        ({ samplePartner 0 0 50 0 false with cooldown := 30 },
          { tiedEnemies with
            bullets := tiedEnemies.bullets ++
              [Bullet.new (samplePartner 0 0 50 0 false).x (samplePartner 0 0 50 0 false).y
                (sampleEnv.atan2 (e.y - (samplePartner 0 0 50 0 false).y)
                  (e.x - (samplePartner 0 0 50 0 false).x))] })) ∧
    nearestEnemy 0 0 (Enemy.new 10 0) tiedEnemies.enemies = Enemy.new 3 4 :=
  ⟨by decide, (partner_shoot_nearest sampleEnv (samplePartner 0 0 50 0 false) tiedEnemies).1
    (by decide), by decide!⟩


/-! ## The pistol, the cooldown gate and the empty machine gun -/

/-- C13: `Player.shoot` with the pistol (`weapon = 1`) at `cooldown = 0` appends exactly
one bullet, at the position of the player and with the aim angle, sets the cooldown to 30 and
touches nothing else, the two ammo pools included; and with any weapon, a fire attempt while
`cooldown > 0` returns the globals as they are. -/
theorem sidearm_fire (env : P5) (inp : Input) (g : Game) :
    (g.player.weapon = 1 → g.player.cooldown = 0 →
      Player.shoot env inp g =
        { g with
          bullets := g.bullets ++
            [Bullet.new g.player.x g.player.y
              (env.atan2 (inp.mouseY - g.player.y) (inp.mouseX - g.player.x))]
          player := { g.player with cooldown := 30 } } ∧
      (Player.shoot env inp g).bullets.length = g.bullets.length + 1 ∧
      (Player.shoot env inp g).player.cooldown = 30 ∧
      (Player.shoot env inp g).player.ammoMachine = g.player.ammoMachine ∧
      (Player.shoot env inp g).player.ammoShotgun = g.player.ammoShotgun) ∧
    (0 < g.player.cooldown → Player.shoot env inp g = g) := by
  constructor
  · intro hw hc
    rw [Player.shoot_pistol env inp g hw hc]
    exact ⟨rfl, by simp, rfl, rfl, rfl⟩
  · intro hc
    exact Player.shoot_cooling env inp g hc

/-- Worked instance for C13: the pistol at cooldown 0 fires one bullet and sets the cooldown
to 30; at cooldown 29 the attempt changes nothing. -/
theorem sidearm_fire_witness :
    ((pistolAt 0).player.weapon = 1 ∧ (pistolAt 0).player.cooldown = 0 ∧
      (Player.shoot sampleEnv idleInput (pistolAt 0)).bullets.length =
        (pistolAt 0).bullets.length + 1 ∧
      (Player.shoot sampleEnv idleInput (pistolAt 0)).player.cooldown = 30) ∧
    (0 < (pistolAt 29).player.cooldown ∧
      Player.shoot sampleEnv idleInput (pistolAt 29) = pistolAt 29) :=
  ⟨⟨rfl, rfl, ((sidearm_fire sampleEnv idleInput (pistolAt 0)).1 rfl rfl).2.1,
      ((sidearm_fire sampleEnv idleInput (pistolAt 0)).1 rfl rfl).2.2.1⟩,
    ⟨by decide, (sidearm_fire sampleEnv idleInput (pistolAt 29)).2 (by decide)⟩⟩

theorem tick_ammoWarningTimer (env : P5) (inp : Input) (g : Game) :
    (tick env inp g).ammoWarningTimer =
      (ammoWarningPhase (playerPhase env inp g)).ammoWarningTimer := by
  rw [tick_eq_phases,
    warning_frame (fun x => x.ammoWarningTimer) (fun _ _ _ _ _ _ _ _ _ _ _ => rfl),
    combatPhases_frame (fun x => x.ammoWarningTimer) (fun _ _ _ _ _ _ _ _ _ _ _ _ => rfl)]

theorem playerPhase_idle (env : P5) (inp : Input) (g : Game)
    (hi : (inp.mouseIsPressed && decide (inp.mouseButton = MouseButton.LEFT)) = false) :
    playerPhase env inp g = { g with player := g.player.update inp } := by
  unfold playerPhase
  simp only [hi, Bool.false_eq_true, if_false]

theorem ammoWarning_countdown (env : P5) (inps : ℕ → Input) (g : Game) (n : ℕ)
    (hs : g.gameStarted = true) (ht : g.ammoWarningTimer = n)
    (hrun : ∀ k, k < n → (runFrames env inps g k).gameOver = false)
    (hidle : ∀ k, k < n →
      ((inps k).mouseIsPressed && decide ((inps k).mouseButton = MouseButton.LEFT)) = false)
    (k : ℕ) (hk : k ≤ n) :
    (runFrames env inps g k).gameStarted = true ∧
      (runFrames env inps g k).ammoWarningTimer = (n : ℤ) - k := by
  induction k with
  | zero => exact ⟨hs, by simpa using ht⟩
  | succ k ih =>
    obtain ⟨ihs, iht⟩ := ih (by omega)
    have hstep : runFrames env inps g (k + 1) =
        tick env (inps k) (advanceFrame (runFrames env inps g k)) := by
      simp only [runFrames, step]
      exact draw_running env _ _ ihs (hrun k hk)
    refine ⟨by rw [hstep, tick_gameStarted]; exact ihs, ?_⟩
    rw [hstep, tick_ammoWarningTimer, playerPhase_idle env _ _ (hidle k hk)]
    unfold ammoWarningPhase
    have hpos : (advanceFrame (runFrames env inps g k)).ammoWarningTimer > 0 := by
      show (runFrames env inps g k).ammoWarningTimer > 0
      rw [iht]
      have : (k : ℤ) < n := by exact_mod_cast hk
      linarith
    simp only [hpos, if_true]
    show (runFrames env inps g k).ammoWarningTimer - 1 = (n : ℤ) - ((k + 1 : ℕ) : ℤ)
    rw [iht]
    push_cast
    ring

/-- C14: with the machine gun selected (`weapon = 2`), no round left and `cooldown = 0`, a
fire attempt appends no bullet, sets `ammoWarningTimer = 60` and leaves everything else as it
was: cooldown, both ammo pools, health and position.  In a running game without further
fire attempts the timer is then `60 - k` after `k` frames: the out-of-ammo flag
(`ammoWarningTimer > 0`) is raised at the start of exactly the next 60 frames. -/
theorem empty_machine_gun (env : P5) (inp : Input) (g : Game) (hw : g.player.weapon = 2)
    (ha : g.player.ammoMachine = 0) (hc : g.player.cooldown = 0) :
    Player.shoot env inp g = { g with ammoWarningTimer := 60 } ∧
    (Player.shoot env inp g).bullets = g.bullets ∧
    (Player.shoot env inp g).ammoWarningTimer = 60 ∧
    (Player.shoot env inp g).player = g.player ∧
    (∀ inps : ℕ → Input, g.gameStarted = true →
      (∀ k, k < 60 → (runFrames env inps (Player.shoot env inp g) k).gameOver = false) →
      (∀ k, k < 60 →
        ((inps k).mouseIsPressed && decide ((inps k).mouseButton = MouseButton.LEFT))
          = false) →
      ∀ k, k ≤ 60 →
        (runFrames env inps (Player.shoot env inp g) k).ammoWarningTimer = 60 - (k : ℤ)) := by
  have hnc : ¬ g.player.cooldown > 0 := by rw [hc]; decide
  have hna : ¬ g.player.ammoMachine > 0 := by rw [ha]; decide
  have heq : Player.shoot env inp g = { g with ammoWarningTimer := 60 } := by
    unfold Player.shoot
    simp only [hw, hnc, hna, if_false]
    simp
  refine ⟨heq, by rw [heq], by rw [heq], by rw [heq], ?_⟩
  intro inps hs hrun hidle k hk
  have h := ammoWarning_countdown env inps (Player.shoot env inp g) 60
    (by rw [heq]; exact hs) (by rw [heq]; rfl) hrun hidle k hk
  simpa using h.2

/-- Worked instance for C14 on `machineGunReady 0` (player at `(400, 300)`, health 100): the
attempt only raises the flag, which then runs down in 60 idle frames. -/
theorem empty_machine_gun_witness :
    (machineGunReady 0).player.weapon = 2 ∧ (machineGunReady 0).player.ammoMachine = 0 ∧
    (machineGunReady 0).player.cooldown = 0 ∧
    Player.shoot sampleEnv idleInput (machineGunReady 0) =
      { machineGunReady 0 with ammoWarningTimer := 60 } ∧
    (machineGunReady 0).gameStarted = true ∧
    (∀ k, k < 60 →
      (runFrames sampleEnv (fun _ => idleInput)
        (Player.shoot sampleEnv idleInput (machineGunReady 0)) k).gameOver = false) ∧
    (∀ k, k ≤ 60 →
      (runFrames sampleEnv (fun _ => idleInput)
        (Player.shoot sampleEnv idleInput (machineGunReady 0)) k).ammoWarningTimer
        = 60 - (k : ℤ)) :=
  ⟨rfl, rfl, rfl, (empty_machine_gun sampleEnv idleInput (machineGunReady 0) rfl rfl rfl).1,
    rfl, by decide!,
    (empty_machine_gun sampleEnv idleInput (machineGunReady 0) rfl rfl rfl).2.2.2.2
      (fun _ => idleInput) rfl (by decide!) (fun _ _ => rfl)⟩


/-! ## The warning scheduler -/

theorem resolveWarning_fields (env : P5) (z : Game) :
    (resolveWarning env z).warningActive = false ∧
      (resolveWarning env z).warningTimer = z.warningTimer ∧
      (resolveWarning env z).roundCount = z.roundCount + 1 ∧
      (resolveWarning env z).lastWarningFrame = z.frameCount ∧
      (resolveWarning env z).frameCount = z.frameCount := by
  rw [resolveWarning_shape]
  exact ⟨rfl, rfl, rfl, rfl, rfl⟩

theorem runWarning_inactive (env : P5) (z : Game) (ha : z.warningActive = false) :
    runWarning env z = z := by
  unfold runWarning
  rw [if_neg (by rw [ha]; decide)]

theorem runWarning_countdown (env : P5) (z : Game) (ha : z.warningActive = true)
    (ht : ¬ z.warningTimer - 1 ≤ 0) :
    runWarning env z = { z with warningTimer := z.warningTimer - 1 } := by
  unfold runWarning
  rw [if_pos ha]
  exact if_neg ht

theorem runWarning_resolve (env : P5) (z : Game) (ha : z.warningActive = true)
    (ht : z.warningTimer - 1 ≤ 0) :
    runWarning env z = resolveWarning env { z with warningTimer := z.warningTimer - 1 } := by
  unfold runWarning
  rw [if_pos ha]
  exact if_pos ht

theorem startWarning_active (env : P5) (x : Game) (ha : x.warningActive = true) :
    startWarning env x = x := by
  unfold startWarning
  rw [if_neg (by rw [ha]; simp)]

theorem startWarning_early (env : P5) (x : Game)
    (hn : ¬ (x.frameCount - x.lastWarningFrame > warningInterval)) :
    startWarning env x = x := by
  unfold startWarning
  rw [if_neg (by simp [hn])]

theorem startWarning_due (env : P5) (x : Game) (ha : x.warningActive = false)
    (hy : x.frameCount - x.lastWarningFrame > warningInterval) :
    startWarning env x =
      { x with
        rngIdx := x.rngIdx + 1, warningActive := true, warningTimer := 60
        warningType :=
          if env.rand x.rngIdx < 7 / 10 then WarningType.enemy else WarningType.attack } := by
  unfold startWarning
  rw [if_pos (by rw [ha]; simp [hy])]
  rfl

/-- The warning handling of `draw` on the globals `x`, read on the scheduler variables. -/
theorem warning_scheduler (env : P5) (x : Game) :
    (runWarning env (startWarning env x)).frameCount = x.frameCount ∧
    (x.warningActive = false → ¬ (x.frameCount - x.lastWarningFrame > warningInterval) →
      (runWarning env (startWarning env x)).warningActive = false ∧
      (runWarning env (startWarning env x)).warningTimer = x.warningTimer ∧
      (runWarning env (startWarning env x)).roundCount = x.roundCount ∧
      (runWarning env (startWarning env x)).lastWarningFrame = x.lastWarningFrame) ∧
    (x.warningActive = false → x.frameCount - x.lastWarningFrame > warningInterval →
      (runWarning env (startWarning env x)).warningActive = true ∧
      (runWarning env (startWarning env x)).warningTimer = 59 ∧
      (runWarning env (startWarning env x)).roundCount = x.roundCount ∧
      (runWarning env (startWarning env x)).lastWarningFrame = x.lastWarningFrame) ∧
    (x.warningActive = true → 1 < x.warningTimer →
      (runWarning env (startWarning env x)).warningActive = true ∧
      (runWarning env (startWarning env x)).warningTimer = x.warningTimer - 1 ∧
      (runWarning env (startWarning env x)).roundCount = x.roundCount ∧
      (runWarning env (startWarning env x)).lastWarningFrame = x.lastWarningFrame) ∧
    (x.warningActive = true → x.warningTimer ≤ 1 →
      (runWarning env (startWarning env x)).warningActive = false ∧
      (runWarning env (startWarning env x)).warningTimer = x.warningTimer - 1 ∧
      (runWarning env (startWarning env x)).roundCount = x.roundCount + 1 ∧
      (runWarning env (startWarning env x)).lastWarningFrame = x.frameCount) := by
  refine ⟨?_, ?_, ?_, ?_, ?_⟩
  · have h1 : ∀ z, (runWarning env z).frameCount = z.frameCount := by
      intro z
      unfold runWarning
      simp only []
      split_ifs
      · exact (resolveWarning_fields env _).2.2.2.2
      · rfl
      · rfl
    rw [h1]
    unfold startWarning
    simp only [random]
    split_ifs <;> rfl
  · intro ha hn
    rw [startWarning_early env x hn, runWarning_inactive env x ha]
    exact ⟨ha, rfl, rfl, rfl⟩
  · intro ha hy
    rw [startWarning_due env x ha hy, runWarning_countdown env _ rfl (by norm_num)]
    exact ⟨rfl, by norm_num, rfl, rfl⟩
  · intro ha ht
    rw [startWarning_active env x ha, runWarning_countdown env x ha (by omega)]
    exact ⟨ha, rfl, rfl, rfl⟩
  · intro ha ht
    rw [startWarning_active env x ha, runWarning_resolve env x ha (by omega)]
    obtain ⟨h1, h2, h3, h4, _⟩ :=
      resolveWarning_fields env { x with warningTimer := x.warningTimer - 1 }
    exact ⟨h1, h2, h3, h4⟩


/-- Whatever does not depend on the globals written before the warning handling is the same
at the start of `draw` and at the start of the warning handling. -/
theorem preWarning_frame {α : Type} (F : Game → α)
    (hF : ∀ (g : Game) (b : List Bullet) (e : List Enemy) (ab : List AttackBullet) (s : ℕ)
      (pk : List Pickup) (r : ℕ) (pts : List Partner) (go : Bool) (p : Player) (t : ℤ),
      F { g with
          bullets := b, enemies := e, attackBullets := ab, score := s, pickups := pk
          rngIdx := r, partners := pts, gameOver := go, player := p
          ammoWarningTimer := t } = F g)
    (env : P5) (inp : Input) (g : Game) :
    F (combatPhases env (ammoWarningPhase (playerPhase env inp g))) = F g := by
  rw [combatPhases_frame F
    (fun x b e ab s pk r pts go h am sg =>
      hF x b e ab s pk r pts go _ x.ammoWarningTimer)]
  rw [congrArg F (ammoWarningPhase_shape (playerPhase env inp g))]
  rw [hF (playerPhase env inp g) _ _ _ _ _ _ _ _ (playerPhase env inp g).player _]
  rw [congrArg F (playerPhase_shape env inp g)]
  exact hF g _ g.enemies g.attackBullets g.score g.pickups g.rngIdx g.partners g.gameOver _ _

/-- One running tick, read on the scheduler variables. -/
theorem tick_scheduler (env : P5) (inp : Input) (g : Game) :
    (tick env inp g).frameCount = g.frameCount ∧
    (g.warningActive = false → ¬ (g.frameCount - g.lastWarningFrame > warningInterval) →
      (tick env inp g).warningActive = false ∧
      (tick env inp g).warningTimer = g.warningTimer ∧
      (tick env inp g).roundCount = g.roundCount ∧
      (tick env inp g).lastWarningFrame = g.lastWarningFrame) ∧
    (g.warningActive = false → g.frameCount - g.lastWarningFrame > warningInterval →
      (tick env inp g).warningActive = true ∧
      (tick env inp g).warningTimer = 59 ∧
      (tick env inp g).roundCount = g.roundCount ∧
      (tick env inp g).lastWarningFrame = g.lastWarningFrame) ∧
    (g.warningActive = true → 1 < g.warningTimer →
      (tick env inp g).warningActive = true ∧
      (tick env inp g).warningTimer = g.warningTimer - 1 ∧
      (tick env inp g).roundCount = g.roundCount ∧
      (tick env inp g).lastWarningFrame = g.lastWarningFrame) ∧
    (g.warningActive = true → g.warningTimer ≤ 1 →
      (tick env inp g).warningActive = false ∧
      (tick env inp g).warningTimer = g.warningTimer - 1 ∧
      (tick env inp g).roundCount = g.roundCount + 1 ∧
      (tick env inp g).lastWarningFrame = g.frameCount) := by
  have hwa := preWarning_frame (fun x => x.warningActive)
    (fun _ _ _ _ _ _ _ _ _ _ _ => rfl) env inp g
  have hwt := preWarning_frame (fun x => x.warningTimer)
    (fun _ _ _ _ _ _ _ _ _ _ _ => rfl) env inp g
  have hrc := preWarning_frame (fun x => x.roundCount)
    (fun _ _ _ _ _ _ _ _ _ _ _ => rfl) env inp g
  have hlw := preWarning_frame (fun x => x.lastWarningFrame)
    (fun _ _ _ _ _ _ _ _ _ _ _ => rfl) env inp g
  have hfc := preWarning_frame (fun x => x.frameCount)
    (fun _ _ _ _ _ _ _ _ _ _ _ => rfl) env inp g
  simp only [] at hwa hwt hrc hlw hfc
  have h := warning_scheduler env (combatPhases env (ammoWarningPhase (playerPhase env inp g)))
  rw [hwa, hwt, hrc, hlw, hfc] at h
  rw [tick_eq_phases]
  exact h


theorem cycle_invariant (env : P5) (inps : ℕ → Input) (g : Game)
    (hs : g.gameStarted = true) (ha : g.warningActive = false)
    (hl : g.lastWarningFrame = g.frameCount)
    (hrun : ∀ k, k < 260 → (runFrames env inps g k).gameOver = false)
    (k : ℕ) (hk : k ≤ 260) :
    (runFrames env inps g k).gameStarted = true ∧
    (runFrames env inps g k).frameCount = g.frameCount + k ∧
    (k ≤ 200 →
      (runFrames env inps g k).warningActive = false ∧
      (runFrames env inps g k).roundCount = g.roundCount ∧
      (runFrames env inps g k).lastWarningFrame = g.frameCount) ∧
    (201 ≤ k → k ≤ 259 →
      (runFrames env inps g k).warningActive = true ∧
      (runFrames env inps g k).warningTimer = 260 - (k : ℤ) ∧
      (runFrames env inps g k).roundCount = g.roundCount ∧
      (runFrames env inps g k).lastWarningFrame = g.frameCount) ∧
    (k = 260 →
      (runFrames env inps g k).warningActive = false ∧
      (runFrames env inps g k).warningTimer = 0 ∧
      (runFrames env inps g k).roundCount = g.roundCount + 1 ∧
      (runFrames env inps g k).lastWarningFrame = g.frameCount + 260) := by
  induction k with
  | zero =>
    refine ⟨hs, by simp [runFrames], fun _ => ⟨ha, rfl, hl⟩, fun h => by omega, fun h => by omega⟩
  | succ k ih =>
    obtain ⟨ihs, ihf, ih1, ih2, _⟩ := ih (by omega)
    have hstep : runFrames env inps g (k + 1) =
        tick env (inps k) (advanceFrame (runFrames env inps g k)) := by
      simp only [runFrames, step]
      exact draw_running env _ _ ihs (hrun k hk)
    obtain ⟨tf, t1, t2, t3, t4⟩ :=
      tick_scheduler env (inps k) (advanceFrame (runFrames env inps g k))
    rw [← hstep] at tf t1 t2 t3 t4
    simp only [advanceFrame, warningInterval] at tf t1 t2 t3 t4
    have hfc : (runFrames env inps g (k + 1)).frameCount = g.frameCount + ((k + 1 : ℕ) : ℤ) := by
      rw [tf, ihf]; push_cast; ring
    refine ⟨by rw [hstep, tick_gameStarted]; exact ihs, hfc, ?_, ?_, ?_⟩
    · intro hk1
      obtain ⟨iwa, irc, ilw⟩ := ih1 (by omega)
      have hle : (k : ℤ) + 1 ≤ 200 := by exact_mod_cast hk1
      obtain ⟨r1, _, r3, r4⟩ := t1 iwa (by rw [ihf, ilw]; linarith)
      exact ⟨r1, by rw [r3, irc], by rw [r4, ilw]⟩
    · intro hk1 hk2
      by_cases h200 : k = 200
      · obtain ⟨iwa, irc, ilw⟩ := ih1 (by omega)
        obtain ⟨r1, r2, r3, r4⟩ := t2 iwa (by rw [ihf, ilw, h200]; push_cast; linarith)
        refine ⟨r1, ?_, by rw [r3, irc], by rw [r4, ilw]⟩
        rw [r2, h200]; norm_num
      · obtain ⟨iwa, iwt, irc, ilw⟩ := ih2 (by omega) (by omega)
        have hlt : (k : ℤ) < 259 := by
          have : k < 259 := by omega
          exact_mod_cast this
        obtain ⟨r1, r2, r3, r4⟩ := t3 iwa (by rw [iwt]; linarith)
        refine ⟨r1, ?_, by rw [r3, irc], by rw [r4, ilw]⟩
        rw [r2, iwt]; push_cast; ring
    · intro hk1
      have hk' : k = 259 := by omega
      obtain ⟨iwa, iwt, irc, ilw⟩ := ih2 (by omega) (by omega)
      obtain ⟨r1, r2, r3, r4⟩ := t4 iwa (by rw [iwt, hk']; norm_num)
      refine ⟨r1, ?_, by rw [r3, irc], ?_⟩
      · rw [r2, iwt, hk']; norm_num
      · rw [r4, ihf, hk']; push_cast; ring

theorem resolvesIn_false_of_not_running (g : Game)
    (h : g.gameStarted = false ∨ g.gameOver = true) : resolvesIn g = false := by
  unfold resolvesIn
  rcases h with h | h <;> simp [h]

theorem draw_roundCount (env : P5) (inp : Input) (g : Game) :
    (draw env inp g).roundCount = g.roundCount + (if resolvesIn g then 1 else 0) := by
  cases hs : g.gameStarted with
  | false =>
    have hd : draw env inp g = g := by unfold draw; simp [hs]
    rw [hd, resolvesIn_false_of_not_running g (Or.inl hs)]
    simp
  | true =>
    cases ho : g.gameOver with
    | true =>
      rw [draw_of_gameOver env inp g ho, resolvesIn_false_of_not_running g (Or.inr ho)]
      simp
    | false =>
      rw [draw_running env inp g hs ho]
      obtain ⟨_, t1, t2, t3, t4⟩ := tick_scheduler env inp g
      cases ha : g.warningActive with
      | false =>
        have hr : resolvesIn g = false := by unfold resolvesIn; simp [ha]
        rw [hr]
        by_cases hy : g.frameCount - g.lastWarningFrame > warningInterval
        · rw [(t2 ha hy).2.2.1]; simp
        · rw [(t1 ha hy).2.2.1]; simp
      | true =>
        by_cases ht : g.warningTimer ≤ 1
        · have hr : resolvesIn g = true := by
            unfold resolvesIn
            simp only [hs, ho, ha, Bool.not_false, Bool.and_self, Bool.true_and,
              decide_eq_true_eq]
            omega
          rw [hr, (t4 ha ht).2.2.1]
          simp
        · have hr : resolvesIn g = false := by
            unfold resolvesIn
            simp only [hs, ho, ha, Bool.not_false, Bool.and_self, Bool.true_and,
              decide_eq_false_iff_not]
            omega
          rw [hr, (t3 ha (by omega)).2.2.1]
          simp

theorem keyPressed_roundCount (env : P5) (key : String) (inp : Input) (g : Game) :
    (keyPressed env key inp g).roundCount = g.roundCount := by
  have hshoot : (Player.shoot env inp g).roundCount = g.roundCount := by
    rw [Player.shoot_shape]
  unfold keyPressed
  simp only []
  split_ifs <;> first | rfl | exact hshoot

theorem run_roundCount (env : P5) (evs : List Event) (g : Game) :
    (run env g evs).roundCount = g.roundCount + resolvedWarnings env g evs := by
  induction evs generalizing g with
  | nil => simp [run, resolvedWarnings]
  | cons ev rest ih =>
    have hrun : run env g (ev :: rest) = run env (step env g ev) rest := rfl
    rw [hrun, ih]
    cases ev with
    | frame inp =>
      simp only [resolvedWarnings, step]
      rw [draw_roundCount]
      simp only [advanceFrame]
      omega
    | key k inp =>
      simp only [resolvedWarnings, step]
      rw [keyPressed_roundCount]

/-- C12: in a running game in which a warning has just resolved on frame `t`
(`warningActive = false`, `lastWarningFrame = frameCount = t`) and which stays running for
the next 260 frames: the scheduler is idle through frame `t + 200`; the next warning is
active from frame `t + 201`, its timer, set to 60, being decremented once in each frame
(`260 - k` after frame `t + k`); it resolves on frame `t + 260`, the sixtieth frame in which
it is active and the one in which the timer reaches 0, and there `roundCount` grows by
exactly 1, `warningActive` returns to false and `lastWarningFrame` becomes `t + 260`.  Idle
is the negation of the one flag `warningActive`.  Over any sequence of events `roundCount`
grows by the number of frames in which a warning resolved. -/
theorem warning_cycle (env : P5) (inps : ℕ → Input) (g : Game)
    (hs : g.gameStarted = true) (ha : g.warningActive = false)
    (hl : g.lastWarningFrame = g.frameCount)
    (hrun : ∀ k, k < 260 → (runFrames env inps g k).gameOver = false) :
    (∀ k, k ≤ 260 → (runFrames env inps g k).frameCount = g.frameCount + k) ∧
    (∀ k, k ≤ 200 →
      (runFrames env inps g k).warningActive = false ∧
      (runFrames env inps g k).roundCount = g.roundCount ∧
      (runFrames env inps g k).lastWarningFrame = g.frameCount) ∧
    (∀ k, 201 ≤ k → k ≤ 259 →
      (runFrames env inps g k).warningActive = true ∧
      (runFrames env inps g k).warningTimer = 260 - (k : ℤ) ∧
      (runFrames env inps g k).roundCount = g.roundCount ∧
      (runFrames env inps g k).lastWarningFrame = g.frameCount) ∧
    ((runFrames env inps g 260).warningActive = false ∧
      (runFrames env inps g 260).warningTimer = 0 ∧
      (runFrames env inps g 260).roundCount = g.roundCount + 1 ∧
      (runFrames env inps g 260).lastWarningFrame = g.frameCount + 260) ∧
    (∀ (evs : List Event) (g' : Game),
      (run env g' evs).roundCount = g'.roundCount + resolvedWarnings env g' evs) ∧
    (∀ evs : List Event, (run env setup evs).roundCount = resolvedWarnings env setup evs) := by
  have hinv := cycle_invariant env inps g hs ha hl hrun
  refine ⟨fun k hk => (hinv k hk).2.1, fun k hk => (hinv k (by omega)).2.2.1 hk,
    fun k h1 h2 => (hinv k (by omega)).2.2.2.1 h1 h2, (hinv 260 (le_refl _)).2.2.2.2 rfl,
    fun evs g' => run_roundCount env evs g', fun evs => ?_⟩
  rw [run_roundCount]
  simp [setup]

/-- Worked instance for C12 on `justResolved` (a warning resolved on frame 260): the next
warning is active after frame 461, with 59 on its timer, and resolves on frame 520. -/
theorem warning_cycle_witness :
    justResolved.gameStarted = true ∧ justResolved.warningActive = false ∧
    justResolved.lastWarningFrame = justResolved.frameCount ∧
    (∀ k, k < 260 →
      (runFrames sampleEnv (fun _ => idleInput) justResolved k).gameOver = false) ∧
    (runFrames sampleEnv (fun _ => idleInput) justResolved 200).warningActive = false ∧
    ((runFrames sampleEnv (fun _ => idleInput) justResolved 201).warningActive = true ∧
      (runFrames sampleEnv (fun _ => idleInput) justResolved 201).warningTimer
        = 260 - ((201 : ℕ) : ℤ)) ∧
    ((runFrames sampleEnv (fun _ => idleInput) justResolved 260).warningActive = false ∧
      (runFrames sampleEnv (fun _ => idleInput) justResolved 260).warningTimer = 0 ∧
      (runFrames sampleEnv (fun _ => idleInput) justResolved 260).roundCount
        = justResolved.roundCount + 1 ∧
      (runFrames sampleEnv (fun _ => idleInput) justResolved 260).lastWarningFrame
        = justResolved.frameCount + 260) :=
  ⟨rfl, rfl, rfl, by decide!,
    ((warning_cycle sampleEnv (fun _ => idleInput) justResolved rfl rfl rfl
      (by decide!)).2.1 200 (le_refl _)).1,
    ⟨((warning_cycle sampleEnv (fun _ => idleInput) justResolved rfl rfl rfl
        (by decide!)).2.2.1 201 (le_refl _) (by decide)).1,
      ((warning_cycle sampleEnv (fun _ => idleInput) justResolved rfl rfl rfl
        (by decide!)).2.2.1 201 (le_refl _) (by decide)).2.1⟩,
    (warning_cycle sampleEnv (fun _ => idleInput) justResolved rfl rfl rfl
      (by decide!)).2.2.2.1⟩


/-! ## Held fire -/

theorem tick_player_cooldown (env : P5) (inp : Input) (g : Game) :
    (tick env inp g).player.cooldown = (playerPhase env inp g).player.cooldown ∧
      (tick env inp g).player.weapon = (playerPhase env inp g).player.weapon := by
  rw [tick_eq_phases,
    warning_frame (fun x => x.player.cooldown) (fun _ _ _ _ _ _ _ _ _ _ _ => rfl),
    warning_frame (fun x => x.player.weapon) (fun _ _ _ _ _ _ _ _ _ _ _ => rfl),
    combatPhases_frame (fun x => x.player.cooldown) (fun _ _ _ _ _ _ _ _ _ _ _ _ => rfl),
    combatPhases_frame (fun x => x.player.weapon) (fun _ _ _ _ _ _ _ _ _ _ _ _ => rfl)]
  constructor
  · rw [ammoWarningPhase_shape]
  · rw [ammoWarningPhase_shape]

theorem playerPhase_fire (env : P5) (inp : Input) (g : Game)
    (hf : (inp.mouseIsPressed && decide (inp.mouseButton = MouseButton.LEFT)) = true) :
    playerPhase env inp g = Player.shoot env inp { g with player := g.player.update inp } := by
  unfold playerPhase
  simp only [hf, if_true]

/-- One frame of held fire with the pistol, or with the machine gun and a round left. -/
theorem heldFire_playerPhase (env : P5) (inp : Input) (g : Game) (p : ℤ)
    (hf : (inp.mouseIsPressed && decide (inp.mouseButton = MouseButton.LEFT)) = true)
    (hc : 0 ≤ g.player.cooldown)
    (hw : (g.player.weapon = 1 ∧ p = 30) ∨
      (g.player.weapon = 2 ∧ p = 6 ∧ 0 < g.player.ammoMachine)) :
    (playerPhase env inp g).player.weapon = g.player.weapon ∧
    (g.player.cooldown ≤ 1 →
      (playerPhase env inp g).bullets =
        g.bullets ++
          [Bullet.new (g.player.update inp).x (g.player.update inp).y
            (env.atan2 (inp.mouseY - (g.player.update inp).y)
              (inp.mouseX - (g.player.update inp).x))] ∧
      (playerPhase env inp g).player.cooldown = p ∧
      (playerPhase env inp g).player.ammoMachine =
        (if g.player.weapon = 2 then g.player.ammoMachine - 1 else g.player.ammoMachine)) ∧
    (1 < g.player.cooldown →
      (playerPhase env inp g).bullets = g.bullets ∧
      (playerPhase env inp g).player.cooldown = g.player.cooldown - 1 ∧
      (playerPhase env inp g).player.ammoMachine = g.player.ammoMachine) := by
  rw [playerPhase_fire env inp g hf]
  have hupd_w : (g.player.update inp).weapon = g.player.weapon := rfl
  have hupd_a : (g.player.update inp).ammoMachine = g.player.ammoMachine := rfl
  have hupd_c : (g.player.update inp).cooldown =
      if g.player.cooldown > 0 then g.player.cooldown - 1 else g.player.cooldown := rfl
  refine ⟨?_, ?_, ?_⟩
  · exact congrArg (fun x => x.player.weapon) (Player.shoot_shape env inp _)
  · intro hle
    have hc0 : (g.player.update inp).cooldown = 0 := by
      rw [hupd_c]; split_ifs <;> omega
    have hnc : ¬ (g.player.update inp).cooldown > 0 := by rw [hc0]; decide
    rcases hw with ⟨hw1, hp⟩ | ⟨hw2, hp, hammo⟩
    · have heq := Player.shoot_pistol env inp { g with player := g.player.update inp }
        hw1 hc0
      rw [heq, hp, if_neg (by rw [hw1]; decide)]
      exact ⟨rfl, rfl, rfl⟩
    · have heq : Player.shoot env inp { g with player := g.player.update inp } =
          { g with
            bullets := g.bullets ++
              [Bullet.new (g.player.update inp).x (g.player.update inp).y
                (env.atan2 (inp.mouseY - (g.player.update inp).y)
                  (inp.mouseX - (g.player.update inp).x))]
            player :=
              { g.player.update inp with
                cooldown := 6, ammoMachine := (g.player.update inp).ammoMachine - 1 } } := by
        have hammo' : (g.player.update inp).ammoMachine > 0 := hammo
        unfold Player.shoot
        simp only [hupd_w, hw2, hnc, hammo', if_false, if_true]
        simp
      rw [heq, hp, if_pos hw2]
      exact ⟨rfl, rfl, rfl⟩
  · intro hlt
    have hpos : 0 < (g.player.update inp).cooldown := by
      rw [hupd_c]; split_ifs <;> omega
    have heq := Player.shoot_cooling env inp { g with player := g.player.update inp } hpos
    rw [heq]
    refine ⟨rfl, ?_, rfl⟩
    show (g.player.update inp).cooldown = _
    rw [hupd_c]; split_ifs <;> omega

theorem cooldown_arith (p k : ℕ) (hp : p = 30 ∨ p = 6) (c : ℤ)
    (hc : c = if k = 0 then 0 else (p : ℤ) - ((k - 1) % p : ℕ)) :
    0 ≤ c ∧
    (c ≤ 1 → (p : ℤ) = if k + 1 = 0 then 0 else (p : ℤ) - ((k + 1 - 1) % p : ℕ)) ∧
    (1 < c → c - 1 = if k + 1 = 0 then 0 else (p : ℤ) - ((k + 1 - 1) % p : ℕ)) ∧
    (c ≤ 1 ↔ k % p = 0) := by
  rcases hp with rfl | rfl
  · simp only [Nat.add_sub_cancel, Nat.succ_ne_zero, if_false]
    split_ifs at hc with h0
    · subst h0; subst hc; simp
    · subst hc
      push_cast
      refine ⟨by omega, fun h => by omega, fun h => by omega, by omega⟩
  · simp only [Nat.add_sub_cancel, Nat.succ_ne_zero, if_false]
    split_ifs at hc with h0
    · subst h0; subst hc; simp
    · subst hc
      push_cast
      refine ⟨by omega, fun h => by omega, fun h => by omega, by omega⟩

theorem heldFire_invariant (env : P5) (inps : ℕ → Input) (g : Game) (n : ℕ) (w : ℕ) (p : ℕ)
    (hwp : (w = 1 ∧ p = 30) ∨ (w = 2 ∧ p = 6))
    (hs : g.gameStarted = true) (hw : g.player.weapon = w) (hc : g.player.cooldown = 0)
    (hf : ∀ k, k < n →
      ((inps k).mouseIsPressed && decide ((inps k).mouseButton = MouseButton.LEFT)) = true)
    (hrun : ∀ k, k < n → (runFrames env inps g k).gameOver = false)
    (hammo : w = 2 → ∀ k, k < n → 0 < (runFrames env inps g k).player.ammoMachine)
    (k : ℕ) (hk : k ≤ n) :
    (runFrames env inps g k).gameStarted = true ∧
      (runFrames env inps g k).player.weapon = w ∧
      (runFrames env inps g k).player.cooldown =
        (if k = 0 then 0 else (p : ℤ) - ((k - 1) % p : ℕ)) := by
  induction k with
  | zero => exact ⟨hs, hw, by simpa using hc⟩
  | succ k ih =>
    obtain ⟨ihs, ihw, ihc⟩ := ih (by omega)
    have hstep : runFrames env inps g (k + 1) =
        tick env (inps k) (advanceFrame (runFrames env inps g k)) := by
      simp only [runFrames, step]
      exact draw_running env _ _ ihs (hrun k hk)
    have hpw : ((advanceFrame (runFrames env inps g k)).player.weapon = 1 ∧ (p : ℤ) = 30) ∨
        ((advanceFrame (runFrames env inps g k)).player.weapon = 2 ∧ (p : ℤ) = 6 ∧
          0 < (advanceFrame (runFrames env inps g k)).player.ammoMachine) := by
      rcases hwp with ⟨h1, h2⟩ | ⟨h1, h2⟩
      · exact Or.inl ⟨by show (runFrames env inps g k).player.weapon = 1; rw [ihw, h1],
          by rw [h2]; rfl⟩
      · exact Or.inr ⟨by show (runFrames env inps g k).player.weapon = 2; rw [ihw, h1],
          by rw [h2]; rfl, hammo h1 k hk⟩
    have hcur : (advanceFrame (runFrames env inps g k)).player.cooldown =
        (if k = 0 then 0 else (p : ℤ) - ((k - 1) % p : ℕ)) := ihc
    have hp' : p = 30 ∨ p = 6 := by
      rcases hwp with ⟨_, h2⟩ | ⟨_, h2⟩
      · exact Or.inl h2
      · exact Or.inr h2
    obtain ⟨hc0, afire, await, _⟩ := cooldown_arith p k hp' _ hcur
    obtain ⟨pw, pfire, pwait⟩ :=
      heldFire_playerPhase env (inps k) (advanceFrame (runFrames env inps g k)) p (hf k hk)
        hc0 hpw
    refine ⟨by rw [hstep, tick_gameStarted]; exact ihs, ?_, ?_⟩
    · rw [hstep, (tick_player_cooldown env _ _).2, pw]
      exact ihw
    · rw [hstep, (tick_player_cooldown env _ _).1]
      by_cases hle : (advanceFrame (runFrames env inps g k)).player.cooldown ≤ 1
      · rw [(pfire hle).2.1]
        exact afire hle
      · rw [(pwait (by omega)).2.1]
        exact await (by omega)


/-- C15: in a running game with the left mouse button held on every frame and the cooldown at
0 before frame 0, the player phase of frame `k` appends exactly one bullet (at the position
of the player, with the aim angle) when `k` is a multiple of the weapon cooldown and none
otherwise: multiples of 30 with the pistol, multiples of 6 with the machine gun as long as a
round is left at the start of each frame, each machine-gun shot taking exactly 1 round. -/
theorem held_fire_period (env : P5) (inps : ℕ → Input) (g : Game) (n : ℕ)
    (hs : g.gameStarted = true) (hc : g.player.cooldown = 0)
    (hf : ∀ k, k < n →
      ((inps k).mouseIsPressed && decide ((inps k).mouseButton = MouseButton.LEFT)) = true)
    (hrun : ∀ k, k < n → (runFrames env inps g k).gameOver = false) :
    (g.player.weapon = 1 → ∀ k, k < n →
      (k % 30 = 0 →
        (playerPhase env (inps k) (advanceFrame (runFrames env inps g k))).bullets =
          (runFrames env inps g k).bullets ++
            [Bullet.new ((runFrames env inps g k).player.update (inps k)).x
              ((runFrames env inps g k).player.update (inps k)).y
              (env.atan2
                ((inps k).mouseY - ((runFrames env inps g k).player.update (inps k)).y)
                ((inps k).mouseX - ((runFrames env inps g k).player.update (inps k)).x))]) ∧
      (k % 30 ≠ 0 →
        (playerPhase env (inps k) (advanceFrame (runFrames env inps g k))).bullets =
          (runFrames env inps g k).bullets)) ∧
    (g.player.weapon = 2 →
      (∀ k, k < n → 0 < (runFrames env inps g k).player.ammoMachine) → ∀ k, k < n →
      (k % 6 = 0 →
        (playerPhase env (inps k) (advanceFrame (runFrames env inps g k))).bullets =
          (runFrames env inps g k).bullets ++
            [Bullet.new ((runFrames env inps g k).player.update (inps k)).x
              ((runFrames env inps g k).player.update (inps k)).y
              (env.atan2
                ((inps k).mouseY - ((runFrames env inps g k).player.update (inps k)).y)
                ((inps k).mouseX - ((runFrames env inps g k).player.update (inps k)).x))] ∧
        (playerPhase env (inps k)
            (advanceFrame (runFrames env inps g k))).player.ammoMachine =
          (runFrames env inps g k).player.ammoMachine - 1) ∧
      (k % 6 ≠ 0 →
        (playerPhase env (inps k) (advanceFrame (runFrames env inps g k))).bullets =
          (runFrames env inps g k).bullets ∧
        (playerPhase env (inps k)
            (advanceFrame (runFrames env inps g k))).player.ammoMachine =
          (runFrames env inps g k).player.ammoMachine)) := by
  constructor
  · intro hw k hk
    obtain ⟨_, ihw, ihc⟩ := heldFire_invariant env inps g n 1 30 (Or.inl ⟨rfl, rfl⟩) hs hw hc
      hf hrun (fun h => absurd h (by decide)) k (le_of_lt hk)
    have hcur : (advanceFrame (runFrames env inps g k)).player.cooldown =
        (if k = 0 then 0 else ((30 : ℕ) : ℤ) - ((k - 1) % 30 : ℕ)) := ihc
    obtain ⟨hc0, _, _, hiff⟩ := cooldown_arith 30 k (Or.inl rfl) _ hcur
    obtain ⟨_, pfire, pwait⟩ :=
      heldFire_playerPhase env (inps k) (advanceFrame (runFrames env inps g k)) 30 (hf k hk)
        hc0 (Or.inl ⟨ihw, rfl⟩)
    exact ⟨fun h0 => (pfire (hiff.mpr h0)).1,
      fun h0 => (pwait (not_le.mp (fun hle => h0 (hiff.mp hle)))).1⟩
  · intro hw hammo k hk
    obtain ⟨_, ihw, ihc⟩ := heldFire_invariant env inps g n 2 6 (Or.inr ⟨rfl, rfl⟩) hs hw hc
      hf hrun (fun _ => hammo) k (le_of_lt hk)
    have hcur : (advanceFrame (runFrames env inps g k)).player.cooldown =
        (if k = 0 then 0 else ((6 : ℕ) : ℤ) - ((k - 1) % 6 : ℕ)) := ihc
    obtain ⟨hc0, _, _, hiff⟩ := cooldown_arith 6 k (Or.inr rfl) _ hcur
    have hw2 : (advanceFrame (runFrames env inps g k)).player.weapon = 2 := ihw
    obtain ⟨_, pfire, pwait⟩ :=
      heldFire_playerPhase env (inps k) (advanceFrame (runFrames env inps g k)) 6 (hf k hk)
        hc0 (Or.inr ⟨hw2, rfl, hammo k hk⟩)
    refine ⟨fun h0 => ⟨(pfire (hiff.mpr h0)).1, ?_⟩,
      fun h0 => ⟨(pwait (not_le.mp (fun hle => h0 (hiff.mp hle)))).1,
        (pwait (not_le.mp (fun hle => h0 (hiff.mp hle)))).2.2⟩⟩
    rw [(pfire (hiff.mpr h0)).2.2, if_pos hw2]
    rfl

/-- Worked instance for C15: with the pistol, 61 frames of held fire shoot on frames 0, 30
and 60; with the machine gun and 100 rounds, 13 frames shoot on frames 0, 6 and 12 and leave
97 rounds. -/
theorem held_fire_period_witness :
    ((pistolAt 0).gameStarted = true ∧ (pistolAt 0).player.cooldown = 0 ∧
      (∀ k, k < 61 →
        (runFrames sampleEnv (fun _ => fireInput) (pistolAt 0) k).gameOver = false) ∧
      (∀ k, k < 61 →
        (k % 30 = 0 →
          (playerPhase sampleEnv fireInput
              (advanceFrame (runFrames sampleEnv (fun _ => fireInput) (pistolAt 0) k))).bullets =
            (runFrames sampleEnv (fun _ => fireInput) (pistolAt 0) k).bullets ++
              [Bullet.new
                ((runFrames sampleEnv (fun _ => fireInput) (pistolAt 0) k).player.update
                  fireInput).x
                ((runFrames sampleEnv (fun _ => fireInput) (pistolAt 0) k).player.update
                  fireInput).y
                (sampleEnv.atan2
                  (fireInput.mouseY -
                    ((runFrames sampleEnv (fun _ => fireInput) (pistolAt 0) k).player.update
                      fireInput).y)
                  (fireInput.mouseX -
                    ((runFrames sampleEnv (fun _ => fireInput) (pistolAt 0) k).player.update
                      fireInput).x))]) ∧
        (k % 30 ≠ 0 →
          (playerPhase sampleEnv fireInput
              (advanceFrame (runFrames sampleEnv (fun _ => fireInput) (pistolAt 0) k))).bullets =
            (runFrames sampleEnv (fun _ => fireInput) (pistolAt 0) k).bullets))) ∧
    ((machineGunReady 100).player.weapon = 2 ∧
      (∀ k, k < 13 →
        0 < (runFrames sampleEnv (fun _ => fireInput) (machineGunReady 100) k).player.ammoMachine) ∧
      (runFrames sampleEnv (fun _ => fireInput) (machineGunReady 100) 13).player.ammoMachine
        = 97 ∧
      (playerPhase sampleEnv fireInput
          (advanceFrame
            (runFrames sampleEnv (fun _ => fireInput) (machineGunReady 100) 6))).player.ammoMachine =
        (runFrames sampleEnv (fun _ => fireInput) (machineGunReady 100) 6).player.ammoMachine
          - 1) :=
  ⟨⟨rfl, rfl, by decide!,
      (held_fire_period sampleEnv (fun _ => fireInput) (pistolAt 0) 61 rfl rfl
        (fun _ _ => rfl) (by decide!)).1 rfl⟩,
    ⟨rfl, by decide!, by decide!,
      (((held_fire_period sampleEnv (fun _ => fireInput) (machineGunReady 100) 13 rfl rfl
        (fun _ _ => rfl) (by decide!)).2 rfl (by decide!)) 6 (by decide)).1 (by decide) |>.2⟩⟩


/-! ## Trails -/

/-- Pushing a sample on the last `cap` samples of a history and shifting once if the buffer
is over its cap gives the last `cap` samples of the longer history. -/
theorem trail_push {α : Type} (T : List α) (cap : ℕ) (x : α) (t : List α)
    (ht : t = T.drop (T.length - cap)) :
    (if (t ++ [x]).length > cap then (t ++ [x]).tail else t ++ [x]) =
      (T ++ [x]).drop (T.length + 1 - cap) := by
  subst ht
  have hlen : (T.drop (T.length - cap) ++ [x]).length = T.length - (T.length - cap) + 1 := by
    simp
  have happ : (T ++ [x]).drop (T.length - cap) = T.drop (T.length - cap) ++ [x] :=
    List.drop_append_of_le_length (Nat.sub_le _ _)
  by_cases h : cap ≤ T.length
  · have hgt : (T.drop (T.length - cap) ++ [x]).length > cap := by rw [hlen]; omega
    rw [if_pos hgt, ← happ, List.tail_drop]
    congr 1
    omega
  · have hgt : ¬ (T.drop (T.length - cap) ++ [x]).length > cap := by rw [hlen]; omega
    rw [if_neg hgt, ← happ]
    congr 1
    omega

theorem Bullet.history_length (env : P5) (b : Bullet) (n : ℕ) :
    (b.history env n).length = n := by
  simp [Bullet.history]

theorem Bullet.history_succ (env : P5) (b : Bullet) (n : ℕ) :
    b.history env (n + 1) = b.history env n ++ [((b.after env n).x, (b.after env n).y)] := by
  simp [Bullet.history, List.range_succ]

theorem Bullet.after_succ (env : P5) (b : Bullet) (n : ℕ) :
    b.after env (n + 1) = (b.after env n).update env := by
  simp only [Bullet.after]
  exact Function.iterate_succ_apply' _ _ _

theorem Bullet.trail_after (env : P5) (b : Bullet) (hb : b.trail = []) (n : ℕ) :
    (b.after env n).trail = (b.history env n).drop (n - 10) := by
  induction n with
  | zero => simp [Bullet.after, Bullet.history, hb]
  | succ n ih =>
    rw [Bullet.after_succ, Bullet.history_succ]
    have h := trail_push (b.history env n) 10 ((b.after env n).x, (b.after env n).y)
      (b.after env n).trail (by rw [ih, Bullet.history_length])
    rw [Bullet.history_length] at h
    exact h

theorem Enemy.path_length (env : P5) (ps : ℕ → Player) (e : Enemy) (n : ℕ) :
    (Enemy.history env ps e n).length = n := by
  simp [Enemy.history]

theorem Enemy.path_succ (env : P5) (ps : ℕ → Player) (e : Enemy) (n : ℕ) :
    Enemy.history env ps e (n + 1) =
      Enemy.history env ps e n ++
        [((Enemy.after env ps e (n + 1)).x, (Enemy.after env ps e (n + 1)).y)] := by
  simp [Enemy.history, List.range_succ]

theorem Enemy.update_strong (env : P5) (p : Player) (e : Enemy) :
    (e.update env p).strong = e.strong := by
  unfold Enemy.update
  simp only []
  split_ifs <;> rfl

theorem Enemy.update_trail (env : P5) (p : Player) (e : Enemy) (hs : e.strong = true) :
    (e.update env p).trail =
      (if (e.trail ++ [((e.update env p).x, (e.update env p).y)]).length > 15 then
        (e.trail ++ [((e.update env p).x, (e.update env p).y)]).tail
      else e.trail ++ [((e.update env p).x, (e.update env p).y)]) := by
  unfold Enemy.update
  simp only [hs, if_true]

theorem Enemy.strong_after (env : P5) (ps : ℕ → Player) (e : Enemy) (n : ℕ) :
    (Enemy.after env ps e n).strong = e.strong := by
  induction n with
  | zero => rfl
  | succ n ih => simp only [Enemy.after, Enemy.update_strong, ih]

theorem Enemy.trail_path (env : P5) (ps : ℕ → Player) (e : Enemy) (hs : e.strong = true)
    (he : e.trail = []) (n : ℕ) :
    (Enemy.after env ps e n).trail = (Enemy.history env ps e n).drop (n - 15) := by
  induction n with
  | zero => simp [Enemy.after, Enemy.history, he]
  | succ n ih =>
    rw [Enemy.path_succ]
    have h := trail_push (Enemy.history env ps e n) 15
      ((Enemy.after env ps e (n + 1)).x, (Enemy.after env ps e (n + 1)).y)
      (Enemy.after env ps e n).trail (by rw [ih, Enemy.path_length])
    rw [Enemy.path_length] at h
    have hst : (Enemy.after env ps e n).strong = true := by rw [Enemy.strong_after, hs]
    rw [← h]
    exact Enemy.update_trail env (ps n) (Enemy.after env ps e n) hst

/-- C16: a bullet that starts with an empty trail has, after `n` calls of `Bullet.update`, a
trail of length `min n 10` made of the positions it had before each of its last `min n 10`
updates, oldest first; an enhanced enemy that starts with an empty trail has, after `n` calls
of its `update`, a trail of length `min n 15`, hence at most 15, made of the last positions
it reached, oldest first. -/
theorem trail_caps (env : P5) :
    (∀ (b : Bullet) (n : ℕ), b.trail = [] →
      (b.after env n).trail.length = min n 10 ∧
      (b.after env n).trail = (b.history env n).drop (n - min n 10) ∧
      (b.after env n).trail = (b.history env n).drop (n - 10)) ∧
    (∀ (ps : ℕ → Player) (e : Enemy) (n : ℕ), e.strong = true → e.trail = [] →
      (Enemy.after env ps e n).trail.length = min n 15 ∧
      (Enemy.after env ps e n).trail.length ≤ 15 ∧
      (Enemy.after env ps e n).trail = (Enemy.history env ps e n).drop (n - 15)) := by
  constructor
  · intro b n hb
    have h := Bullet.trail_after env b hb n
    have hmin : n - min n 10 = n - 10 := by omega
    refine ⟨?_, by rw [hmin]; exact h, h⟩
    rw [h, List.length_drop, Bullet.history_length]
    omega
  · intro ps e n hs he
    have h := Enemy.trail_path env ps e hs he n
    have hl : (Enemy.after env ps e n).trail.length = min n 15 := by
      rw [h, List.length_drop, Enemy.path_length]
      omega
    exact ⟨hl, by rw [hl]; omega, h⟩

/-- Worked instance for C16: a fresh bullet after 12 updates holds the 10 positions it had
before updates 2 to 11; a fresh enhanced enemy after 20 updates holds 15 positions. -/
theorem trail_caps_witness :
    (Bullet.new 100 300 0).trail = [] ∧
    ((Bullet.new 100 300 0).after sampleEnv 12).trail.length = min 12 10 ∧
    ((Bullet.new 100 300 0).after sampleEnv 12).trail =
      ((Bullet.new 100 300 0).history sampleEnv 12).drop (12 - 10) ∧
    ((Bullet.new 100 300 0).after sampleEnv 12).trail =
      [(114, 300), (121, 300), (128, 300), (135, 300), (142, 300), (149, 300), (156, 300),
        (163, 300), (170, 300), (177, 300)] ∧
    (StrongEnemy.new 0 300).strong = true ∧ (StrongEnemy.new 0 300).trail = [] ∧
    (Enemy.after sampleEnv (fun _ => Player.new 400 300) (StrongEnemy.new 0 300) 20).trail.length
      ≤ 15 :=
  ⟨rfl, ((trail_caps sampleEnv).1 (Bullet.new 100 300 0) 12 rfl).1,
    ((trail_caps sampleEnv).1 (Bullet.new 100 300 0) 12 rfl).2.2, by decide!, rfl, rfl,
    ((trail_caps sampleEnv).2 (fun _ => Player.new 400 300) (StrongEnemy.new 0 300) 20 rfl
      rfl).2.1⟩


/-! ## After the game is over -/

/-- Evaluation for C17: `contactFive` is over after five frames; `draw` then leaves the
globals as they are and `gameOver` stays true, but `keyPressed` has no test of `gameOver`:
the space key still fires a bullet and sets the cooldown to 30, and the key 2 still changes
the weapon. -/
theorem keys_act_after_game_over :
    (runFrames sampleEnv (fun _ => idleInput) contactFive 5).gameOver = true ∧
    draw sampleEnv idleInput (runFrames sampleEnv (fun _ => idleInput) contactFive 5) =
      runFrames sampleEnv (fun _ => idleInput) contactFive 5 ∧
    (runFrames sampleEnv (fun _ => idleInput) contactFive 5).bullets = [] ∧
    (runFrames sampleEnv (fun _ => idleInput) contactFive 5).player.cooldown = 0 ∧
    (runFrames sampleEnv (fun _ => idleInput) contactFive 5).player.weapon = 1 ∧
    (step sampleEnv (runFrames sampleEnv (fun _ => idleInput) contactFive 5)
      (Event.key " " aimRight)).bullets = [Bullet.new 400 300 0] ∧
    (step sampleEnv (runFrames sampleEnv (fun _ => idleInput) contactFive 5)
      (Event.key " " aimRight)).player.cooldown = 30 ∧
    (step sampleEnv (runFrames sampleEnv (fun _ => idleInput) contactFive 5)
      (Event.key "2" aimRight)).player.weapon = 2 ∧
    (step sampleEnv (runFrames sampleEnv (fun _ => idleInput) contactFive 5)
      (Event.key " " aimRight)).gameOver = true := by
  refine ⟨by decide!, ?_, by decide!, by decide!, by decide!, by decide!, by decide!,
    by decide!, by decide!⟩
  exact draw_of_gameOver _ _ _ (by decide!)


/-! ## Enemy health and the conservation of enemies -/

theorem Enemy.update_health (env : P5) (p : Player) (e : Enemy) :
    (e.update env p).health = e.health := by
  unfold Enemy.update
  simp only []
  split_ifs <;> rfl

theorem enemiesLoop_fst (env : P5) (es : List Enemy) (g : Game) :
    (enemiesLoop env es g).1 = es.map fun e => e.update env g.player := by
  induction es generalizing g with
  | nil => rfl
  | cons e rest ih =>
    have hpos := enemyStep_pos env e g
    simp only [enemiesLoop, List.map_cons]
    rw [ih]
    congr 1
    apply List.map_congr_left
    intro e' _
    exact Enemy.update_congr env e' _ _ hpos.1 hpos.2

/-- With every enemy at health 1 the filter after the enemy loop removes nothing. -/
theorem updateEnemies_enemies (env : P5) (g : Game) (h1 : ∀ e ∈ g.enemies, e.health = 1) :
    (updateEnemies env g).enemies = (enemiesLoop env g.enemies g).1 ∧
      (updateEnemies env g).enemies = g.enemies.map (fun e => e.update env g.player) ∧
      (updateEnemies env g).enemies.length = g.enemies.length ∧
      ∀ e ∈ (updateEnemies env g).enemies, e.health = 1 := by
  have hall : ∀ e ∈ g.enemies.map (fun e => e.update env g.player), e.health = 1 := by
    intro e he
    obtain ⟨e0, he0, rfl⟩ := List.mem_map.mp he
    rw [Enemy.update_health]
    exact h1 e0 he0
  have hfilter : (g.enemies.map fun e => e.update env g.player).filter
      (fun e => decide (e.health > 0)) = g.enemies.map fun e => e.update env g.player := by
    apply List.filter_eq_self.mpr
    intro e he
    rw [hall e he]
    decide
  have henemies : (updateEnemies env g).enemies =
      g.enemies.map fun e => e.update env g.player := by
    simp only [updateEnemies, enemiesLoop_fst]
    exact hfilter
  refine ⟨by rw [henemies, enemiesLoop_fst], henemies, by rw [henemies, List.length_map], ?_⟩
  rw [henemies]
  exact hall

theorem bulletStep_enemies_sublist (env : P5) (i : ℕ) (g : Game) :
    (bulletStep env i g).enemies.Sublist g.enemies := by
  cases hb : g.bullets[i]? with
  | none =>
    have : bulletStep env i g = g := by unfold bulletStep; rw [hb]
    rw [this]
  | some b =>
    cases hoff : (b.update env).offscreen with
    | true => rw [bulletStep_off env g i b hb hoff]
    | false =>
      by_cases hex : ∃ e ∈ g.enemies, (b.update env).hits e = true
      · obtain ⟨k, e, _, _, _, heq⟩ := bulletStep_hit env g i b hb hoff hex
        rw [heq, killEnemy_enemies]
        exact List.eraseIdx_sublist _ _
      · have hno : ∀ e ∈ g.enemies, (b.update env).hits e = false := by
          intro e he
          cases h : (b.update env).hits e with
          | false => rfl
          | true => exact absurd ⟨e, he, h⟩ hex
        rw [bulletStep_miss env g i b hb hoff hno]

theorem bulletsLoop_enemies_sublist (env : P5) (n : ℕ) (g : Game) :
    (bulletsLoop env n g).enemies.Sublist g.enemies := by
  induction n generalizing g with
  | zero => exact List.Sublist.refl _
  | succ n ih =>
    simp only [bulletsLoop]
    exact (ih _).trans (bulletStep_enemies_sublist env n g)

theorem spawnEnemy_new (env : P5) (g : Game) :
    ∃ e : Enemy, (spawnEnemy env g).enemies = g.enemies ++ [e] ∧ e.health = 1 := by
  unfold spawnEnemy
  simp only [randomMax, randomRange, random]
  split_ifs <;> exact ⟨_, rfl, rfl⟩

theorem spawnEnemies_new (env : P5) (n : ℕ) (g : Game) :
    ∃ new : List Enemy, (spawnEnemies env n g).enemies = g.enemies ++ new ∧
      new.length = n ∧ ∀ e ∈ new, e.health = 1 := by
  induction n generalizing g with
  | zero => exact ⟨[], by simp [spawnEnemies], rfl, by simp⟩
  | succ n ih =>
    obtain ⟨e, he, h1⟩ := spawnEnemy_new env g
    obtain ⟨new, hnew, hlen, hall⟩ := ih (spawnEnemy env g)
    simp only [spawnEnemies]
    refine ⟨e :: new, by rw [hnew, he]; simp, by simp [hlen], ?_⟩
    intro e' he'
    rcases List.mem_cons.mp he' with h | h
    · rw [h]; exact h1
    · exact hall e' h

/-- The resolution of a warning, read on the enemies: an enemy warning appends
`enemySpawnCount` enemies of health 1 and increments the count, an attack warning leaves
both. -/
theorem resolveWarning_enemies (env : P5) (g : Game) :
    (resolveWarning env g).score = g.score ∧
    (g.warningType = WarningType.enemy →
      (∃ new : List Enemy, (resolveWarning env g).enemies = g.enemies ++ new ∧
        new.length = g.enemySpawnCount ∧ ∀ e ∈ new, e.health = 1) ∧
      (resolveWarning env g).enemySpawnCount = g.enemySpawnCount + 1) ∧
    (g.warningType = WarningType.attack →
      (resolveWarning env g).enemies = g.enemies ∧
      (resolveWarning env g).enemySpawnCount = g.enemySpawnCount) := by
  refine ⟨?_, ?_, ?_⟩
  · rw [resolveWarning_shape]
  · intro hw
    obtain ⟨new, hnew, hlen, hall⟩ :=
      spawnEnemies_new env g.enemySpawnCount { g with roundCount := g.roundCount + 1 }
    have hs := resolveSpawn_enemy env { g with roundCount := g.roundCount + 1 } hw
    have hc : (spawnEnemies env g.enemySpawnCount
        { g with roundCount := g.roundCount + 1 }).enemySpawnCount = g.enemySpawnCount := by
      rw [spawnEnemies_shape]
    simp only [resolveWarning, (partnerCadence_enemies env _).1,
      (partnerCadence_enemies env _).2]
    rw [hs]
    exact ⟨⟨new, hnew, hlen, hall⟩, congrArg (· + 1) hc⟩
  · intro hw
    have hs := resolveSpawn_attack env { g with roundCount := g.roundCount + 1 } hw
    simp only [resolveWarning, (partnerCadence_enemies env _).1,
      (partnerCadence_enemies env _).2]
    rw [hs]
    exact ⟨(spawnAttackBullets_enemies env _).1, (spawnAttackBullets_enemies env _).2.1⟩


theorem combatPhases_enemies (env : P5) (x : Game) (h1 : ∀ e ∈ x.enemies, e.health = 1) :
    (combatPhases env x).score + (combatPhases env x).enemies.length =
        x.score + x.enemies.length ∧
      x.score ≤ (combatPhases env x).score ∧
      (∀ e ∈ (combatPhases env x).enemies, e.health = 1) ∧
      (∀ e ∈ (attackBulletsLoop env
          (bulletsLoop env (updatePartners env x).bullets.length
            (updatePartners env x)).attackBullets.length
          (bulletsLoop env (updatePartners env x).bullets.length
            (updatePartners env x))).enemies, e.health = 1) := by
  have e3 : (updatePartners env x).enemies = x.enemies := by rw [updatePartners_shape]
  have s3 : (updatePartners env x).score = x.score := by rw [updatePartners_shape]
  obtain ⟨hsum, hle, _⟩ := bulletsLoop_account env (updatePartners env x).bullets.length
    (updatePartners env x) (le_refl _)
  have hsub := bulletsLoop_enemies_sublist env (updatePartners env x).bullets.length
    (updatePartners env x)
  rw [e3] at hsub
  rw [e3, s3] at hsum
  rw [s3] at hle
  have h4 : ∀ e ∈ (bulletsLoop env (updatePartners env x).bullets.length
      (updatePartners env x)).enemies, e.health = 1 :=
    fun e he => h1 e (hsub.subset he)
  have h5 : ∀ e ∈ (attackBulletsLoop env
      (bulletsLoop env (updatePartners env x).bullets.length
        (updatePartners env x)).attackBullets.length
      (bulletsLoop env (updatePartners env x).bullets.length
        (updatePartners env x))).enemies, e.health = 1 := by
    rw [attackBulletsLoop_enemies]
    exact h4
  obtain ⟨_, _, hlen6, h6⟩ := updateEnemies_enemies env _ h5
  rw [attackBulletsLoop_enemies] at hlen6
  have hscore : (combatPhases env x).score =
      (bulletsLoop env (updatePartners env x).bullets.length (updatePartners env x)).score := by
    simp only [combatPhases]
    rw [deathCheck_shape, pickupsLoop_shape, updateEnemies_shape, attackBulletsLoop_shape]
  have henemies : (combatPhases env x).enemies =
      (updateEnemies env (attackBulletsLoop env
        (bulletsLoop env (updatePartners env x).bullets.length
          (updatePartners env x)).attackBullets.length
        (bulletsLoop env (updatePartners env x).bullets.length
          (updatePartners env x)))).enemies := by
    simp only [combatPhases]
    rw [deathCheck_shape, pickupsLoop_shape]
  refine ⟨by rw [hscore, henemies, hlen6]; exact hsum, by rw [hscore]; exact hle, ?_, h5⟩
  rw [henemies]
  exact h6

theorem warning_enemies (env : P5) (x : Game) :
    (runWarning env (startWarning env x)).score = x.score ∧
    (x.warningActive = true → x.warningTimer - 1 ≤ 0 → x.warningType = WarningType.enemy →
      (∃ new : List Enemy,
        (runWarning env (startWarning env x)).enemies = x.enemies ++ new ∧
        new.length = x.enemySpawnCount ∧ ∀ e ∈ new, e.health = 1) ∧
      (runWarning env (startWarning env x)).enemySpawnCount = x.enemySpawnCount + 1) ∧
    (¬ (x.warningActive = true ∧ x.warningTimer - 1 ≤ 0 ∧
        x.warningType = WarningType.enemy) →
      (runWarning env (startWarning env x)).enemies = x.enemies ∧
      (runWarning env (startWarning env x)).enemySpawnCount = x.enemySpawnCount) := by
  refine ⟨warning_frame (fun g => g.score) (fun _ _ _ _ _ _ _ _ _ _ _ => rfl) env x, ?_, ?_⟩
  · intro ha ht hw
    rw [startWarning_active env x ha, runWarning_resolve env x ha ht]
    exact (resolveWarning_enemies env { x with warningTimer := x.warningTimer - 1 }).2.1 hw
  · intro hnot
    cases ha : x.warningActive with
    | false =>
      have hs : (startWarning env x).enemies = x.enemies ∧
          (startWarning env x).enemySpawnCount = x.enemySpawnCount := by
        rw [startWarning_shape]; exact ⟨rfl, rfl⟩
      by_cases hy : x.frameCount - x.lastWarningFrame > warningInterval
      · rw [startWarning_due env x ha hy, runWarning_countdown env _ rfl (by norm_num)]
        exact ⟨rfl, rfl⟩
      · rw [startWarning_early env x hy, runWarning_inactive env x ha]
        exact ⟨rfl, rfl⟩
    | true =>
      rw [startWarning_active env x ha]
      by_cases ht : x.warningTimer - 1 ≤ 0
      · rw [runWarning_resolve env x ha ht]
        have hw : x.warningType = WarningType.attack := by
          cases hty : x.warningType with
          | enemy => exact absurd ⟨ha, ht, hty⟩ hnot
          | attack => rfl
        exact (resolveWarning_enemies env { x with warningTimer := x.warningTimer - 1 }).2.2 hw
      · rw [runWarning_countdown env x ha ht]
        exact ⟨rfl, rfl⟩

theorem spawnsIn_running (g : Game) (hs : g.gameStarted = true) (ho : g.gameOver = false) :
    spawnsIn g =
      if g.warningActive = true ∧ g.warningTimer - 1 ≤ 0 ∧ g.warningType = WarningType.enemy
      then g.enemySpawnCount else 0 := by
  unfold spawnsIn resolvesIn
  simp only [hs, ho, Bool.not_false, Bool.and_self, Bool.true_and, Bool.and_eq_true,
    decide_eq_true_eq, and_assoc]

theorem spawnsIn_not_running (g : Game) (h : g.gameStarted = false ∨ g.gameOver = true) :
    spawnsIn g = 0 := by
  unfold spawnsIn
  rw [resolvesIn_false_of_not_running g h]
  simp

/-- One call of `draw`, read on the enemies: enemies and score move together, and the list
grows by the enemies this call spawns. -/
theorem draw_enemies (env : P5) (inp : Input) (g : Game)
    (h1 : ∀ e ∈ g.enemies, e.health = 1) :
    (draw env inp g).score + (draw env inp g).enemies.length =
        g.score + g.enemies.length + spawnsIn g ∧
      g.score ≤ (draw env inp g).score ∧
      (∀ e ∈ (draw env inp g).enemies, e.health = 1) ∧
      (∑ i in Finset.range (draw env inp g).enemySpawnCount, i) =
        (∑ i in Finset.range g.enemySpawnCount, i) + spawnsIn g := by
  cases hs : g.gameStarted with
  | false =>
    have hd : draw env inp g = g := by unfold draw; simp [hs]
    rw [hd, spawnsIn_not_running g (Or.inl hs)]
    exact ⟨rfl, le_refl _, h1, rfl⟩
  | true =>
    cases ho : g.gameOver with
    | true =>
      rw [draw_of_gameOver env inp g ho, spawnsIn_not_running g (Or.inr ho)]
      exact ⟨rfl, le_refl _, h1, rfl⟩
    | false =>
      rw [draw_running env inp g hs ho, tick_eq_phases, spawnsIn_running g hs ho]
      have e2 : (ammoWarningPhase (playerPhase env inp g)).enemies = g.enemies := by
        rw [ammoWarningPhase_shape, playerPhase_shape]
      have s2 : (ammoWarningPhase (playerPhase env inp g)).score = g.score := by
        rw [ammoWarningPhase_shape, playerPhase_shape]
      obtain ⟨hsum, hle, hX, _⟩ := combatPhases_enemies env
        (ammoWarningPhase (playerPhase env inp g)) (by rw [e2]; exact h1)
      rw [e2, s2] at hsum
      rw [s2] at hle
      have hwa := preWarning_frame (fun x => x.warningActive)
        (fun _ _ _ _ _ _ _ _ _ _ _ => rfl) env inp g
      have hwt := preWarning_frame (fun x => x.warningTimer)
        (fun _ _ _ _ _ _ _ _ _ _ _ => rfl) env inp g
      have hty := preWarning_frame (fun x => x.warningType)
        (fun _ _ _ _ _ _ _ _ _ _ _ => rfl) env inp g
      have hsc := preWarning_frame (fun x => x.enemySpawnCount)
        (fun _ _ _ _ _ _ _ _ _ _ _ => rfl) env inp g
      simp only [] at hwa hwt hty hsc
      obtain ⟨wscore, wspawn, wkeep⟩ :=
        warning_enemies env (combatPhases env (ammoWarningPhase (playerPhase env inp g)))
      rw [hwa, hwt, hty, hsc] at wspawn wkeep
      rw [wscore]
      by_cases hc : g.warningActive = true ∧ g.warningTimer - 1 ≤ 0 ∧
          g.warningType = WarningType.enemy
      · obtain ⟨⟨new, hnew, hlen, hall⟩, hcount⟩ := wspawn hc.1 hc.2.1 hc.2.2
        rw [if_pos hc, hnew, hcount, List.length_append, hlen, Finset.sum_range_succ]
        refine ⟨by omega, hle, ?_, rfl⟩
        intro e he
        rcases List.mem_append.mp he with h | h
        · exact hX e h
        · exact hall e h
      · obtain ⟨henemies, hcount⟩ := wkeep hc
        rw [if_neg hc, henemies, hcount]
        exact ⟨by omega, hle, hX, rfl⟩

theorem keyPressed_enemies (env : P5) (key : String) (inp : Input) (g : Game) :
    (keyPressed env key inp g).enemies = g.enemies ∧
      (keyPressed env key inp g).score = g.score ∧
      (keyPressed env key inp g).enemySpawnCount = g.enemySpawnCount := by
  have hshoot : (Player.shoot env inp g).enemies = g.enemies ∧
      (Player.shoot env inp g).score = g.score ∧
      (Player.shoot env inp g).enemySpawnCount = g.enemySpawnCount := by
    rw [Player.shoot_shape]; exact ⟨rfl, rfl, rfl⟩
  unfold keyPressed
  simp only []
  split_ifs <;> first | exact ⟨rfl, rfl, rfl⟩ | exact hshoot

theorem run_enemies (env : P5) (evs : List Event) (g : Game)
    (h1 : ∀ e ∈ g.enemies, e.health = 1) :
    (∀ e ∈ (run env g evs).enemies, e.health = 1) ∧
      (run env g evs).score + (run env g evs).enemies.length =
        g.score + g.enemies.length + spawnedTotal env g evs ∧
      (∑ i in Finset.range (run env g evs).enemySpawnCount, i) =
        (∑ i in Finset.range g.enemySpawnCount, i) + spawnedTotal env g evs := by
  induction evs generalizing g with
  | nil => exact ⟨h1, by simp [run, spawnedTotal], by simp [run, spawnedTotal]⟩
  | cons ev rest ih =>
    have hrun : run env g (ev :: rest) = run env (step env g ev) rest := rfl
    rw [hrun]
    cases ev with
    | frame inp =>
      obtain ⟨d1, _, d3, d4⟩ := draw_enemies env inp (advanceFrame g) h1
      obtain ⟨i1, i2, i3⟩ := ih (step env g (Event.frame inp)) d3
      refine ⟨i1, ?_, ?_⟩
      · rw [i2]
        simp only [spawnedTotal, step]
        rw [d1]
        simp only [advanceFrame]
        omega
      · rw [i3]
        simp only [spawnedTotal, step]
        rw [d4]
        simp only [advanceFrame]
        omega
    | key k inp =>
      obtain ⟨k1, k2, k3⟩ := keyPressed_enemies env k inp g
      obtain ⟨i1, i2, i3⟩ := ih (step env g (Event.key k inp))
        (by simp only [step]; rw [k1]; exact h1)
      refine ⟨i1, ?_, ?_⟩
      · rw [i2]
        simp only [spawnedTotal, step]
        rw [k1, k2]
      · rw [i3]
        simp only [spawnedTotal, step]
        rw [k3]

/-- C18: in every state reached from `setup` every enemy has health exactly 1; the filter
that follows the enemy loop of the next frame therefore removes nothing; in one call of
`draw` the enemy list shrinks only by the kills of the bullet loop (the score increase) and
grows by the enemies spawned; and the score plus the number of enemies in the list is the
total number of enemies spawned so far, which is `1 + 2 + ... + (enemySpawnCount - 1)`. -/
theorem enemy_conservation (env : P5) (evs : List Event) :
    (∀ e ∈ (run env setup evs).enemies, e.health = 1) ∧
    (run env setup evs).score + (run env setup evs).enemies.length =
      spawnedTotal env setup evs ∧
    (run env setup evs).score + (run env setup evs).enemies.length =
      ∑ i in Finset.range (run env setup evs).enemySpawnCount, i ∧
    (∀ inp : Input,
      (updateEnemies env
        (attackBulletsLoop env
          (beforeCombat env inp (advanceFrame (run env setup evs))).attackBullets.length
          (beforeCombat env inp (advanceFrame (run env setup evs))))).enemies =
      (enemiesLoop env
        (attackBulletsLoop env
          (beforeCombat env inp (advanceFrame (run env setup evs))).attackBullets.length
          (beforeCombat env inp (advanceFrame (run env setup evs)))).enemies
        (attackBulletsLoop env
          (beforeCombat env inp (advanceFrame (run env setup evs))).attackBullets.length
          (beforeCombat env inp (advanceFrame (run env setup evs))))).1) ∧
    (∀ inp : Input,
      (run env setup evs).score ≤ (step env (run env setup evs) (Event.frame inp)).score ∧
      (step env (run env setup evs) (Event.frame inp)).enemies.length +
          ((step env (run env setup evs) (Event.frame inp)).score -
            (run env setup evs).score) =
        (run env setup evs).enemies.length + spawnsIn (advanceFrame (run env setup evs))) := by
  have h0 : ∀ e ∈ setup.enemies, e.health = 1 := by
    intro e he
    simp [setup] at he
  obtain ⟨r1, r2, r3⟩ := run_enemies env evs setup h0
  have hsetup : setup.score + setup.enemies.length = 0 := rfl
  have hsum0 : (∑ i in Finset.range setup.enemySpawnCount, i) = 0 := by
    simp [setup]
  refine ⟨r1, by rw [r2, hsetup]; omega, by rw [r2, r3, hsetup, hsum0], ?_, ?_⟩
  · intro inp
    have e2 : (ammoWarningPhase (playerPhase env inp
        (advanceFrame (run env setup evs)))).enemies = (run env setup evs).enemies := by
      rw [ammoWarningPhase_shape, playerPhase_shape]
      rfl
    obtain ⟨_, _, _, h5⟩ := combatPhases_enemies env
      (ammoWarningPhase (playerPhase env inp (advanceFrame (run env setup evs))))
      (by rw [e2]; exact r1)
    exact (updateEnemies_enemies env _ h5).1
  · intro inp
    obtain ⟨d1, d2, _, _⟩ := draw_enemies env inp (advanceFrame (run env setup evs)) r1
    simp only [step]
    simp only [advanceFrame] at d1 d2 ⊢
    exact ⟨d2, by omega⟩


/-! ## The bound flag of the partners -/

theorem Partner.shoot_bound (env : P5) (pt : Partner) (g : Game) :
    (Partner.shoot env pt g).1.bound = pt.bound := by
  unfold Partner.shoot
  split <;> rfl

theorem Partner.update_bound (env : P5) (pt : Partner) (g : Game) :
    (Partner.update env pt g).1.bound =
      (pt.bound &&
        !distLt pt.x pt.y g.player.x g.player.y (pt.size / 2 + g.player.size / 2)) := by
  unfold Partner.update
  cases hb : pt.bound with
  | true =>
    simp only [if_true, Bool.true_and]
    split_ifs with hd
    · rw [hd]; rfl
    · simp only [Bool.not_eq_true] at hd
      rw [hd]; exact hb
  | false =>
    simp only [Bool.false_eq_true, if_false, random, Bool.false_and]
    split_ifs <;> first | rfl | rw [Partner.shoot_bound]

theorem boundFalls_refl (ps : List Partner) : List.Forall₂ boundFalls ps ps := by
  induction ps with
  | nil => exact List.Forall₂.nil
  | cons p rest ih => exact List.Forall₂.cons (fun h => h) ih

theorem boundFalls_trans (ps qs rs : List Partner) (h1 : List.Forall₂ boundFalls ps qs)
    (h2 : List.Forall₂ boundFalls qs rs) : List.Forall₂ boundFalls ps rs := by
  induction h1 generalizing rs with
  | nil => cases h2; exact List.Forall₂.nil
  | cons hpq _ ih =>
    cases h2 with
    | cons hqr hrest => exact List.Forall₂.cons (fun h => hpq (hqr h)) (ih _ hrest)

theorem boundFalls_map (f : Partner → Partner) (hf : ∀ p, (f p).bound = p.bound)
    (ps : List Partner) : List.Forall₂ boundFalls ps (ps.map f) := by
  induction ps with
  | nil => exact List.Forall₂.nil
  | cons p rest ih =>
    exact List.Forall₂.cons (fun h => by rw [hf] at h; exact h) ih

theorem boundFalls_countP (ps qs : List Partner) (h : List.Forall₂ boundFalls ps qs) :
    qs.countP (fun p => p.bound) ≤ ps.countP (fun p => p.bound) := by
  induction h with
  | nil => exact le_refl _
  | @cons p q ps qs hpq _ ih =>
    rw [List.countP_cons, List.countP_cons]
    cases hq : q.bound with
    | false =>
      simp only [Bool.false_eq_true, if_false, add_zero]
      omega
    | true =>
      rw [hpq hq]
      simpa using ih

theorem partnersLoop_bound (env : P5) (ps : List Partner) (g : Game) :
    List.Forall₂ boundFalls ps (partnersLoop env ps g).1 := by
  induction ps generalizing g with
  | nil => exact List.Forall₂.nil
  | cons pt rest ih =>
    simp only [partnersLoop]
    refine List.Forall₂.cons ?_ (ih _)
    intro h
    rw [Partner.update_bound] at h
    simp only [Bool.and_eq_true] at h
    exact h.1

theorem combatPhases_partners (env : P5) (x : Game) :
    List.Forall₂ boundFalls x.partners (combatPhases env x).partners := by
  have h1 : (combatPhases env x).partners =
      (updateEnemies env (attackBulletsLoop env
        (bulletsLoop env (updatePartners env x).bullets.length
          (updatePartners env x)).attackBullets.length
        (bulletsLoop env (updatePartners env x).bullets.length
          (updatePartners env x)))).partners := by
    simp only [combatPhases]
    rw [deathCheck_shape, pickupsLoop_shape]
  have h2 : ∀ y : Game, (updateEnemies env y).partners = (enemiesLoop env y.enemies y).2.partners :=
    fun _ => rfl
  have h3 : (attackBulletsLoop env
        (bulletsLoop env (updatePartners env x).bullets.length
          (updatePartners env x)).attackBullets.length
        (bulletsLoop env (updatePartners env x).bullets.length
          (updatePartners env x))).partners = (partnersLoop env x.partners x).1 := by
    rw [attackBulletsLoop_shape, bulletsLoop_shape]
    rfl
  rw [h1, h2, enemiesLoop_partners, h3]
  refine boundFalls_trans _ _ _ (partnersLoop_bound env x.partners x) (boundFalls_map _ ?_ _)
  intro p
  split_ifs with hb
  · rfl
  · rfl

theorem partnerCadence_partners (env : P5) (g : Game) :
    (partnerCadence env g).partners = g.partners ∨
      ∃ pt : Partner, (partnerCadence env g).partners = g.partners ++ [pt] ∧
        pt.bound = true ∧ 3 ≤ g.roundCount ∧
        (g.roundCount = 3 ∨ ∀ q ∈ g.partners, q.bound = false) := by
  unfold partnerCadence
  simp only [random]
  split_ifs with h0 h3 hb hr
  · exact Or.inr ⟨_, rfl, rfl, by omega, Or.inl h3⟩
  · refine Or.inr ⟨_, rfl, rfl, ?_, Or.inr ?_⟩
    · simp only [Bool.and_eq_true, decide_eq_true_eq] at h0
      omega
    · simp only [Bool.not_eq_true'] at hb
      exact (any_bound_eq_false g.partners).mp hb
  · exact Or.inl rfl
  · exact Or.inl rfl
  · exact Or.inl rfl

theorem warning_partners (env : P5) (x : Game) :
    ((runWarning env (startWarning env x)).partners = x.partners ∧
        x.roundCount ≤ (runWarning env (startWarning env x)).roundCount) ∨
      ∃ pt : Partner, (runWarning env (startWarning env x)).partners = x.partners ++ [pt] ∧
        pt.bound = true ∧ 3 ≤ (runWarning env (startWarning env x)).roundCount ∧
        ((runWarning env (startWarning env x)).roundCount = 3 ∧ x.roundCount = 2 ∨
          ∀ q ∈ x.partners, q.bound = false) := by
  have hres : ∀ z : Game,
      ((resolveWarning env z).partners = z.partners ∧
        z.roundCount ≤ (resolveWarning env z).roundCount) ∨
      ∃ pt : Partner, (resolveWarning env z).partners = z.partners ++ [pt] ∧
        pt.bound = true ∧ 3 ≤ (resolveWarning env z).roundCount ∧
        ((resolveWarning env z).roundCount = 3 ∧ z.roundCount = 2 ∨
          ∀ q ∈ z.partners, q.bound = false) := by
    intro z
    have hrc := (resolveWarning_fields env z).2.2.1
    have hsp : (resolveSpawn env { z with roundCount := z.roundCount + 1 }).partners =
        z.partners := by rw [resolveSpawn_shape]
    have hsr : (resolveSpawn env { z with roundCount := z.roundCount + 1 }).roundCount =
        z.roundCount + 1 := by rw [resolveSpawn_shape]
    have hY : resolveWarning env z =
        partnerCadence env
          { resolveSpawn env { z with roundCount := z.roundCount + 1 } with
            warningActive := false
            lastWarningFrame :=
              (resolveSpawn env { z with roundCount := z.roundCount + 1 }).frameCount } := rfl
    rcases partnerCadence_partners env
        { resolveSpawn env { z with roundCount := z.roundCount + 1 } with
          warningActive := false
          lastWarningFrame :=
            (resolveSpawn env { z with roundCount := z.roundCount + 1 }).frameCount } with
      h | ⟨pt, h, hb, h3, hor⟩
    · left
      rw [hrc]
      rw [hY, h]
      exact ⟨hsp, by omega⟩
    · right
      have hpart : (resolveWarning env z).partners = z.partners ++ [pt] := by
        rw [hY, h]
        exact congrArg (fun l => l ++ [pt]) hsp
      simp only [] at h3 hor
      rw [hsp] at hor
      rw [hsr] at h3 hor
      refine ⟨pt, hpart, hb, by rw [hrc]; exact h3, ?_⟩
      rcases hor with h | h
      · left; rw [hrc]; exact ⟨h, by omega⟩
      · right; exact h
  cases ha : x.warningActive with
  | false =>
    by_cases hy : x.frameCount - x.lastWarningFrame > warningInterval
    · rw [startWarning_due env x ha hy, runWarning_countdown env _ rfl (by norm_num)]
      exact Or.inl ⟨rfl, le_refl _⟩
    · rw [startWarning_early env x hy, runWarning_inactive env x ha]
      exact Or.inl ⟨rfl, le_refl _⟩
  | true =>
    rw [startWarning_active env x ha]
    by_cases ht : x.warningTimer - 1 ≤ 0
    · rw [runWarning_resolve env x ha ht]
      exact hres { x with warningTimer := x.warningTimer - 1 }
    · rw [runWarning_countdown env x ha ht]
      exact Or.inl ⟨rfl, le_refl _⟩

/-- One call of `draw`, read on the partners, from a state in which at most one partner is
bound and the list is empty before round 3. -/
theorem draw_partners (env : P5) (inp : Input) (g : Game)
    (h1 : g.partners.countP (fun p => p.bound) ≤ 1)
    (h2 : g.roundCount < 3 → g.partners = []) :
    (∃ P : List Partner, List.Forall₂ boundFalls g.partners P ∧
      ((draw env inp g).partners = P ∨
        ∃ pt : Partner, (draw env inp g).partners = P ++ [pt] ∧ pt.bound = true ∧
          ∀ q ∈ P, q.bound = false)) ∧
    (draw env inp g).partners.countP (fun p => p.bound) ≤ 1 ∧
    ((draw env inp g).roundCount < 3 → (draw env inp g).partners = []) := by
  have hstay : ∀ g' : Game, g' = g →
      (∃ P : List Partner, List.Forall₂ boundFalls g.partners P ∧
        (g'.partners = P ∨
          ∃ pt : Partner, g'.partners = P ++ [pt] ∧ pt.bound = true ∧
            ∀ q ∈ P, q.bound = false)) ∧
      g'.partners.countP (fun p => p.bound) ≤ 1 ∧
      (g'.roundCount < 3 → g'.partners = []) := by
    intro g' he
    rw [he]
    exact ⟨⟨g.partners, boundFalls_refl _, Or.inl rfl⟩, h1, h2⟩
  cases hs : g.gameStarted with
  | false => exact hstay _ (by unfold draw; simp [hs])
  | true =>
    cases ho : g.gameOver with
    | true => exact hstay _ (draw_of_gameOver env inp g ho)
    | false =>
      rw [draw_running env inp g hs ho, tick_eq_phases]
      have hP := combatPhases_partners env (ammoWarningPhase (playerPhase env inp g))
      have e2 : (ammoWarningPhase (playerPhase env inp g)).partners = g.partners := by
        rw [ammoWarningPhase_shape, playerPhase_shape]
      rw [e2] at hP
      have hrc := preWarning_frame (fun x => x.roundCount)
        (fun _ _ _ _ _ _ _ _ _ _ _ => rfl) env inp g
      simp only [] at hrc
      have hcount := boundFalls_countP _ _ hP
      have hlen := hP.length_eq
      rcases warning_partners env (combatPhases env (ammoWarningPhase (playerPhase env inp g)))
        with ⟨hp, hr⟩ | ⟨pt, hp, hb, h3, hor⟩
      · rw [hrc] at hr
        refine ⟨⟨_, hP, Or.inl hp⟩, by rw [hp]; omega, ?_⟩
        intro hlt
        have hnil := h2 (by omega)
        rw [hnil] at hlen
        rw [hp]
        exact List.length_eq_zero.mp hlen.symm
      · rw [hrc] at hor
        have hnone : ∀ q ∈ (combatPhases env
            (ammoWarningPhase (playerPhase env inp g))).partners, q.bound = false := by
          rcases hor with ⟨_, h⟩ | h
          · have hnil := h2 (by omega)
            rw [hnil] at hlen
            rw [List.length_eq_zero.mp hlen.symm]
            intro q hq
            simp at hq
          · exact h
        refine ⟨⟨_, hP, Or.inr ⟨pt, hp, hb, hnone⟩⟩, ?_, fun hlt => by omega⟩
        rw [hp, List.countP_append]
        have h0 : List.countP (fun p => p.bound)
            (combatPhases env (ammoWarningPhase (playerPhase env inp g))).partners = 0 := by
          rw [List.countP_eq_zero]
          intro q hq
          rw [hnone q hq]
          decide
        rw [h0]
        simp [hb]

theorem keyPressed_partners (env : P5) (key : String) (inp : Input) (g : Game) :
    (keyPressed env key inp g).partners = g.partners := by
  have hshoot : (Player.shoot env inp g).partners = g.partners := by
    rw [Player.shoot_shape]
  unfold keyPressed
  simp only []
  split_ifs <;> first | rfl | exact hshoot

theorem run_partners (env : P5) (evs : List Event) (g : Game)
    (h1 : g.partners.countP (fun p => p.bound) ≤ 1)
    (h2 : g.roundCount < 3 → g.partners = []) :
    (run env g evs).partners.countP (fun p => p.bound) ≤ 1 ∧
      ((run env g evs).roundCount < 3 → (run env g evs).partners = []) := by
  induction evs generalizing g with
  | nil => exact ⟨h1, h2⟩
  | cons ev rest ih =>
    have hrun : run env g (ev :: rest) = run env (step env g ev) rest := rfl
    rw [hrun]
    cases ev with
    | frame inp =>
      obtain ⟨_, d2, d3⟩ := draw_partners env inp (advanceFrame g) h1 h2
      exact ih _ d2 d3
    | key k inp =>
      apply ih
      · simp only [step]; rw [keyPressed_partners]; exact h1
      · simp only [step]; rw [keyPressed_partners, keyPressed_roundCount]; exact h2

/-- C19: in every state reached from `setup` at most one partner of the list is bound and
the list is empty while `roundCount < 3`; every event keeps the partners already in the list,
with a bound flag that can only go from true to false, and appends at most one partner, a
bound one, only when no other partner of the list is bound; `Partner.update` leaves a partner
bound exactly when it was bound and is not in contact with the player. -/
theorem single_bound_ally (env : P5) (evs : List Event) :
    (run env setup evs).partners.countP (fun p => p.bound) ≤ 1 ∧
    ((run env setup evs).roundCount < 3 → (run env setup evs).partners = []) ∧
    (∀ ev : Event, ∃ P : List Partner,
      List.Forall₂ boundFalls (run env setup evs).partners P ∧
      ((step env (run env setup evs) ev).partners = P ∨
        ∃ pt : Partner, (step env (run env setup evs) ev).partners = P ++ [pt] ∧
          pt.bound = true ∧ ∀ q ∈ P, q.bound = false)) ∧
    (∀ (pt : Partner) (g : Game),
      (Partner.update env pt g).1.bound =
        (pt.bound &&
          !distLt pt.x pt.y g.player.x g.player.y (pt.size / 2 + g.player.size / 2))) := by
  obtain ⟨r1, r2⟩ := run_partners env evs setup (by simp [setup]) (fun _ => rfl)
  refine ⟨r1, r2, ?_, Partner.update_bound env⟩
  intro ev
  cases ev with
  | frame inp => exact (draw_partners env inp (advanceFrame (run env setup evs)) r1 r2).1
  | key k inp =>
    exact ⟨_, boundFalls_refl _, Or.inl (keyPressed_partners env k inp _)⟩


/-! ## The ammo pools -/

theorem Player.shoot_pools (env : P5) (inp : Input) (g : Game) :
    (ammoPools (Player.shoot env inp g) = ammoPools g ∧
        ¬ (g.player.cooldown ≤ 0 ∧ g.player.weapon = 2 ∧ 0 < g.player.ammoMachine) ∧
        ¬ (g.player.cooldown ≤ 0 ∧ g.player.weapon = 3 ∧ 7 ≤ g.player.ammoShotgun)) ∨
      (g.player.cooldown ≤ 0 ∧ g.player.weapon = 2 ∧ 0 < g.player.ammoMachine ∧
        ammoPools (Player.shoot env inp g) =
          (g.player.ammoMachine - 1, g.player.ammoShotgun)) ∨
      (g.player.cooldown ≤ 0 ∧ g.player.weapon = 3 ∧ 7 ≤ g.player.ammoShotgun ∧
        ammoPools (Player.shoot env inp g) =
          (g.player.ammoMachine, g.player.ammoShotgun - 7)) := by
  unfold Player.shoot
  simp only []
  split_ifs with hc h1 h2 ha h3 hs
  · exact Or.inl ⟨rfl, by omega, by omega⟩
  · exact Or.inl ⟨rfl, by omega, by omega⟩
  · exact Or.inr (Or.inl ⟨by omega, h2, ha, rfl⟩)
  · exact Or.inl ⟨rfl, by omega, by omega⟩
  · exact Or.inr (Or.inr ⟨by omega, h3, hs, rfl⟩)
  · exact Or.inl ⟨rfl, by omega, by omega⟩
  · exact Or.inl ⟨rfl, by omega, by omega⟩

theorem pickupStep_pools (i : ℕ) (g : Game) :
    ammoPools (pickupStep i g) = ammoPools g ∨
      (∃ pk : Pickup, g.pickups[i]? = some pk ∧ pk.type = 2 ∧
        distLt pk.x pk.y g.player.x g.player.y (g.player.size / 2 + pk.size / 2) = true ∧
        ammoPools (pickupStep i g) = (g.player.ammoMachine + 30, g.player.ammoShotgun)) ∨
      (∃ pk : Pickup, g.pickups[i]? = some pk ∧ pk.type = 3 ∧
        distLt pk.x pk.y g.player.x g.player.y (g.player.size / 2 + pk.size / 2) = true ∧
        ammoPools (pickupStep i g) = (g.player.ammoMachine, g.player.ammoShotgun + 30)) := by
  unfold pickupStep
  cases hp : g.pickups[i]? with
  | none => exact Or.inl rfl
  | some pk =>
    simp only []
    split_ifs with hd h2 h3
    · exact Or.inr (Or.inl ⟨pk, rfl, h2, hd, rfl⟩)
    · exact Or.inr (Or.inr ⟨pk, rfl, h3, hd, rfl⟩)
    · exact Or.inl rfl
    · exact Or.inl rfl

theorem pickupsLoop_pools (n : ℕ) (g : Game) :
    Relation.ReflTransGen poolMove (ammoPools g) (ammoPools (pickupsLoop n g)) := by
  induction n generalizing g with
  | zero => exact Relation.ReflTransGen.refl
  | succ n ih =>
    simp only [pickupsLoop]
    refine Relation.ReflTransGen.trans ?_ (ih (pickupStep n g))
    rcases pickupStep_pools n g with h | ⟨_, _, _, _, h⟩ | ⟨_, _, _, _, h⟩
    · rw [h]
    · exact Relation.ReflTransGen.single (Or.inr (Or.inr (Or.inl h)))
    · exact Relation.ReflTransGen.single (Or.inr (Or.inr (Or.inr h)))

theorem shoot_poolMove (env : P5) (inp : Input) (g : Game) :
    Relation.ReflTransGen poolMove (ammoPools g) (ammoPools (Player.shoot env inp g)) := by
  rcases Player.shoot_pools env inp g with ⟨h, _⟩ | ⟨_, _, ha, h⟩ | ⟨_, _, hs, h⟩
  · rw [h]
  · exact Relation.ReflTransGen.single (Or.inl ⟨ha, h⟩)
  · exact Relation.ReflTransGen.single (Or.inr (Or.inl ⟨hs, h⟩))

theorem playerPhase_pools (env : P5) (inp : Input) (g : Game) :
    Relation.ReflTransGen poolMove (ammoPools g) (ammoPools (playerPhase env inp g)) := by
  unfold playerPhase
  simp only []
  split_ifs
  · exact shoot_poolMove env inp { g with player := g.player.update inp }
  · exact Relation.ReflTransGen.refl

theorem combatPhases_pools (env : P5) (x : Game) :
    Relation.ReflTransGen poolMove (ammoPools x) (ammoPools (combatPhases env x)) := by
  have h3 : ammoPools (updatePartners env x) = ammoPools x :=
    (congrArg ammoPools (updatePartners_shape env x)).trans rfl
  have h4 : ∀ n y, ammoPools (bulletsLoop env n y) = ammoPools y := fun n y =>
    (congrArg ammoPools (bulletsLoop_shape env n y)).trans rfl
  have h5 : ∀ n y, ammoPools (attackBulletsLoop env n y) = ammoPools y := fun n y =>
    (congrArg ammoPools (attackBulletsLoop_shape env n y)).trans rfl
  have h6 : ∀ y, ammoPools (updateEnemies env y) = ammoPools y := fun y =>
    (congrArg ammoPools (updateEnemies_shape env y)).trans rfl
  have h8 : ∀ y, ammoPools (deathCheck y) = ammoPools y := fun y =>
    (congrArg ammoPools (deathCheck_shape y)).trans rfl
  simp only [combatPhases]
  rw [h8]
  refine Relation.ReflTransGen.trans ?_ (pickupsLoop_pools _ _)
  rw [h6, h5, h4, h3]

theorem draw_pools (env : P5) (inp : Input) (g : Game) :
    Relation.ReflTransGen poolMove (ammoPools g) (ammoPools (draw env inp g)) := by
  cases hs : g.gameStarted with
  | false =>
    have hd : draw env inp g = g := by unfold draw; simp [hs]
    rw [hd]
  | true =>
    cases ho : g.gameOver with
    | true => rw [draw_of_gameOver env inp g ho]
    | false =>
      rw [draw_running env inp g hs ho, tick_eq_phases,
        warning_frame ammoPools (fun _ _ _ _ _ _ _ _ _ _ _ => rfl)]
      refine Relation.ReflTransGen.trans ?_ (combatPhases_pools env _)
      have h2 : ammoPools (ammoWarningPhase (playerPhase env inp g)) =
          ammoPools (playerPhase env inp g) :=
        (congrArg ammoPools (ammoWarningPhase_shape _)).trans rfl
      rw [h2]
      exact playerPhase_pools env inp g

theorem keyPressed_pools (env : P5) (key : String) (inp : Input) (g : Game) :
    Relation.ReflTransGen poolMove (ammoPools g) (ammoPools (keyPressed env key inp g)) := by
  have h1 : ∀ x : Game, Relation.ReflTransGen poolMove (ammoPools g) (ammoPools x) →
      Relation.ReflTransGen poolMove (ammoPools g)
        (ammoPools
          (if key = "1" then { x with player := { x.player with weapon := 1 } }
          else if key = "2" then { x with player := { x.player with weapon := 2 } }
          else if key = "3" then { x with player := { x.player with weapon := 3 } }
          else x)) := by
    intro x hx
    split_ifs <;> exact hx
  unfold keyPressed
  by_cases hs : (!g.gameStarted) = true
  · rw [if_pos hs]
    exact Relation.ReflTransGen.refl
  · rw [if_neg hs]
    refine h1 (if key = " " then Player.shoot env inp g else g) ?_
    split_ifs
    · exact shoot_poolMove env inp g
    · exact Relation.ReflTransGen.refl

theorem step_pools (env : P5) (g : Game) (ev : Event) :
    Relation.ReflTransGen poolMove (ammoPools g) (ammoPools (step env g ev)) := by
  cases ev with
  | frame inp =>
    simp only [step]
    exact draw_pools env inp (advanceFrame g)
  | key k inp => exact keyPressed_pools env k inp g

theorem run_pools (env : P5) (evs : List Event) (g : Game) :
    Relation.ReflTransGen poolMove (ammoPools g) (ammoPools (run env g evs)) := by
  induction evs generalizing g with
  | nil => exact Relation.ReflTransGen.refl
  | cons ev rest ih =>
    have hrun : run env g (ev :: rest) = run env (step env g ev) rest := rfl
    rw [hrun]
    exact Relation.ReflTransGen.trans (step_pools env g ev) (ih _)

theorem poolMove_nonneg (a b : ℤ × ℤ) (h : Relation.ReflTransGen poolMove a b)
    (ha : 0 ≤ a.1 ∧ 0 ≤ a.2) : 0 ≤ b.1 ∧ 0 ≤ b.2 := by
  induction h with
  | refl => exact ha
  | tail _ hm ih =>
    rcases hm with ⟨h1, h⟩ | ⟨h1, h⟩ | h | h <;> rw [h] <;> constructor <;>
      simp only [] <;> omega

/-- C20: the pools start at 100 and 100; in every state reached from `setup` both are
non-negative; every event moves them only by a chain of `poolMove` steps (one round off a
positive machine-gun pool, seven rounds off a shotgun pool of at least seven, thirty rounds
onto one pool); `Player.shoot` takes one machine-gun round exactly when the cooldown is over,
the weapon is 2 and the pool is positive, seven shotgun rounds exactly when the cooldown is
over, the weapon is 3 and the pool is at least 7, and the other pool stays; `pickupStep`
adds thirty rounds to the pool of the supply that is picked up and leaves the other pool. -/
theorem ammo_pools (env : P5) (evs : List Event) :
    ammoPools setup = (100, 100) ∧
    (0 ≤ (run env setup evs).player.ammoMachine ∧
      0 ≤ (run env setup evs).player.ammoShotgun) ∧
    (∀ (g : Game) (ev : Event),
      Relation.ReflTransGen poolMove (ammoPools g) (ammoPools (step env g ev))) ∧
    (∀ (inp : Input) (g : Game),
      (ammoPools (Player.shoot env inp g) = ammoPools g ∧
          ¬ (g.player.cooldown ≤ 0 ∧ g.player.weapon = 2 ∧ 0 < g.player.ammoMachine) ∧
          ¬ (g.player.cooldown ≤ 0 ∧ g.player.weapon = 3 ∧ 7 ≤ g.player.ammoShotgun)) ∨
        (g.player.cooldown ≤ 0 ∧ g.player.weapon = 2 ∧ 0 < g.player.ammoMachine ∧
          ammoPools (Player.shoot env inp g) =
            (g.player.ammoMachine - 1, g.player.ammoShotgun)) ∨
        (g.player.cooldown ≤ 0 ∧ g.player.weapon = 3 ∧ 7 ≤ g.player.ammoShotgun ∧
          ammoPools (Player.shoot env inp g) =
            (g.player.ammoMachine, g.player.ammoShotgun - 7))) ∧
    (∀ (i : ℕ) (g : Game),
      ammoPools (pickupStep i g) = ammoPools g ∨
        (∃ pk : Pickup, g.pickups[i]? = some pk ∧ pk.type = 2 ∧
          distLt pk.x pk.y g.player.x g.player.y (g.player.size / 2 + pk.size / 2) = true ∧
          ammoPools (pickupStep i g) = (g.player.ammoMachine + 30, g.player.ammoShotgun)) ∨
        (∃ pk : Pickup, g.pickups[i]? = some pk ∧ pk.type = 3 ∧
          distLt pk.x pk.y g.player.x g.player.y (g.player.size / 2 + pk.size / 2) = true ∧
          ammoPools (pickupStep i g) = (g.player.ammoMachine, g.player.ammoShotgun + 30))) :=
  ⟨rfl,
    poolMove_nonneg _ _ (run_pools env evs setup) ⟨by decide, by decide⟩,
    step_pools env, Player.shoot_pools env, pickupStep_pools⟩


/-! ## The firing period of a freed partner -/

theorem Partner.update_unbound (env : P5) (pt : Partner) (g : Game) (hb : pt.bound = false) :
    (Partner.update env pt g).1.bound = false ∧
    (0 < pt.cooldown →
      (Partner.update env pt g).1.cooldown = pt.cooldown - 1 ∧
      (Partner.update env pt g).2.bullets = g.bullets) ∧
    (pt.cooldown ≤ 0 → g.enemies ≠ [] →
      (Partner.update env pt g).1.cooldown = 30 ∧
      (Partner.update env pt g).2.bullets.length = g.bullets.length + 1) ∧
    (pt.cooldown ≤ 0 → g.enemies = [] →
      (Partner.update env pt g).1.cooldown = pt.cooldown ∧
      (Partner.update env pt g).2.bullets = g.bullets) := by
  refine ⟨by rw [Partner.update_bound, hb]; rfl, ?_, ?_, ?_⟩
  · intro hpos
    unfold Partner.update
    simp only [hb, random, Bool.false_eq_true, if_false]
    split_ifs <;> exact ⟨rfl, rfl⟩
  · intro hle hne
    obtain ⟨first, rest, hl⟩ := List.exists_cons_of_ne_nil hne
    have hnot : ¬ pt.cooldown > 0 := by omega
    unfold Partner.update
    simp only [hb, random, Bool.false_eq_true, if_false]
    split_ifs
    · dsimp only
      rw [Partner.shoot_cons env _ { g with rngIdx := g.rngIdx + 1 } first rest hl]
      exact ⟨rfl, by simp⟩
    · dsimp only
      rw [Partner.shoot_cons env _ g first rest hl]
      exact ⟨rfl, by simp⟩
  · intro hle hl
    have hnot : ¬ pt.cooldown > 0 := by omega
    have hs : ∀ (pt' : Partner) (g' : Game), g'.enemies = [] →
        Partner.shoot env pt' g' = (pt', g') := by
      intro pt' g' h
      unfold Partner.shoot
      rw [h]
    unfold Partner.update
    simp only [hb, random, Bool.false_eq_true, if_false]
    split_ifs
    · dsimp only
      rw [hs _ { g with rngIdx := g.rngIdx + 1 } hl]
      exact ⟨rfl, rfl⟩
    · dsimp only
      rw [hs _ g hl]
      exact ⟨rfl, rfl⟩

theorem partnersLoop_getElem (env : P5) (ps : List Partner) (g : Game) (i : ℕ) (p : Partner)
    (h : ps[i]? = some p) :
    (partnersLoop env ps g).1[i]? =
      some (Partner.update env p (partnersLoop env (ps.take i) g).2).1 := by
  induction ps generalizing g i with
  | nil => simp at h
  | cons pt rest ih =>
    cases i with
    | zero =>
      simp only [List.getElem?_cons_zero, Option.some.injEq] at h
      subst h
      simp [partnersLoop]
    | succ i =>
      simp only [List.getElem?_cons_succ] at h
      simp only [partnersLoop, List.take_succ_cons, List.getElem?_cons_succ]
      exact ih _ i h

theorem updatePartners_getElem (env : P5) (x : Game) (i : ℕ) (p : Partner)
    (h : x.partners[i]? = some p) :
    (updatePartners env x).partners[i]? =
      some (Partner.update env p (partnerTurn env i x)).1 :=
  partnersLoop_getElem env x.partners x i p h

theorem partnerTurn_enemies (env : P5) (i : ℕ) (x : Game) :
    (partnerTurn env i x).enemies = x.enemies := by
  unfold partnerTurn
  rw [partnersLoop_shape]

theorem beforePartners_keeps (env : P5) (inp : Input) (g : Game) :
    (beforePartners env inp g).enemies = g.enemies ∧
      (beforePartners env inp g).partners = g.partners := by
  unfold beforePartners
  rw [ammoWarningPhase_shape, playerPhase_shape]
  exact ⟨rfl, rfl⟩

theorem combatPhases_partner_at (env : P5) (x : Game) (i : ℕ) (q : Partner)
    (h : (updatePartners env x).partners[i]? = some q) :
    ∃ q' : Partner, (combatPhases env x).partners[i]? = some q' ∧
      q'.cooldown = q.cooldown ∧ q'.bound = q.bound := by
  have h1 : (combatPhases env x).partners =
      (updateEnemies env (attackBulletsLoop env
        (bulletsLoop env (updatePartners env x).bullets.length
          (updatePartners env x)).attackBullets.length
        (bulletsLoop env (updatePartners env x).bullets.length
          (updatePartners env x)))).partners := by
    simp only [combatPhases]
    rw [deathCheck_shape, pickupsLoop_shape]
  have h2 : ∀ y : Game,
      (updateEnemies env y).partners = (enemiesLoop env y.enemies y).2.partners :=
    fun _ => rfl
  have h3 : (attackBulletsLoop env
        (bulletsLoop env (updatePartners env x).bullets.length
          (updatePartners env x)).attackBullets.length
        (bulletsLoop env (updatePartners env x).bullets.length
          (updatePartners env x))).partners = (updatePartners env x).partners := by
    rw [attackBulletsLoop_shape, bulletsLoop_shape]
  rw [h1, h2, enemiesLoop_partners, h3, List.getElem?_map, h]
  refine ⟨_, rfl, ?_, ?_⟩
  · beta_reduce
    split_ifs <;> rfl
  · beta_reduce
    split_ifs <;> rfl

theorem tick_partner_at (env : P5) (inp : Input) (g : Game) (i : ℕ) (q : Partner)
    (h : (updatePartners env (beforePartners env inp g)).partners[i]? = some q) :
    ∃ q' : Partner, (tick env inp g).partners[i]? = some q' ∧
      q'.cooldown = q.cooldown ∧ q'.bound = q.bound := by
  obtain ⟨q', hq, hcd, hbd⟩ := combatPhases_partner_at env (beforePartners env inp g) i q h
  have hlt : i < (combatPhases env (beforePartners env inp g)).partners.length :=
    getElem?_lt_length hq
  unfold beforePartners at hq hlt
  rw [tick_eq_phases]
  refine ⟨q', ?_, hcd, hbd⟩
  rcases warning_partners env (combatPhases env (ammoWarningPhase (playerPhase env inp g)))
    with ⟨hp, _⟩ | ⟨pt, hp, _⟩
  · rw [hp]; exact hq
  · rw [hp, List.getElem?_append_left hlt]; exact hq

theorem period31_arith (k : ℕ) (c : ℤ)
    (hc : c = if k % 31 = 0 then 0 else 31 - ((k % 31 : ℕ) : ℤ)) :
    0 ≤ c ∧ (c ≤ 0 ↔ k % 31 = 0) ∧
      (c ≤ 0 → (30 : ℤ) = if (k + 1) % 31 = 0 then 0 else 31 - (((k + 1) % 31 : ℕ) : ℤ)) ∧
      (0 < c → c - 1 = if (k + 1) % 31 = 0 then 0 else 31 - (((k + 1) % 31 : ℕ) : ℤ)) := by
  split_ifs at hc with h0
  · subst hc
    refine ⟨le_refl _, by simp [h0], fun _ => ?_, fun h => absurd h (by decide)⟩
    rw [if_neg (by omega)]
    omega
  · subst hc
    refine ⟨by omega, by constructor <;> intro h <;> omega, fun h => by omega, fun _ => ?_⟩
    split_ifs with h1
    · omega
    · omega

theorem allyFire_invariant (env : P5) (inps : ℕ → Input) (g : Game) (n i : ℕ) (pt : Partner)
    (hs : g.gameStarted = true) (hp : g.partners[i]? = some pt)
    (hb : pt.bound = false) (hc : pt.cooldown = 0)
    (hrun : ∀ k, k < n → (runFrames env inps g k).gameOver = false)
    (hen : ∀ k, k < n → (runFrames env inps g k).enemies ≠ [])
    (k : ℕ) (hk : k ≤ n) :
    (runFrames env inps g k).gameStarted = true ∧
      ∃ p : Partner, (runFrames env inps g k).partners[i]? = some p ∧ p.bound = false ∧
        p.cooldown = if k % 31 = 0 then 0 else 31 - ((k % 31 : ℕ) : ℤ) := by
  induction k with
  | zero => exact ⟨hs, pt, hp, hb, by simpa using hc⟩
  | succ k ih =>
    obtain ⟨ihs, p, ihp, ihb, ihc⟩ := ih (by omega)
    have hstep : runFrames env inps g (k + 1) =
        tick env (inps k) (advanceFrame (runFrames env inps g k)) := by
      simp only [runFrames, step]
      exact draw_running env _ _ ihs (hrun k hk)
    obtain ⟨ke, kp⟩ := beforePartners_keeps env (inps k) (advanceFrame (runFrames env inps g k))
    have hx : (beforePartners env (inps k)
        (advanceFrame (runFrames env inps g k))).partners[i]? = some p := by
      rw [kp]; exact ihp
    have hne : (partnerTurn env i (beforePartners env (inps k)
        (advanceFrame (runFrames env inps g k)))).enemies ≠ [] := by
      rw [partnerTurn_enemies, ke]
      exact hen k hk
    obtain ⟨ub, uwait, ufire, _⟩ := Partner.update_unbound env p
      (partnerTurn env i (beforePartners env (inps k)
        (advanceFrame (runFrames env inps g k)))) ihb
    obtain ⟨q', hq, hcd, hbd⟩ := tick_partner_at env (inps k)
      (advanceFrame (runFrames env inps g k)) i _ (updatePartners_getElem env _ i p hx)
    obtain ⟨_, _, afire, await⟩ := period31_arith k p.cooldown ihc
    refine ⟨by rw [hstep, tick_gameStarted]; exact ihs, q', by rw [hstep]; exact hq,
      by rw [hbd]; exact ub, ?_⟩
    rw [hcd]
    by_cases hle : p.cooldown ≤ 0
    · rw [(ufire hle hne).1]
      exact afire hle
    · rw [(uwait (by omega)).1]
      exact await (by omega)


/-- C21: in a running game, a freed partner (index `i` of `partners`) whose cooldown is 0
before frame 0, with at least one enemy present at the start of every frame, fires on the
frames `k` with `k % 31 = 0` and on no other: on those frames its `update()` call, made by
the partner loop on the globals `partnerTurn`, appends exactly one bullet and sets the
cooldown to 30; on every other frame the call only lowers the cooldown, from
`31 - k % 31`, by one, and appends nothing.  `Partner.update` on a freed partner either
decrements a positive cooldown or fires at a cooldown that is not positive, never both.
With the pistol and fire held on every frame from cooldown 0, the player phase of the same
frames appends one bullet exactly when `k % 30 = 0`. -/
theorem ally_fire_period (env : P5) (inps : ℕ → Input) (g : Game) (n i : ℕ) (pt : Partner)
    (hs : g.gameStarted = true) (hp : g.partners[i]? = some pt)
    (hb : pt.bound = false) (hc : pt.cooldown = 0)
    (hrun : ∀ k, k < n → (runFrames env inps g k).gameOver = false)
    (hen : ∀ k, k < n → (runFrames env inps g k).enemies ≠ []) :
    (∀ k, k < n → ∃ p : Partner,
      (runFrames env inps g k).partners[i]? = some p ∧ p.bound = false ∧
      (updatePartners env
          (beforePartners env (inps k) (advanceFrame (runFrames env inps g k)))).partners[i]? =
        some (Partner.update env p
          (partnerTurn env i
            (beforePartners env (inps k) (advanceFrame (runFrames env inps g k))))).1 ∧
      (k % 31 = 0 →
        p.cooldown = 0 ∧
        (Partner.update env p
          (partnerTurn env i
            (beforePartners env (inps k)
              (advanceFrame (runFrames env inps g k))))).2.bullets.length =
          (partnerTurn env i
            (beforePartners env (inps k)
              (advanceFrame (runFrames env inps g k)))).bullets.length + 1 ∧
        (Partner.update env p
          (partnerTurn env i
            (beforePartners env (inps k)
              (advanceFrame (runFrames env inps g k))))).1.cooldown = 30) ∧
      (k % 31 ≠ 0 →
        p.cooldown = 31 - ((k % 31 : ℕ) : ℤ) ∧
        (Partner.update env p
          (partnerTurn env i
            (beforePartners env (inps k)
              (advanceFrame (runFrames env inps g k))))).2.bullets =
          (partnerTurn env i
            (beforePartners env (inps k)
              (advanceFrame (runFrames env inps g k)))).bullets ∧
        (Partner.update env p
          (partnerTurn env i
            (beforePartners env (inps k)
              (advanceFrame (runFrames env inps g k))))).1.cooldown = p.cooldown - 1)) ∧
    (∀ (p : Partner) (x : Game), p.bound = false →
      (0 < p.cooldown →
        (Partner.update env p x).1.cooldown = p.cooldown - 1 ∧
        (Partner.update env p x).2.bullets = x.bullets) ∧
      (p.cooldown ≤ 0 → x.enemies ≠ [] →
        (Partner.update env p x).1.cooldown = 30 ∧
        (Partner.update env p x).2.bullets.length = x.bullets.length + 1) ∧
      (p.cooldown ≤ 0 → x.enemies = [] →
        (Partner.update env p x).1.cooldown = p.cooldown ∧
        (Partner.update env p x).2.bullets = x.bullets)) ∧
    (g.player.weapon = 1 → g.player.cooldown = 0 →
      (∀ k, k < n →
        ((inps k).mouseIsPressed && decide ((inps k).mouseButton = MouseButton.LEFT)) = true) →
      ∀ k, k < n →
        (k % 30 = 0 →
          (playerPhase env (inps k) (advanceFrame (runFrames env inps g k))).bullets.length =
            (runFrames env inps g k).bullets.length + 1) ∧
        (k % 30 ≠ 0 →
          (playerPhase env (inps k) (advanceFrame (runFrames env inps g k))).bullets =
            (runFrames env inps g k).bullets)) := by
  refine ⟨?_, fun p x hpb => (Partner.update_unbound env p x hpb).2, ?_⟩
  · intro k hk
    obtain ⟨_, p, ihp, ihb, ihc⟩ :=
      allyFire_invariant env inps g n i pt hs hp hb hc hrun hen k (le_of_lt hk)
    obtain ⟨ke, kp⟩ := beforePartners_keeps env (inps k) (advanceFrame (runFrames env inps g k))
    have hx : (beforePartners env (inps k)
        (advanceFrame (runFrames env inps g k))).partners[i]? = some p := by
      rw [kp]; exact ihp
    have hne : (partnerTurn env i (beforePartners env (inps k)
        (advanceFrame (runFrames env inps g k)))).enemies ≠ [] := by
      rw [partnerTurn_enemies, ke]
      exact hen k hk
    obtain ⟨_, uwait, ufire, _⟩ := Partner.update_unbound env p
      (partnerTurn env i (beforePartners env (inps k)
        (advanceFrame (runFrames env inps g k)))) ihb
    obtain ⟨_, hiff, _, _⟩ := period31_arith k p.cooldown ihc
    refine ⟨p, ihp, ihb, updatePartners_getElem env _ i p hx, ?_, ?_⟩
    · intro h0
      have hle : p.cooldown ≤ 0 := hiff.mpr h0
      exact ⟨by rw [ihc, if_pos h0], (ufire hle hne).2, (ufire hle hne).1⟩
    · intro h0
      have hpos : 0 < p.cooldown := not_le.mp (fun hle => h0 (hiff.mp hle))
      exact ⟨by rw [ihc, if_neg h0], (uwait hpos).2, (uwait hpos).1⟩
  · intro hw hpc hf k hk
    obtain ⟨_, ihw, ihc⟩ := heldFire_invariant env inps g n 1 30 (Or.inl ⟨rfl, rfl⟩) hs hw hpc
      hf hrun (fun h => absurd h (by decide)) k (le_of_lt hk)
    have hcur : (advanceFrame (runFrames env inps g k)).player.cooldown =
        (if k = 0 then 0 else ((30 : ℕ) : ℤ) - ((k - 1) % 30 : ℕ)) := ihc
    obtain ⟨hc0, _, _, hiff⟩ := cooldown_arith 30 k (Or.inl rfl) _ hcur
    obtain ⟨_, pfire, pwait⟩ :=
      heldFire_playerPhase env (inps k) (advanceFrame (runFrames env inps g k)) 30 (hf k hk)
        hc0 (Or.inl ⟨ihw, rfl⟩)
    refine ⟨fun h0 => ?_, fun h0 => (pwait (not_le.mp (fun hle => h0 (hiff.mp hle)))).1⟩
    rw [(pfire (hiff.mpr h0)).1, List.length_append]
    rfl

/-- Worked instance for C21 on `allyPatrol` with fire held for 63 frames: the partner fires on
frames 0, 31 and 62 and the player, with the pistol, on frames 0, 30 and 60. -/
theorem ally_fire_period_witness :
    allyPatrol.gameStarted = true ∧
    allyPatrol.partners[0]? = some (samplePartner 450 300 50 0 false) ∧
    (samplePartner 450 300 50 0 false).bound = false ∧
    (samplePartner 450 300 50 0 false).cooldown = 0 ∧
    (∀ k, k < 63 →
      (runFrames sampleEnv (fun _ => fireInput) allyPatrol k).gameOver = false) ∧
    (∀ k, k < 63 → (runFrames sampleEnv (fun _ => fireInput) allyPatrol k).enemies ≠ []) ∧
    (∀ k, k < 63 → ∃ p : Partner,
      (runFrames sampleEnv (fun _ => fireInput) allyPatrol k).partners[0]? = some p ∧
      (k % 31 = 0 →
        (Partner.update sampleEnv p
          (partnerTurn sampleEnv 0
            (beforePartners sampleEnv fireInput
              (advanceFrame
                (runFrames sampleEnv (fun _ => fireInput) allyPatrol k))))).2.bullets.length =
          (partnerTurn sampleEnv 0
            (beforePartners sampleEnv fireInput
              (advanceFrame
                (runFrames sampleEnv (fun _ => fireInput) allyPatrol k)))).bullets.length + 1) ∧
      (k % 31 ≠ 0 →
        (Partner.update sampleEnv p
          (partnerTurn sampleEnv 0
            (beforePartners sampleEnv fireInput
              (advanceFrame
                (runFrames sampleEnv (fun _ => fireInput) allyPatrol k))))).2.bullets =
          (partnerTurn sampleEnv 0
            (beforePartners sampleEnv fireInput
              (advanceFrame
                (runFrames sampleEnv (fun _ => fireInput) allyPatrol k)))).bullets)) ∧
    (∀ k, k < 63 →
      (k % 30 = 0 →
        (playerPhase sampleEnv fireInput
            (advanceFrame
              (runFrames sampleEnv (fun _ => fireInput) allyPatrol k))).bullets.length =
          (runFrames sampleEnv (fun _ => fireInput) allyPatrol k).bullets.length + 1) ∧
      (k % 30 ≠ 0 →
        (playerPhase sampleEnv fireInput
            (advanceFrame (runFrames sampleEnv (fun _ => fireInput) allyPatrol k))).bullets =
          (runFrames sampleEnv (fun _ => fireInput) allyPatrol k).bullets)) := by
  have hrun : ∀ k, k < 63 →
      (runFrames sampleEnv (fun _ => fireInput) allyPatrol k).gameOver = false := by decide!
  have hen : ∀ k, k < 63 →
      (runFrames sampleEnv (fun _ => fireInput) allyPatrol k).enemies ≠ [] := by decide!
  have h := ally_fire_period sampleEnv (fun _ => fireInput) allyPatrol 63 0
    (samplePartner 450 300 50 0 false) rfl rfl rfl rfl hrun hen
  refine ⟨rfl, rfl, rfl, rfl, hrun, hen, ?_, h.2.2 rfl rfl (fun _ _ => rfl)⟩
  intro k hk
  obtain ⟨p, h1, _, _, h4, h5⟩ := h.1 k hk
  exact ⟨p, h1, fun h0 => (h4 h0).2.1, fun h0 => (h5 h0).2.1⟩

end Sketch
